import Mathlib

/-!
# BansheeEngine GUIManager: batching and input routing

A shallow embedding of `BsGUIManager.cpp`.  Pointers (`GUIElement*`, `GUIWidget*`,
`Viewport*`, `RenderWindow*`) are natural numbers; a nullable pointer member is an
`Option Nat`.  The methods of the collaborators the manager only calls (widgets,
elements, windows, the input system, `Rect`) are the fields of `GUIEnv`.
-/

namespace BansheeEngine

/-! ## Data model -/

/-- Modelled from the spec: the framework rectangle `Rect` (declared in `CmRect.h`, which is
not among the sources): integer position and size. -/
structure Rect where
  x : Int
  y : Int
  width : Int
  height : Int
deriving DecidableEq, Repr

/-- Modelled from the spec: the framework integer point `Int2` (declared in `CmInt2.h`, which
is not among the sources); its default constructor gives the origin. -/
structure Int2 where
  x : Int
  y : Int
deriving DecidableEq, Repr

/-- The `GUIMouseButton` enumeration. -/
inductive GUIMouseButton where
  | Left
  | Middle
  | Right
deriving DecidableEq, Repr

/-- Modelled from the spec: the device button codes `ButtonCode` (declared in the input
headers, which are not among the sources), split by device as `ButtonEvent::isKeyboard` and
`ButtonEvent::isMouse` report it.  `mouseLeft`, `mouseMiddle`, `mouseRight` are
`BC_MOUSE_LEFT`, `BC_MOUSE_MIDDLE`, `BC_MOUSE_RIGHT`. -/
inductive ButtonCode where
  | key (code : Nat)
  | mouseLeft
  | mouseMiddle
  | mouseRight
  | mouseOther (code : Nat)
  | gamepad (code : Nat)
deriving DecidableEq, Repr

/-- The collaborators of the manager, as functions of the pointers they are called on. -/
structure GUIEnv where
  /-- Value of `GUIWidget::getElements()` -/
  getElements : Nat → List Nat
  /-- Value of `GUIWidget::isDirty(true)` -/
  widgetIsDirty : Nat → Bool
  /-- Value of `GUIWidget::getTarget()` -/
  getTarget : Nat → Nat
  /-- Value of `GUIWidget::getOwnerWindow()` -/
  getOwnerWindow : Nat → Nat
  /-- Value of `GUIWidget::inBounds(pos)` -/
  widgetInBounds : Nat → Int2 → Bool
  /-- The window position `pos` multiplied by the inverse of `GUIWidget::SO()->getWorldTfrm()`
  and rounded to the nearest integers -/
  worldToLocal : Nat → Int2 → Int2
  /-- Value of `RenderWindow::hasFocus()` -/
  hasFocus : Nat → Bool
  /-- Value of `RenderWindow::screenToWindowPos(pos)` -/
  screenToWindowPos : Nat → Int2 → Int2
  /-- Value of `GUIElement::_isDisabled()` -/
  isDisabled : Nat → Bool
  /-- Value of `GUIElement::getNumRenderElements()` -/
  getNumRenderElements : Nat → Nat
  /-- Value of `GUIElement::_getRenderElementDepth(renderElement)`, a `UINT32` -/
  getRenderElementDepth : Nat → Nat → Nat
  /-- Value of `GUIElement::getMaterial(renderElement)->getInternalID()` -/
  getMaterialID : Nat → Nat → Nat
  /-- Value of `GUIElement::getNumQuads(renderElement)` -/
  getNumQuads : Nat → Nat → Nat
  /-- Address of `GUIElement::_getParentWidget()` -/
  getParentWidget : Nat → Nat
  /-- Value of `GUIElement::_getBounds()` after `Rect::transform` by the world transform of the parent
  widget -/
  tfrmedBounds : Nat → Rect
  /-- Value of `GUIElement::_getDepth()`, a `UINT32` -/
  getDepth : Nat → Nat
  /-- Value of `GUIElement::_isInBounds(pos)` -/
  isInBounds : Nat → Int2 → Bool
  /-- Value of `GUIElement::_acceptsKeyboardFocus()` -/
  acceptsKeyboardFocus : Nat → Bool
  /-- Value of `Rect::overlaps` -/
  overlaps : Rect → Rect → Bool
  /-- Value of `Rect::encapsulate`, as the value the receiver has afterwards -/
  encapsulate : Rect → Rect → Rect
  /-- Address of the group with the given index in the vector `materialGroups[materialId]`,
  taken once all groups are built -/
  groupAddr : Nat → Nat → Nat
  /-- Value of `Input::isButtonDown(code)` -/
  isButtonDown : ButtonCode → Bool
  /-- Value of `Input::getMousePosition()` -/
  getMousePosition : Int2

/-- The `GUIGroupElement` struct: an element and the index of one of its render elements. -/
structure GUIGroupElement where
  element : Nat
  renderElement : Nat
deriving DecidableEq, Repr

/-- The `GUIMaterialGroup` struct. `material` is the internal id of the material handle. -/
structure GUIMaterialGroup where
  material : Nat
  numQuads : Nat
  depth : Nat
  bounds : Rect
  elements : List GUIGroupElement
deriving DecidableEq, Repr

/-- The `materialGroups` map of `updateMeshes`: material id to its vector of groups. -/
abbrev MaterialGroups := List (Nat × List GUIMaterialGroup)

/-- A `GUIMaterialGroup*` taken in `updateMeshes`: the address and the group it points to. -/
structure GroupPtr where
  addr : Nat
  group : GUIMaterialGroup
deriving DecidableEq, Repr

/-! ## `std::set` with a comparator -/

/-- Insertion into a `std::set` kept as its sorted sequence: `x` goes before the first entry
that does not precede it, and is dropped when that entry is equivalent to it. -/
def setInsert {α : Type} (lt : α → α → Bool) (x : α) : List α → List α
  | [] => [x]
  | y :: ys =>
    if lt y x then y :: setInsert lt x ys
    else if lt x y then x :: y :: ys
    else y :: ys

/-- A `std::set` filled by inserting the entries of `xs` one after the other. -/
def setInsertAll {α : Type} (lt : α → α → Bool) (xs : List α) : List α :=
  xs.foldl (fun s x => setInsert lt x s) []

/-! ## `GUIManager::updateMeshes`: the batch rebuild -/

/-- Depth of a render element of an element. -/
def GUIEnv.depthOf (env : GUIEnv) (e : GUIGroupElement) : Nat :=
  env.getRenderElementDepth e.element e.renderElement

/-- Material id of a render element of an element. -/
def GUIEnv.materialOf (env : GUIEnv) (e : GUIGroupElement) : Nat :=
  env.getMaterialID e.element e.renderElement

/-- The comparator `elemComp` of `updateMeshes`. -/
def elemComp (env : GUIEnv) (a b : GUIGroupElement) : Bool :=
  let aDepth := env.getRenderElementDepth a.element a.renderElement
  let bDepth := env.getRenderElementDepth b.element b.renderElement
  decide (aDepth > bDepth) ||
    (decide (aDepth = bDepth) && decide (a.element > b.element)) ||
    (decide (aDepth = bDepth) && decide (a.element = b.element) &&
      decide (a.renderElement > b.renderElement))

/-- The sequence of `allElements.insert` calls of `updateMeshes`: for each widget of the render
target, each element that is not disabled, each render element index. -/
def insertedElements (env : GUIEnv) (widgets : List Nat) : List GUIGroupElement :=
  widgets.flatMap fun widget =>
    (env.getElements widget).flatMap fun element =>
      if env.isDisabled element then []
      else (List.range (env.getNumRenderElements element)).map fun i => ⟨element, i⟩

/-- The set `allElements` of `updateMeshes`, in iteration order. -/
def allElements (env : GUIEnv) (widgets : List Nat) : List GUIGroupElement :=
  setInsertAll (elemComp env) (insertedElements env widgets)

/-- The `UINT32` value `elemDepth - 1`. -/
def depthMinusOne (elemDepth : Nat) : Nat :=
  (elemDepth + 2 ^ 32 - 1) % 2 ^ 32

/-- The overlap search of `updateMeshes`: whether some group of some material has a depth
strictly between `startDepth` and `endDepth` and bounds overlapping `tfrmedBounds`. -/
def foundOverlap (env : GUIEnv) (materialGroups : MaterialGroups) (startDepth endDepth : Nat)
    (tfrmedBounds : Rect) : Bool :=
  materialGroups.any fun material =>
    material.2.any fun group =>
      decide (group.depth > startDepth) && decide (group.depth < endDepth) &&
        env.overlaps group.bounds tfrmedBounds

/-- The widget filter of the group search: with meshes separated by widget, a group whose first
element has another parent widget is skipped. -/
def skippedForWidget (env : GUIEnv) (separateMeshesByWidget : Bool) (elem : GUIGroupElement)
    (group : GUIMaterialGroup) : Bool :=
  separateMeshesByWidget &&
    match group.elements with
    | [] => false
    | otherElem :: _ =>
      decide (env.getParentWidget otherElem.element ≠ env.getParentWidget elem.element)

/-- The body of the group search loop of `updateMeshes` for one candidate group: whether the
loop stops at this group with `foundGroup` set to it. -/
def groupAccepts (env : GUIEnv) (separateMeshesByWidget : Bool) (materialGroups : MaterialGroups)
    (elem : GUIGroupElement) (group : GUIMaterialGroup) : Bool :=
  let elemDepth := env.depthOf elem
  if skippedForWidget env separateMeshesByWidget elem group then false
  else if group.depth = elemDepth ∨ group.depth = depthMinusOne elemDepth then true
  else !(foundOverlap env materialGroups elemDepth group.depth (env.tfrmedBounds elem.element))

/-- The group search of `updateMeshes`: the vector of the material is walked from its last group
to its first, and the index of the first group that accepts the element is returned. -/
def findGroup (env : GUIEnv) (separateMeshesByWidget : Bool) (materialGroups : MaterialGroups)
    (elem : GUIGroupElement) (allGroups : List GUIMaterialGroup) : Option Nat :=
  (allGroups.enum.reverse.find? fun ig =>
    groupAccepts env separateMeshesByWidget materialGroups elem ig.2).map Prod.fst

/-- The group created for an element that fits no existing group. -/
def newGroup (env : GUIEnv) (elem : GUIGroupElement) : GUIMaterialGroup where
  material := env.materialOf elem
  numQuads := env.getNumQuads elem.element elem.renderElement
  depth := env.depthOf elem
  bounds := env.tfrmedBounds elem.element
  elements := [elem]

/-- The found group after the element is added to it (`numQuads` is a `UINT32`). -/
def mergeInto (env : GUIEnv) (elem : GUIGroupElement) (group : GUIMaterialGroup) :
    GUIMaterialGroup :=
  { group with
    bounds := env.encapsulate group.bounds (env.tfrmedBounds elem.element)
    elements := group.elements ++ [elem]
    numQuads := (group.numQuads + env.getNumQuads elem.element elem.renderElement) % 2 ^ 32 }

/-- Whether the map has an entry for the material id (`materialGroups.find`). -/
def hasMaterial (materialGroups : MaterialGroups) (materialId : Nat) : Bool :=
  materialGroups.any fun material => decide (material.1 = materialId)

/-- The map after `materialGroups[materialId] = Vector()` when the material is new. -/
def ensureMaterial (materialGroups : MaterialGroups) (materialId : Nat) : MaterialGroups :=
  if hasMaterial materialGroups materialId then materialGroups
  else materialGroups ++ [(materialId, [])]

/-- The vector `materialGroups[materialId]`. -/
def groupsOf (materialGroups : MaterialGroups) (materialId : Nat) : List GUIMaterialGroup :=
  match materialGroups with
  | [] => []
  | material :: rest =>
    if material.1 = materialId then material.2 else groupsOf rest materialId

/-- The map after the vector `materialGroups[materialId]` is changed by `f`. -/
def updateGroupsOf (materialId : Nat) (f : List GUIMaterialGroup → List GUIMaterialGroup) :
    MaterialGroups → MaterialGroups
  | [] => [(materialId, f [])]
  | material :: rest =>
    if material.1 = materialId then (material.1, f material.2) :: rest
    else material :: updateGroupsOf materialId f rest

/-- The vector of the material after the element is placed: appended to the found group, or put
in a new group at the back. -/
def placeElement (env : GUIEnv) (separateMeshesByWidget : Bool) (materialGroups : MaterialGroups)
    (elem : GUIGroupElement) (allGroups : List GUIMaterialGroup) : List GUIMaterialGroup :=
  match findGroup env separateMeshesByWidget materialGroups elem allGroups with
  | none => allGroups ++ [newGroup env elem]
  | some i => allGroups.modify (mergeInto env elem) i

/-- One iteration of the grouping loop of `updateMeshes`. -/
def addElement (env : GUIEnv) (separateMeshesByWidget : Bool) (materialGroups : MaterialGroups)
    (elem : GUIGroupElement) : MaterialGroups :=
  let materialId := env.materialOf elem
  let withMaterial := ensureMaterial materialGroups materialId
  updateGroupsOf materialId (placeElement env separateMeshesByWidget withMaterial elem)
    withMaterial

/-- The grouping loop of `updateMeshes` run over a sequence of elements, from an empty map. -/
def groupElements (env : GUIEnv) (separateMeshesByWidget : Bool)
    (elems : List GUIGroupElement) : MaterialGroups :=
  elems.foldl (addElement env separateMeshesByWidget) []

/-- The map `materialGroups` at the end of the grouping loop of `updateMeshes`. -/
def buildGroups (env : GUIEnv) (separateMeshesByWidget : Bool) (widgets : List Nat) :
    MaterialGroups :=
  groupElements env separateMeshesByWidget (allElements env widgets)

/-- All groups of the map, material by material. -/
def groupList (materialGroups : MaterialGroups) : List GUIMaterialGroup :=
  materialGroups.flatMap fun material => material.2

/-- The comparator `groupComp` of `updateMeshes`. -/
def groupComp (a b : GroupPtr) : Bool :=
  decide (a.group.depth > b.group.depth) ||
    (decide (a.group.depth = b.group.depth) && decide (a.addr > b.addr))

/-- The sequence of `sortedGroups.insert` calls of `updateMeshes`. -/
def insertedGroups (env : GUIEnv) (materialGroups : MaterialGroups) : List GroupPtr :=
  materialGroups.flatMap fun material =>
    material.2.enum.map fun ig => ⟨env.groupAddr material.1 ig.1, ig.2⟩

/-- The set `sortedGroups` of `updateMeshes`, in iteration order: the batch sequence. -/
def sortedGroups (env : GUIEnv) (separateMeshesByWidget : Bool) (widgets : List Nat) :
    List GroupPtr :=
  setInsertAll groupComp (insertedGroups env (buildGroups env separateMeshesByWidget widgets))

/-! ## `GUIManager::updateMeshes`: the render cache -/

/-- One `GUIElement::fillBuffer` call of `updateMeshes`: the element and render element it is
made on, the quad offset it starts at and the quad count of the group. -/
structure FillCall where
  element : Nat
  renderElement : Nat
  startingQuad : Nat
  maxNumQuads : Nat
deriving DecidableEq, Repr

/-- The mesh data written for one group: the vertex count, the index count of its sub-mesh and
the `fillBuffer` calls that filled it. A mesh fresh from `Mesh::create()` has no data. -/
structure MeshData where
  numVertices : Nat
  numIndices : Nat
  fills : List FillCall
deriving DecidableEq, Repr

/-- The `GUIRenderData` struct: the cache entry of one render target. Cached materials are
material ids, a default-constructed handle is `none`. -/
structure GUIRenderData where
  widgets : List Nat
  isDirty : Bool
  cachedMeshes : List MeshData
  cachedMaterials : List (Option Nat)
  cachedWidgetsPerMesh : List (Option Nat)
deriving DecidableEq, Repr

/-- The state of the `GUIManager` singleton the modelled operations read and write. -/
structure GUIManager where
  mWidgets : List Nat
  mCachedGUIData : List (Nat × GUIRenderData)
  mSeparateMeshesByWidget : Bool
  mMouseOverElement : Option Nat
  mMouseOverWidget : Option Nat
  mActiveElement : Option Nat
  mActiveWidget : Option Nat
  mActiveMouseButton : GUIMouseButton
  mKeyboardFocusElement : Option Nat
  mKeyboardFocusWidget : Option Nat
  mLastCursorLocalPos : Int2
deriving DecidableEq, Repr

/-- The manager as its constructor leaves it. -/
def GUIManager.initial : GUIManager where
  mWidgets := []
  mCachedGUIData := []
  mSeparateMeshesByWidget := true
  mMouseOverElement := none
  mMouseOverWidget := none
  mActiveElement := none
  mActiveWidget := none
  mActiveMouseButton := GUIMouseButton.Left
  mKeyboardFocusElement := none
  mKeyboardFocusWidget := none
  mLastCursorLocalPos := ⟨0, 0⟩

/-- The mesh `Mesh::create()` returns, before any data is written to it. -/
def MeshData.created : MeshData := ⟨0, 0, []⟩

/-- The vector after `std::vector::resize(n)`: cut to `n` entries or filled up with default values. -/
def resize {α : Type} (v : List α) (n : Nat) (dflt : α) : List α :=
  v.take n ++ List.replicate (n - v.length) dflt

/-- The `fillBuffer` calls of the fill loop over the elements of a group, with the `UINT32`
quad offset carried along. -/
def fillGroup (env : GUIEnv) (group : GUIMaterialGroup) : List FillCall × Nat :=
  group.elements.foldl
    (fun acc matElement =>
      (acc.1 ++ [⟨matElement.element, matElement.renderElement, acc.2, group.numQuads⟩],
        (acc.2 + env.getNumQuads matElement.element matElement.renderElement) % 2 ^ 32))
    ([], 0)

/-- The mesh data built for a group. -/
def meshDataOf (env : GUIEnv) (group : GUIMaterialGroup) : MeshData where
  numVertices := group.numQuads * 4 % 2 ^ 32
  numIndices := group.numQuads * 6 % 2 ^ 32
  fills := (fillGroup env group).1

/-- The widget cached for a group: null for a group without elements, else the parent widget
of its first element. -/
def widgetOfGroup (env : GUIEnv) (group : GUIMaterialGroup) : Option Nat :=
  match group.elements with
  | [] => none
  | elem :: _ => some (env.getParentWidget elem.element)

/-- One iteration of the loop of `updateMeshes` over `sortedGroups`, for the group with index
`groupIdx`: the cache entry and the `fillBuffer` calls made so far. -/
def writeGroup (env : GUIEnv) (separateMeshesByWidget : Bool)
    (acc : GUIRenderData × List FillCall) (indexed : Nat × GroupPtr) :
    GUIRenderData × List FillCall :=
  let renderData := acc.1
  let groupIdx := indexed.1
  let group := indexed.2.group
  let materials := renderData.cachedMaterials.set groupIdx (some group.material)
  let widgetsPerMesh :=
    if separateMeshesByWidget then
      renderData.cachedWidgetsPerMesh.set groupIdx (widgetOfGroup env group)
    else renderData.cachedWidgetsPerMesh
  let meshData := meshDataOf env group
  let meshes :=
    if groupIdx ≥ renderData.cachedMeshes.length then
      renderData.cachedMeshes ++ [MeshData.created]
    else renderData.cachedMeshes
  ({ renderData with
      cachedMaterials := materials
      cachedWidgetsPerMesh := widgetsPerMesh
      cachedMeshes := meshes.set groupIdx meshData },
    acc.2 ++ meshData.fills)

/-- The rebuild of a dirty cache entry: grouping, sorting, resizing of the cached vectors and
the loop over the sorted groups. -/
def rebuildRenderData (env : GUIEnv) (separateMeshesByWidget : Bool)
    (renderData : GUIRenderData) : GUIRenderData × List FillCall :=
  let sorted := sortedGroups env separateMeshesByWidget renderData.widgets
  let numMeshes := sorted.length
  let oldNumMeshes := renderData.cachedMeshes.length
  let meshes :=
    if numMeshes < oldNumMeshes then resize renderData.cachedMeshes numMeshes MeshData.created
    else renderData.cachedMeshes
  let materials := resize renderData.cachedMaterials numMeshes none
  let widgetsPerMesh :=
    if separateMeshesByWidget then resize renderData.cachedWidgetsPerMesh numMeshes none
    else renderData.cachedWidgetsPerMesh
  sorted.enum.foldl (writeGroup env separateMeshesByWidget)
    ({ renderData with
        cachedMeshes := meshes
        cachedMaterials := materials
        cachedWidgetsPerMesh := widgetsPerMesh }, [])

/-- The body of the loop of `updateMeshes` for one cache entry: the dirty flag is read and
cleared, every widget is asked whether it is dirty, and a clean entry is left as it is. -/
def updateRenderData (env : GUIEnv) (separateMeshesByWidget : Bool)
    (renderData : GUIRenderData) : GUIRenderData × List FillCall :=
  let isDirty := renderData.isDirty || renderData.widgets.any env.widgetIsDirty
  let cleared := { renderData with isDirty := false }
  if isDirty then rebuildRenderData env separateMeshesByWidget cleared
  else (cleared, [])

/-- The function `GUIManager::updateMeshes`: the manager afterwards and the `fillBuffer` calls
made, in order. -/
def updateMeshes (env : GUIEnv) (m : GUIManager) : GUIManager × List FillCall :=
  let results := m.mCachedGUIData.map fun cachedMeshData =>
    (cachedMeshData.1, updateRenderData env m.mSeparateMeshesByWidget cachedMeshData.2)
  ({ m with mCachedGUIData := results.map fun r => (r.1, r.2.1) },
    results.flatMap fun r => r.2.2)

/-! ## Input routing -/

/-- A failed call: the `InvalidParametersException` of `buttonToMouseButton`, or a member call
made through a null pointer. -/
inductive GUIError where
  | invalidParameters
  | nullPointer
deriving DecidableEq, Repr

/-- Modelled from the spec: the `ButtonEvent` of the input system (declared in the input headers,
which are not among the sources): the button code and the consumed flag. -/
structure ButtonEvent where
  buttonCode : ButtonCode
  used : Bool
deriving DecidableEq, Repr

/-- Modelled from the spec: `ButtonEvent::isKeyboard()`. -/
def ButtonEvent.isKeyboard (event : ButtonEvent) : Bool :=
  match event.buttonCode with
  | ButtonCode.key _ => true
  | _ => false

/-- Modelled from the spec: `ButtonEvent::isMouse()`. -/
def ButtonEvent.isMouse (event : ButtonEvent) : Bool :=
  match event.buttonCode with
  | ButtonCode.mouseLeft => true
  | ButtonCode.mouseMiddle => true
  | ButtonCode.mouseRight => true
  | ButtonCode.mouseOther _ => true
  | _ => false

/-- Modelled from the spec: the `MouseEvent` of the input system (declared in the input headers,
which are not among the sources): the screen position, the wheel amount (an integer count of
units of 0.00001 in place of the float) and the consumed flag. -/
structure MouseEvent where
  screenPos : Int2
  mouseWheelScrollAmount : Int
  used : Bool
deriving DecidableEq, Repr

/-- Modelled from the spec: what the `set...Data` calls of `GUIMouseEvent` (declared in
`BsGUIMouseEvent.h`, which is not among the sources) record: the event type with the arguments
of the call. -/
inductive GUIMouseEventData where
  | MouseOver (mouseOverElement : Option Nat) (position : Int2)
  | MouseOut (mouseOverElement : Option Nat) (position : Int2)
  | MouseDown (mouseOverElement : Option Nat) (position : Int2) (button : GUIMouseButton)
  | MouseUp (mouseOverElement : Option Nat) (position : Int2) (button : GUIMouseButton)
  | MouseMove (mouseOverElement : Option Nat) (position : Int2)
  | MouseWheelScroll (mouseOverElement : Option Nat) (scrollAmount : Int)
  | MouseDrag (mouseOverElement : Option Nat) (position : Int2) (dragAmount : Int2)
  | MouseDragStart (mouseOverElement : Option Nat) (position : Int2)
  | MouseDragEnd (mouseOverElement : Option Nat) (position : Int2)
deriving DecidableEq, Repr

/-- The value of `mMouseEvent` at a `_mouseEvent` call: the button and modifier states given to
the constructor and the data set afterwards. -/
structure GUIMouseEvent where
  buttonStates : List Bool
  shift : Bool
  ctrl : Bool
  alt : Bool
  data : GUIMouseEventData
deriving DecidableEq, Repr

/-- Modelled from the spec: what the `set...Data` calls of `GUIKeyEvent` (declared in
`BsGUIKeyEvent.h`, which is not among the sources) record. -/
inductive GUIKeyEventData where
  | KeyDown (key : ButtonCode)
  | KeyUp (key : ButtonCode)
  | TextInput (textChar : Nat)
deriving DecidableEq, Repr

/-- The value of `mKeyEvent` at a `_keyEvent` call. -/
structure GUIKeyEvent where
  shift : Bool
  ctrl : Bool
  alt : Bool
  data : GUIKeyEventData
deriving DecidableEq, Repr

/-- A call the manager makes on a widget or an element while routing. -/
inductive GUICall where
  | mouseEvent (widget : Nat) (element : Nat) (event : GUIMouseEvent)
  | keyEvent (widget : Nat) (element : Nat) (event : GUIKeyEvent)
  | setFocus (element : Nat) (focus : Bool)
deriving DecidableEq, Repr

/-- Whether the call is a `_mouseEvent` call. -/
def GUICall.isMouseEvent : GUICall → Bool
  | GUICall.mouseEvent _ _ _ => true
  | _ => false

/-- Dereference of a pointer member. -/
def deref (p : Option Nat) : Except GUIError Nat :=
  match p with
  | some a => Except.ok a
  | none => Except.error GUIError.nullPointer

/-- The function `GUIManager::buttonToMouseButton`. -/
def buttonToMouseButton (code : ButtonCode) : Except GUIError GUIMouseButton :=
  if code = ButtonCode.mouseLeft then Except.ok GUIMouseButton.Left
  else if code = ButtonCode.mouseMiddle then Except.ok GUIMouseButton.Middle
  else if code = ButtonCode.mouseRight then Except.ok GUIMouseButton.Right
  else Except.error GUIError.invalidParameters

/-- The function `GUIManager::getWidgetRelativePos`. -/
def getWidgetRelativePos (env : GUIEnv) (widget : Nat) (screenPos : Int2) : Int2 :=
  let windowPos := env.screenToWindowPos (env.getOwnerWindow widget) screenPos
  env.worldToLocal widget windowPos

/-- Modelled from the spec: the key codes of the modifier keys (declared in the input headers,
which are not among the sources). -/
def BC_LSHIFT : ButtonCode := ButtonCode.key 0x2A

/-- Modelled from the spec: see `BC_LSHIFT`. -/
def BC_RSHIFT : ButtonCode := ButtonCode.key 0x36

/-- Modelled from the spec: see `BC_LSHIFT`. -/
def BC_LCONTROL : ButtonCode := ButtonCode.key 0x1D

/-- Modelled from the spec: see `BC_LSHIFT`. -/
def BC_RCONTROL : ButtonCode := ButtonCode.key 0x9D

/-- Modelled from the spec: see `BC_LSHIFT`. -/
def BC_LMENU : ButtonCode := ButtonCode.key 0x38

/-- Modelled from the spec: see `BC_LSHIFT`. -/
def BC_RMENU : ButtonCode := ButtonCode.key 0xB8

/-- The local `shiftDown` of the handlers. -/
def shiftDown (env : GUIEnv) : Bool :=
  env.isButtonDown BC_LSHIFT || env.isButtonDown BC_RSHIFT

/-- The local `ctrlDown` of the handlers. -/
def ctrlDown (env : GUIEnv) : Bool :=
  env.isButtonDown BC_LCONTROL || env.isButtonDown BC_RCONTROL

/-- The local `altDown` of the handlers. -/
def altDown (env : GUIEnv) : Bool :=
  env.isButtonDown BC_LMENU || env.isButtonDown BC_RMENU

/-- The value `GUIMouseEvent(buttonStates, shiftDown, ctrlDown, altDown)` with its data set. -/
def mkMouseEvent (env : GUIEnv) (data : GUIMouseEventData) : GUIMouseEvent where
  buttonStates := [env.isButtonDown ButtonCode.mouseLeft,
    env.isButtonDown ButtonCode.mouseMiddle, env.isButtonDown ButtonCode.mouseRight]
  shift := shiftDown env
  ctrl := ctrlDown env
  alt := altDown env
  data := data

/-- The value `GUIKeyEvent(shiftDown, ctrlDown, altDown)` with its data set. -/
def mkKeyEvent (env : GUIEnv) (data : GUIKeyEventData) : GUIKeyEvent where
  shift := shiftDown env
  ctrl := ctrlDown env
  alt := altDown env
  data := data

/-- The keyboard part of `onButtonDown` and `onButtonUp`: a key event for the focused element,
sent through the focus widget. -/
def routeKey (env : GUIEnv) (m : GUIManager) (data : GUIKeyEventData) :
    Except GUIError (List GUICall) :=
  match m.mKeyboardFocusElement with
  | none => Except.ok []
  | some focusElement =>
    match deref m.mKeyboardFocusWidget with
    | Except.error e => Except.error e
    | Except.ok focusWidget =>
      Except.ok [GUICall.keyEvent focusWidget focusElement (mkKeyEvent env data)]

/-- The stuck-button reset of `onButtonDown`. -/
def clearStuckActive (m : GUIManager) (guiButton : GUIMouseButton) : GUIManager :=
  if m.mActiveMouseButton = guiButton ∧ m.mActiveElement ≠ none then
    { m with
      mActiveElement := none
      mActiveWidget := none
      mActiveMouseButton := GUIMouseButton.Left }
  else m

/-- The mouse-down part of `onButtonDown`, after the stuck-button reset. -/
def acceptMouseDown (env : GUIEnv) (m : GUIManager) (guiButton : GUIMouseButton) :
    Except GUIError (GUIManager × List GUICall) :=
  match m.mActiveElement, m.mMouseOverElement with
  | none, some overElement =>
    match deref m.mMouseOverWidget with
    | Except.error e => Except.error e
    | Except.ok overWidget =>
      let localPos := getWidgetRelativePos env overWidget env.getMousePosition
      Except.ok
        ({ m with
            mActiveElement := m.mMouseOverElement
            mActiveWidget := m.mMouseOverWidget
            mActiveMouseButton := guiButton },
          [GUICall.mouseEvent overWidget overElement
              (mkMouseEvent env (GUIMouseEventData.MouseDown (some overElement) localPos guiButton)),
            GUICall.mouseEvent overWidget overElement
              (mkMouseEvent env (GUIMouseEventData.MouseDragStart (some overElement) localPos))])
  | _, _ => Except.ok (m, [])

/-- The focus part of `onButtonDown`. -/
def transferFocus (env : GUIEnv) (m : GUIManager) : GUIManager × List GUICall :=
  match m.mMouseOverElement with
  | none => (m, [])
  | some overElement =>
    if env.acceptsKeyboardFocus overElement then
      let unfocus :=
        match m.mKeyboardFocusElement with
        | none => []
        | some focusElement =>
          if overElement ≠ focusElement then [GUICall.setFocus focusElement false] else []
      ({ m with
          mKeyboardFocusElement := m.mMouseOverElement
          mKeyboardFocusWidget := m.mMouseOverWidget },
        unfocus ++ [GUICall.setFocus overElement true])
    else (m, [])

/-- The function `GUIManager::onButtonDown`: the manager afterwards and the calls made, in
order. -/
def onButtonDown (env : GUIEnv) (m : GUIManager) (event : ButtonEvent) :
    Except GUIError (GUIManager × List GUICall) :=
  if event.used then Except.ok (m, [])
  else
    match (if event.isKeyboard then routeKey env m (GUIKeyEventData.KeyDown event.buttonCode)
      else Except.ok []) with
    | Except.error e => Except.error e
    | Except.ok keyCalls =>
      if event.isMouse then
        match buttonToMouseButton event.buttonCode with
        | Except.error e => Except.error e
        | Except.ok guiButton =>
          match acceptMouseDown env (clearStuckActive m guiButton) guiButton with
          | Except.error e => Except.error e
          | Except.ok (pressed, mouseCalls) =>
            let focused := transferFocus env pressed
            Except.ok (focused.1, keyCalls ++ mouseCalls ++ focused.2)
      else Except.ok (m, keyCalls)

/-- The mouse part of `onButtonUp`. -/
def releaseMouse (env : GUIEnv) (m : GUIManager) (guiButton : GUIMouseButton) :
    Except GUIError (GUIManager × List GUICall) :=
  let localPos : Int2 :=
    match m.mMouseOverWidget with
    | some overWidget => getWidgetRelativePos env overWidget env.getMousePosition
    | none => ⟨0, 0⟩
  let acceptMouseUp : Bool :=
    decide (m.mActiveMouseButton = guiButton) &&
      (decide (m.mMouseOverElement ≠ none) && decide (m.mActiveElement = m.mMouseOverElement))
  match (match acceptMouseUp, m.mMouseOverElement with
    | true, some overElement =>
      match deref m.mMouseOverWidget with
      | Except.error e => Except.error e
      | Except.ok overWidget =>
        Except.ok [GUICall.mouseEvent overWidget overElement
          (mkMouseEvent env (GUIMouseEventData.MouseUp (some overElement) localPos guiButton))]
    | _, _ => Except.ok []) with
  | Except.error e => Except.error e
  | Except.ok upCalls =>
    match decide (m.mActiveMouseButton = guiButton), m.mActiveElement with
    | true, some activeElement =>
      match deref m.mActiveWidget with
      | Except.error e => Except.error e
      | Except.ok activeWidget =>
        Except.ok
          ({ m with
              mActiveElement := none
              mActiveWidget := none
              mActiveMouseButton := GUIMouseButton.Left },
            upCalls ++ [GUICall.mouseEvent activeWidget activeElement
              (mkMouseEvent env (GUIMouseEventData.MouseDragEnd m.mMouseOverElement localPos))])
    | _, _ => Except.ok (m, upCalls)

/-- The function `GUIManager::onButtonUp`: the manager afterwards and the calls made, in
order. -/
def onButtonUp (env : GUIEnv) (m : GUIManager) (event : ButtonEvent) :
    Except GUIError (GUIManager × List GUICall) :=
  if event.used then Except.ok (m, [])
  else
    match (if event.isKeyboard then routeKey env m (GUIKeyEventData.KeyUp event.buttonCode)
      else Except.ok []) with
    | Except.error e => Except.error e
    | Except.ok keyCalls =>
      if event.isMouse then
        match buttonToMouseButton event.buttonCode with
        | Except.error e => Except.error e
        | Except.ok guiButton =>
          match releaseMouse env m guiButton with
          | Except.error e => Except.error e
          | Except.ok (released, mouseCalls) => Except.ok (released, keyCalls ++ mouseCalls)
      else Except.ok (m, keyCalls)

/-- The locals of the topmost-element search of `onMouseMoved`. -/
structure TopMost where
  topMostElement : Option Nat
  topMostDepth : Nat
  widgetInFocus : Option Nat
  localPos : Int2
deriving DecidableEq, Repr

/-- The elements of a widget after `std::sort` by `_getDepth()`, lowest depth first; elements
of equal depth, whose order `std::sort` leaves open, keep their order. -/
def sortedElements (env : GUIEnv) (widget : Nat) : List Nat :=
  (env.getElements widget).insertionSort fun a b => env.getDepth a ≤ env.getDepth b

/-- One iteration of the widget loop of the topmost-element search of `onMouseMoved`. -/
def scanWidget (env : GUIEnv) (window : Nat) (screenPos : Int2) (st : TopMost) (widget : Nat) :
    TopMost :=
  if env.getOwnerWindow widget = window ∧ env.widgetInBounds widget screenPos = true then
    let localPos := env.worldToLocal widget screenPos
    match (sortedElements env widget).find? fun element =>
        !env.isDisabled element && env.isInBounds element localPos &&
          decide (env.getDepth element < st.topMostDepth) with
    | some element =>
      { topMostElement := some element
        topMostDepth := env.getDepth element
        widgetInFocus := some widget
        localPos := localPos }
    | none => { st with localPos := localPos }
  else st

/-- The topmost-element search of `onMouseMoved`: the focused widget is the first registered
widget whose window has focus, then every registered widget is scanned. -/
def findTopMost (env : GUIEnv) (mWidgets : List Nat) (eventScreenPos : Int2) : TopMost :=
  match mWidgets.find? fun widget => env.hasFocus (env.getOwnerWindow widget) with
  | none => ⟨none, 2 ^ 32 - 1, none, ⟨0, 0⟩⟩
  | some widgetInFocus =>
    let window := env.getOwnerWindow widgetInFocus
    let screenPos := env.screenToWindowPos window eventScreenPos
    mWidgets.foldl (scanWidget env window screenPos)
      ⟨none, 2 ^ 32 - 1, some widgetInFocus, ⟨0, 0⟩⟩

/-- The `MouseOut` and `MouseOver` part of `onMouseMoved`. -/
def hoverCalls (env : GUIEnv) (m : GUIManager) (event : MouseEvent) (top : TopMost) :
    Except GUIError (List GUICall) :=
  if top.topMostElement ≠ m.mMouseOverElement then
    match (match m.mMouseOverElement with
      | some overElement =>
        if m.mActiveElement = none ∨ m.mMouseOverElement = m.mActiveElement then
          match deref m.mMouseOverWidget with
          | Except.error e => Except.error e
          | Except.ok overWidget =>
            Except.ok [GUICall.mouseEvent overWidget overElement
              (mkMouseEvent env (GUIMouseEventData.MouseOut top.topMostElement
                (getWidgetRelativePos env overWidget event.screenPos)))]
        else Except.ok []
      | none => Except.ok []) with
    | Except.error e => Except.error e
    | Except.ok outCalls =>
      match top.topMostElement with
      | some topElement =>
        if m.mActiveElement = none ∨ top.topMostElement = m.mActiveElement then
          match deref top.widgetInFocus with
          | Except.error e => Except.error e
          | Except.ok widgetInFocus =>
            Except.ok (outCalls ++ [GUICall.mouseEvent widgetInFocus topElement
              (mkMouseEvent env (GUIMouseEventData.MouseOver top.topMostElement top.localPos))])
        else Except.ok outCalls
      | none => Except.ok outCalls
  else Except.ok []

/-- The `MouseDrag`, `MouseMove` and `MouseWheelScroll` part of `onMouseMoved`: the last cursor
position afterwards and the calls made. -/
def moveCalls (env : GUIEnv) (m : GUIManager) (event : MouseEvent) (top : TopMost) :
    Except GUIError (Int2 × List GUICall) :=
  match m.mActiveElement with
  | some activeElement =>
    match deref m.mActiveWidget with
    | Except.error e => Except.error e
    | Except.ok activeWidget =>
      let curLocalPos := getWidgetRelativePos env activeWidget event.screenPos
      if m.mLastCursorLocalPos ≠ curLocalPos then
        Except.ok (curLocalPos, [GUICall.mouseEvent activeWidget activeElement
          (mkMouseEvent env (GUIMouseEventData.MouseDrag top.topMostElement curLocalPos
            ⟨curLocalPos.x - m.mLastCursorLocalPos.x, curLocalPos.y - m.mLastCursorLocalPos.y⟩))])
      else Except.ok (m.mLastCursorLocalPos, [])
  | none =>
    match top.topMostElement with
    | some topElement =>
      let moved := decide (m.mLastCursorLocalPos ≠ top.localPos)
      let wheel := decide (event.mouseWheelScrollAmount.natAbs > 1)
      if moved || wheel then
        match deref top.widgetInFocus with
        | Except.error e => Except.error e
        | Except.ok widgetInFocus =>
          let moveCall :=
            if moved then [GUICall.mouseEvent widgetInFocus topElement
              (mkMouseEvent env (GUIMouseEventData.MouseMove top.topMostElement top.localPos))]
            else []
          let wheelCall :=
            if wheel then
              [GUICall.mouseEvent widgetInFocus topElement
                (mkMouseEvent env (GUIMouseEventData.MouseWheelScroll top.topMostElement
                  event.mouseWheelScrollAmount))]
            else []
          Except.ok (if moved then top.localPos else m.mLastCursorLocalPos,
            moveCall ++ wheelCall)
      else Except.ok (m.mLastCursorLocalPos, [])
    | none => Except.ok (m.mLastCursorLocalPos, [])

/-- The function `GUIManager::onMouseMoved` (release build): the manager afterwards and the
calls made, in order. -/
def onMouseMoved (env : GUIEnv) (m : GUIManager) (event : MouseEvent) :
    Except GUIError (GUIManager × List GUICall) :=
  if event.used then Except.ok (m, [])
  else
    let top := findTopMost env m.mWidgets event.screenPos
    match hoverCalls env m event top with
    | Except.error e => Except.error e
    | Except.ok hover =>
      match moveCalls env m event top with
      | Except.error e => Except.error e
      | Except.ok (lastPos, moves) =>
        Except.ok
          ({ m with
              mLastCursorLocalPos := lastPos
              mMouseOverElement := top.topMostElement
              mMouseOverWidget := top.widgetInFocus },
            hover ++ moves)

/-- Whether the call delivers a `MouseOut` event. -/
def GUICall.isMouseOut : GUICall → Bool
  | GUICall.mouseEvent _ _ event =>
    match event.data with
    | GUIMouseEventData.MouseOut _ _ => true
    | _ => false
  | _ => false

/-- Whether the call delivers a `MouseOver` event. -/
def GUICall.isMouseOver : GUICall → Bool
  | GUICall.mouseEvent _ _ event =>
    match event.data with
    | GUIMouseEventData.MouseOver _ _ => true
    | _ => false
  | _ => false

/-- Whether the call delivers a `MouseDrag` event. -/
def GUICall.isMouseDrag : GUICall → Bool
  | GUICall.mouseEvent _ _ event =>
    match event.data with
    | GUIMouseEventData.MouseDrag _ _ _ => true
    | _ => false
  | _ => false

/-- Whether the call is a `_setFocus` call on an element. -/
def GUICall.isSetFocus : GUICall → Bool
  | GUICall.setFocus _ _ => true
  | _ => false

/-- Modelled from the spec: the `TextInputEvent` of the input system (declared in the input
headers, which are not among the sources): the character and the consumed flag every incoming
event carries. -/
structure TextInputEvent where
  textChar : Nat
  used : Bool
deriving DecidableEq, Repr

/-- The function `GUIManager::onTextInput`: the manager afterwards and the calls made, in
order. -/
def onTextInput (env : GUIEnv) (m : GUIManager) (event : TextInputEvent) :
    Except GUIError (GUIManager × List GUICall) :=
  match m.mKeyboardFocusElement with
  | none => Except.ok (m, [])
  | some focusElement =>
    if ctrlDown env || altDown env then Except.ok (m, [])
    else
      match deref m.mKeyboardFocusWidget with
      | Except.error e => Except.error e
      | Except.ok focusWidget =>
        Except.ok (m, [GUICall.keyEvent focusWidget focusElement
          (mkKeyEvent env (GUIKeyEventData.TextInput event.textChar))])

/-- The function `GUIManager::onGUIElementRemovedFromWidget`. -/
def onGUIElementRemovedFromWidget (m : GUIManager) (_widget : Nat) (element : Nat) :
    GUIManager :=
  let overCleared :=
    if m.mMouseOverElement = some element then
      { m with mMouseOverElement := none, mMouseOverWidget := none }
    else m
  let activeCleared :=
    if overCleared.mActiveElement = some element then
      { overCleared with mActiveElement := none, mActiveWidget := none }
    else overCleared
  if activeCleared.mKeyboardFocusElement = some element then
    { activeCleared with mKeyboardFocusElement := none, mKeyboardFocusWidget := none }
  else activeCleared

/-! ## Widget registration -/

/-- The entry of a render target in the map `mCachedGUIData`, if there is one. -/
def findRenderData (cache : List (Nat × GUIRenderData)) (renderTarget : Nat) :
    Option GUIRenderData :=
  match cache with
  | [] => none
  | entry :: rest =>
    if entry.1 = renderTarget then some entry.2 else findRenderData rest renderTarget

/-- The map `mCachedGUIData` with the entry of a render target set to the given value. -/
def setRenderData (cache : List (Nat × GUIRenderData)) (renderTarget : Nat)
    (renderData : GUIRenderData) : List (Nat × GUIRenderData) :=
  match cache with
  | [] => [(renderTarget, renderData)]
  | entry :: rest =>
    if entry.1 = renderTarget then (renderTarget, renderData) :: rest
    else entry :: setRenderData rest renderTarget renderData

/-- The map `mCachedGUIData` after `erase(renderTarget)`. -/
def eraseRenderData (cache : List (Nat × GUIRenderData)) (renderTarget : Nat) :
    List (Nat × GUIRenderData) :=
  cache.filter fun entry => decide (entry.1 ≠ renderTarget)

/-- The value `GUIRenderData()` that `mCachedGUIData[renderTarget]` inserts for a new key. Its
dirty flag is initialised in a header that is not among the sources; both functions that insert
it overwrite the flag or erase the entry before anything reads it. -/
def GUIRenderData.created : GUIRenderData := ⟨[], true, [], [], []⟩

/-- The function `GUIManager::registerWidget`. -/
def registerWidget (env : GUIEnv) (m : GUIManager) (widget : Nat) : GUIManager :=
  let renderTarget := env.getTarget widget
  let windowData := (findRenderData m.mCachedGUIData renderTarget).getD GUIRenderData.created
  { m with
    mWidgets := m.mWidgets ++ [widget]
    mCachedGUIData := setRenderData m.mCachedGUIData renderTarget
      { windowData with widgets := windowData.widgets ++ [widget], isDirty := true } }

/-- The slots of the manager after `unregisterWidget` cleared those held by the widget. -/
def clearWidgetSlots (m : GUIManager) (widget : Nat) : GUIManager :=
  let overCleared :=
    if m.mMouseOverWidget = some widget then
      { m with mMouseOverWidget := none, mMouseOverElement := none }
    else m
  let focusCleared :=
    if overCleared.mKeyboardFocusWidget = some widget then
      { overCleared with mKeyboardFocusWidget := none, mKeyboardFocusElement := none }
    else overCleared
  if focusCleared.mActiveWidget = some widget then
    { focusCleared with mActiveWidget := none, mActiveElement := none }
  else focusCleared

/-- The function `GUIManager::unregisterWidget`. -/
def unregisterWidget (env : GUIEnv) (m : GUIManager) (widget : Nat) : GUIManager :=
  let cleared := clearWidgetSlots { m with mWidgets := m.mWidgets.erase widget } widget
  let renderTarget := env.getTarget widget
  let renderData := (findRenderData m.mCachedGUIData renderTarget).getD GUIRenderData.created
  let widgets := renderData.widgets.erase widget
  if widgets.length = 0 then
    { cleared with mCachedGUIData := eraseRenderData m.mCachedGUIData renderTarget }
  else
    { cleared with
      mCachedGUIData := setRenderData m.mCachedGUIData renderTarget
        { renderData with widgets := widgets, isDirty := true } }

/-- A call of `registerWidget` or `unregisterWidget`. -/
inductive WidgetCall where
  | register (widget : Nat)
  | unregister (widget : Nat)
deriving DecidableEq, Repr

/-- The manager after a sequence of `registerWidget` and `unregisterWidget` calls made on the
manager as constructed. -/
def applyWidgetCalls (env : GUIEnv) (calls : List WidgetCall) : GUIManager :=
  calls.foldl
    (fun m call =>
      match call with
      | WidgetCall.register widget => registerWidget env m widget
      | WidgetCall.unregister widget => unregisterWidget env m widget)
    GUIManager.initial

/-- Modelled from the spec: the widgets registered after a sequence of calls, in registration
order, told from the calls alone: `registerWidget` registers the widget after those registered
before, `unregisterWidget` takes the earliest registration of the widget away. -/
def registeredWidgets (calls : List WidgetCall) : List Nat :=
  calls.foldl
    (fun widgets call =>
      match call with
      | WidgetCall.register widget => widgets ++ [widget]
      | WidgetCall.unregister widget => widgets.erase widget)
    []

/-! ## `GUIManager::render` -/

/-- A failed `render`: the `NotImplementedException` of the branch without separation by
widget, a vector indexed past its end, or a member call made through a null widget pointer. -/
inductive RenderError where
  | notImplemented
  | outOfRange
  | nullPointer
deriving DecidableEq, Repr

/-- One `renderMesh` call of `render`: the mesh, the material handle and the widget whose world
transform is passed. -/
structure RenderMeshCall where
  mesh : MeshData
  material : Option Nat
  widget : Nat
deriving DecidableEq, Repr

/-- The mesh loop of `render`, from mesh index `meshIdx` on: `cachedMaterials[meshIdx]` and
`cachedWidgetsPerMesh[meshIdx]` are read and the widget is dereferenced for each cached mesh. -/
def renderMeshes (renderData : GUIRenderData) :
    Nat → List MeshData → Except RenderError (List RenderMeshCall)
  | _, [] => Except.ok []
  | meshIdx, mesh :: rest =>
    match renderData.cachedMaterials[meshIdx]? with
    | none => Except.error RenderError.outOfRange
    | some material =>
      match renderData.cachedWidgetsPerMesh[meshIdx]? with
      | none => Except.error RenderError.outOfRange
      | some none => Except.error RenderError.nullPointer
      | some (some widget) =>
        match renderMeshes renderData (meshIdx + 1) rest with
        | Except.error e => Except.error e
        | Except.ok calls => Except.ok (⟨mesh, material, widget⟩ :: calls)

/-- The function `GUIManager::render` for a render target: the `renderMesh` calls made, in
order. -/
def render (m : GUIManager) (target : Nat) : Except RenderError (List RenderMeshCall) :=
  match findRenderData m.mCachedGUIData target with
  | none => Except.ok []
  | some renderData =>
    if m.mSeparateMeshesByWidget then renderMeshes renderData 0 renderData.cachedMeshes
    else Except.error RenderError.notImplemented

/-! ## Reachable states -/

/-- Every one of the hover, active and focus slots of the manager, as its element and its
widget, satisfies `P`. -/
def GUIManager.slotsSatisfy (P : Option Nat → Option Nat → Prop) (m : GUIManager) : Prop :=
  P m.mMouseOverElement m.mMouseOverWidget ∧ P m.mActiveElement m.mActiveWidget ∧
    P m.mKeyboardFocusElement m.mKeyboardFocusWidget

/-- A slot is valid among the registered widgets: its widget is null or registered, and is not
null when its element is not. -/
def slotValid (mWidgets : List Nat) (element widget : Option Nat) : Prop :=
  (∀ w, widget = some w → w ∈ mWidgets) ∧ (element ≠ none → widget ≠ none)

/-- A slot is owned in a scene: when its element is not null, its widget is a registered
widget that has the element among its elements. -/
def slotOwned (env : GUIEnv) (mWidgets : List Nat) (element widget : Option Nat) : Prop :=
  ∀ e, element = some e → ∃ w ∈ mWidgets, widget = some w ∧ e ∈ env.getElements w

/-- The manager states reachable from the constructed manager by widget registration and
unregistration, the four device event handlers and element-removal notifications, whatever the
collaborators answer at each call. A handler that fails leaves no state behind. -/
inductive Reachable : GUIManager → Prop where
  | initial : Reachable GUIManager.initial
  | register (env : GUIEnv) (m : GUIManager) (widget : Nat) :
      Reachable m → Reachable (registerWidget env m widget)
  | unregister (env : GUIEnv) (m : GUIManager) (widget : Nat) :
      Reachable m → Reachable (unregisterWidget env m widget)
  | buttonDown (env : GUIEnv) (m : GUIManager) (event : ButtonEvent) (next : GUIManager)
      (calls : List GUICall) :
      Reachable m → onButtonDown env m event = Except.ok (next, calls) → Reachable next
  | buttonUp (env : GUIEnv) (m : GUIManager) (event : ButtonEvent) (next : GUIManager)
      (calls : List GUICall) :
      Reachable m → onButtonUp env m event = Except.ok (next, calls) → Reachable next
  | mouseMoved (env : GUIEnv) (m : GUIManager) (event : MouseEvent) (next : GUIManager)
      (calls : List GUICall) :
      Reachable m → onMouseMoved env m event = Except.ok (next, calls) → Reachable next
  | textInput (env : GUIEnv) (m : GUIManager) (event : TextInputEvent) (next : GUIManager)
      (calls : List GUICall) :
      Reachable m → onTextInput env m event = Except.ok (next, calls) → Reachable next
  | elementRemoved (m : GUIManager) (widget element : Nat) :
      Reachable m → Reachable (onGUIElementRemovedFromWidget m widget element)

/-- The pairs of a scene and a manager state reachable when elements leave a registered widget
only with a removal notification: between calls the scene may change in any way that keeps
every element of every registered widget in its widget, and the removal of an element comes
with `onGUIElementRemovedFromWidget` for it. -/
inductive SceneReachable : GUIEnv → GUIManager → Prop where
  | initial (env : GUIEnv) : SceneReachable env GUIManager.initial
  | sceneChanged (env next : GUIEnv) (m : GUIManager) :
      SceneReachable env m →
      (∀ widget ∈ m.mWidgets, ∀ element ∈ env.getElements widget,
        element ∈ next.getElements widget) →
      SceneReachable next m
  | elementRemoved (env next : GUIEnv) (m : GUIManager) (widget element : Nat) :
      SceneReachable env m →
      (∀ other ∈ m.mWidgets, ∀ kept ∈ env.getElements other, kept ≠ element →
        kept ∈ next.getElements other) →
      SceneReachable next (onGUIElementRemovedFromWidget m widget element)
  | register (env : GUIEnv) (m : GUIManager) (widget : Nat) :
      SceneReachable env m → SceneReachable env (registerWidget env m widget)
  | unregister (env : GUIEnv) (m : GUIManager) (widget : Nat) :
      SceneReachable env m → SceneReachable env (unregisterWidget env m widget)
  | buttonDown (env : GUIEnv) (m : GUIManager) (event : ButtonEvent) (next : GUIManager)
      (calls : List GUICall) :
      SceneReachable env m → onButtonDown env m event = Except.ok (next, calls) →
      SceneReachable env next
  | buttonUp (env : GUIEnv) (m : GUIManager) (event : ButtonEvent) (next : GUIManager)
      (calls : List GUICall) :
      SceneReachable env m → onButtonUp env m event = Except.ok (next, calls) →
      SceneReachable env next
  | mouseMoved (env : GUIEnv) (m : GUIManager) (event : MouseEvent) (next : GUIManager)
      (calls : List GUICall) :
      SceneReachable env m → onMouseMoved env m event = Except.ok (next, calls) →
      SceneReachable env next
  | textInput (env : GUIEnv) (m : GUIManager) (event : TextInputEvent) (next : GUIManager)
      (calls : List GUICall) :
      SceneReachable env m → onTextInput env m event = Except.ok (next, calls) →
      SceneReachable env next

/-! ## Sample scenes -/

/-- Modelled from the spec: `Rect::overlaps` (defined in `CmRect.cpp`, which is not among the
sources), the overlap of two axis-aligned rectangles. -/
def Rect.overlaps (a b : Rect) : Bool :=
  decide (a.x < b.x + b.width) && decide (b.x < a.x + a.width) &&
    decide (a.y < b.y + b.height) && decide (b.y < a.y + a.height)

/-- Modelled from the spec: `Rect::encapsulate` (defined in `CmRect.cpp`, which is not among the
sources), the union rectangle of the two. -/
def Rect.encapsulate (a b : Rect) : Rect where
  x := min a.x b.x
  y := min a.y b.y
  width := max (a.x + a.width) (b.x + b.width) - min a.x b.x
  height := max (a.y + a.height) (b.y + b.height) - min a.y b.y

/-- Whether the point lies in the rectangle. -/
def Rect.contains (a : Rect) (p : Int2) : Bool :=
  decide (a.x ≤ p.x) && decide (p.x < a.x + a.width) &&
    decide (a.y ≤ p.y) && decide (p.y < a.y + a.height)

/-- A scene of one window (1, focused) and one widget (1) on render target 1, with identity
transforms, no element yet, every element enabled with one render element of one quad, and
every group at an address of its own. -/
def sampleEnv : GUIEnv where
  getElements := fun _ => []
  widgetIsDirty := fun _ => false
  getTarget := fun _ => 1
  getOwnerWindow := fun _ => 1
  widgetInBounds := fun _ _ => true
  worldToLocal := fun _ pos => pos
  hasFocus := fun _ => true
  screenToWindowPos := fun _ pos => pos
  isDisabled := fun _ => false
  getNumRenderElements := fun _ => 1
  getRenderElementDepth := fun _ _ => 0
  getMaterialID := fun _ _ => 0
  getNumQuads := fun _ _ => 1
  getParentWidget := fun _ => 1
  tfrmedBounds := fun _ => ⟨0, 0, 0, 0⟩
  getDepth := fun _ => 0
  isInBounds := fun _ _ => false
  acceptsKeyboardFocus := fun _ => false
  overlaps := Rect.overlaps
  encapsulate := Rect.encapsulate
  groupAddr := fun materialId index => Nat.pair materialId index
  isButtonDown := fun _ => false
  getMousePosition := ⟨0, 0⟩

/-- Four elements of widget 1: element 1 (depth 4, material 1) and element 2 (depth 4,
material 2) far apart, element 3 (depth 2, material 1) overlapping element 2, and element 4
(depth 1, material 2) overlapping element 3. -/
def paintOrderScene : GUIEnv :=
  { sampleEnv with
    getElements := fun widget => if widget = 1 then [1, 2, 3, 4] else []
    getRenderElementDepth := fun element _ =>
      if element = 1 then 4 else if element = 2 then 4 else if element = 3 then 2 else 1
    getMaterialID := fun element _ =>
      if element = 1 then 1 else if element = 2 then 2 else if element = 3 then 1 else 2
    tfrmedBounds := fun element =>
      if element = 1 then ⟨0, 0, 10, 10⟩ else if element = 2 then ⟨200, 0, 10, 10⟩
      else if element = 3 then ⟨205, 0, 10, 10⟩ else ⟨210, 0, 10, 10⟩ }

/-- The scene `paintOrderScene` with the layout of the groups in memory left open. -/
def paintOrderEnv (groupAddr : Nat → Nat → Nat) : GUIEnv :=
  { paintOrderScene with groupAddr := groupAddr }

/-- Three elements of widget 1: element 1 (depth 6, material 1), element 2 (depth 4,
material 2) overlapping element 1, and element 3 (depth 2, material 1) away from both. -/
def interveningEnv : GUIEnv :=
  { sampleEnv with
    getElements := fun widget => if widget = 1 then [1, 2, 3] else []
    getRenderElementDepth := fun element _ =>
      if element = 1 then 6 else if element = 2 then 4 else 2
    getMaterialID := fun element _ => if element = 2 then 2 else 1
    tfrmedBounds := fun element =>
      if element = 1 then ⟨0, 0, 10, 10⟩ else if element = 2 then ⟨5, 0, 10, 10⟩
      else ⟨100, 0, 10, 10⟩ }

/-- Two elements of widget 1 with material 7 and bounds that do not overlap: element 1 at
depth 2 and element 2 at depth 3. -/
def adjacentEnv : GUIEnv :=
  { sampleEnv with
    getElements := fun widget => if widget = 1 then [1, 2] else []
    getRenderElementDepth := fun element _ => if element = 1 then 2 else 3
    getMaterialID := fun _ _ => 7
    tfrmedBounds := fun element =>
      if element = 1 then ⟨0, 0, 10, 10⟩ else ⟨20, 0, 10, 10⟩ }

/-- Widget 1 with element 1 (A, depth 2) and element 2 (B, depth 1), both with bounds
(0, 0, 10, 10). -/
def hoverEnv : GUIEnv :=
  { sampleEnv with
    getElements := fun widget => if widget = 1 then [1, 2] else []
    getDepth := fun element => if element = 1 then 2 else 1
    isInBounds := fun _ pos => Rect.contains ⟨0, 0, 10, 10⟩ pos }

/-- Widget 1 with the single element 1, enabled, with bounds (0, 0, 10, 10) and the largest
`UINT32` depth. -/
def farthestEnv : GUIEnv :=
  { sampleEnv with
    getElements := fun widget => if widget = 1 then [1] else []
    getDepth := fun _ => 2 ^ 32 - 1
    isInBounds := fun _ pos => Rect.contains ⟨0, 0, 10, 10⟩ pos }

/-- A manager with widget 1 registered and nothing hovered, active or focused. -/
def oneWidgetManager : GUIManager :=
  { GUIManager.initial with
    mWidgets := [1]
    mCachedGUIData := [(1, ⟨[1], true, [], [], []⟩)] }

/-- The manager with widget 1 registered, after the pointer moved to (5, 5) over element 2 in
the scene `hoverEnv`. -/
def hoveringManager : GUIManager :=
  { oneWidgetManager with
    mMouseOverElement := some 2
    mMouseOverWidget := some 1
    mLastCursorLocalPos := ⟨5, 5⟩ }

/-- The manager `hoveringManager` after the left button went down on element 2. -/
def draggingManager : GUIManager :=
  { hoveringManager with
    mActiveElement := some 2
    mActiveWidget := some 1
    mActiveMouseButton := GUIMouseButton.Left }

/-- The manager with widget 1 registered and its element 2 holding the keyboard focus. -/
def focusedManager : GUIManager :=
  { oneWidgetManager with
    mKeyboardFocusElement := some 2
    mKeyboardFocusWidget := some 1 }

/-- The scene `hoverEnv` with every element accepting the keyboard focus. -/
def focusEnv : GUIEnv :=
  { hoverEnv with acceptsKeyboardFocus := fun _ => true }

/-- Two widgets of the focused window 1, both containing every point: widget 1 with the single
element 1, enabled, with bounds (0, 0, 10, 10), and identity world transform; widget 2 with no
element and a world transform that shifts by 100 along `x`. -/
def twoWidgetEnv : GUIEnv :=
  { sampleEnv with
    getElements := fun widget => if widget = 1 then [1] else []
    isInBounds := fun _ pos => Rect.contains ⟨0, 0, 10, 10⟩ pos
    worldToLocal := fun widget pos => if widget = 2 then ⟨pos.x - 100, pos.y⟩ else pos }

/-- A manager with widgets 1 and 2 registered, in this order, and nothing hovered, active or
focused. -/
def twoWidgetManager : GUIManager :=
  { GUIManager.initial with
    mWidgets := [1, 2]
    mCachedGUIData := [(1, ⟨[1, 2], true, [], [], []⟩)] }

/-- The device button code of a GUI mouse button. -/
def GUIMouseButton.toButtonCode : GUIMouseButton → ButtonCode
  | GUIMouseButton.Left => ButtonCode.mouseLeft
  | GUIMouseButton.Middle => ButtonCode.mouseMiddle
  | GUIMouseButton.Right => ButtonCode.mouseRight

/-- The batch index and the index in the batch of the first occurrence of an element in the
batch sequence, given as the element lists of the batches. -/
def drawPosition (batches : List (List GUIGroupElement)) (e : GUIGroupElement) :
    Option (Nat × Nat) :=
  (batches.enum.find? fun ib => decide (e ∈ ib.2)).map fun ib => (ib.1, ib.2.indexOf e)

/-- Whether `f` is drawn before `g`: the batch of `f` comes earlier than the batch of `g`, or
both are in one batch and `f` comes earlier in its element list. -/
def drawnBefore (batches : List (List GUIGroupElement)) (f g : GUIGroupElement) : Bool :=
  match drawPosition batches f, drawPosition batches g with
  | some pf, some pg => decide (pf.1 < pg.1) || (decide (pf.1 = pg.1) && decide (pf.2 < pg.2))
  | _, _ => false

/-- The element lists of the batch sequence of a rebuild. -/
def batchElements (env : GUIEnv) (separateMeshesByWidget : Bool) (widgets : List Nat) :
    List (List GUIGroupElement) :=
  (sortedGroups env separateMeshesByWidget widgets).map fun p => p.group.elements

/-! ## Lemmas on `std::set` -/

theorem setInsert_mem_imp {α : Type} (lt : α → α → Bool) (x y : α) :
    ∀ s : List α, y ∈ setInsert lt x s → y = x ∨ y ∈ s
  | [] => by simp [setInsert]
  | z :: zs => by
    intro h
    unfold setInsert at h
    split_ifs at h with h1 h2
    · rcases List.mem_cons.mp h with h | h
      · exact Or.inr (h ▸ List.mem_cons_self _ _)
      · rcases setInsert_mem_imp lt x y zs h with h | h
        · exact Or.inl h
        · exact Or.inr (List.mem_cons_of_mem _ h)
    · rcases List.mem_cons.mp h with h | h
      · exact Or.inl h
      · exact Or.inr h
    · exact Or.inr h

theorem mem_setInsert_of_mem {α : Type} (lt : α → α → Bool) (x y : α) :
    ∀ s : List α, y ∈ s → y ∈ setInsert lt x s
  | [] => by simp
  | z :: zs => by
    intro h
    unfold setInsert
    split_ifs with h1 h2
    · rcases List.mem_cons.mp h with h | h
      · exact h ▸ List.mem_cons_self _ _
      · exact List.mem_cons_of_mem _ (mem_setInsert_of_mem lt x y zs h)
    · exact List.mem_cons_of_mem _ h
    · exact h

theorem self_mem_setInsert {α : Type} (lt : α → α → Bool)
    (htri : ∀ a b, lt a b = false → lt b a = false → a = b) (x : α) :
    ∀ s : List α, x ∈ setInsert lt x s
  | [] => by simp [setInsert]
  | z :: zs => by
    unfold setInsert
    split_ifs with h1 h2
    · exact List.mem_cons_of_mem _ (self_mem_setInsert lt htri x zs)
    · exact List.mem_cons_self _ _
    · have : x = z := htri x z (by simpa using h2) (by simpa using h1)
      exact this ▸ List.mem_cons_self _ _

theorem setInsert_pairwise {α : Type} (lt : α → α → Bool)
    (htrans : ∀ a b c, lt a b = true → lt b c = true → lt a c = true) (x : α) :
    ∀ s : List α, s.Pairwise (fun a b => lt a b = true) →
      (setInsert lt x s).Pairwise (fun a b => lt a b = true)
  | [] => by simp [setInsert]
  | z :: zs => by
    intro h
    have hz := List.pairwise_cons.mp h
    unfold setInsert
    split_ifs with h1 h2
    · refine List.pairwise_cons.mpr ⟨?_, setInsert_pairwise lt htrans x zs hz.2⟩
      intro w hw
      rcases setInsert_mem_imp lt x w zs hw with hw | hw
      · exact hw ▸ h1
      · exact hz.1 w hw
    · refine List.pairwise_cons.mpr ⟨?_, h⟩
      intro w hw
      rcases List.mem_cons.mp hw with hw | hw
      · exact hw ▸ h2
      · exact htrans _ _ _ h2 (hz.1 w hw)
    · exact h

theorem setInsert_perm {α : Type} (lt : α → α → Bool) (x : α) :
    ∀ s : List α, (∀ y ∈ s, lt x y = true ∨ lt y x = true) → (setInsert lt x s).Perm (x :: s)
  | [] => by simp [setInsert]
  | z :: zs => by
    intro h
    unfold setInsert
    split_ifs with h1 h2
    · exact ((setInsert_perm lt x zs fun y hy => h y (List.mem_cons_of_mem _ hy)).cons z).trans
        (List.Perm.swap x z zs)
    · exact List.Perm.refl _
    · rcases h z (List.mem_cons_self _ _) with h3 | h3
      · exact absurd h3 h2
      · exact absurd h3 h1

theorem foldl_setInsert_pairwise {α : Type} (lt : α → α → Bool)
    (htrans : ∀ a b c, lt a b = true → lt b c = true → lt a c = true) :
    ∀ (xs s : List α), s.Pairwise (fun a b => lt a b = true) →
      (xs.foldl (fun s x => setInsert lt x s) s).Pairwise (fun a b => lt a b = true)
  | [], _ => fun h => h
  | x :: xs, s => fun h =>
    foldl_setInsert_pairwise lt htrans xs _ (setInsert_pairwise lt htrans x s h)

theorem setInsertAll_pairwise {α : Type} (lt : α → α → Bool)
    (htrans : ∀ a b c, lt a b = true → lt b c = true → lt a c = true) (xs : List α) :
    (setInsertAll lt xs).Pairwise (fun a b => lt a b = true) :=
  foldl_setInsert_pairwise lt htrans xs [] List.Pairwise.nil

theorem foldl_setInsert_mem {α : Type} (lt : α → α → Bool)
    (htri : ∀ a b, lt a b = false → lt b a = false → a = b) (y : α) :
    ∀ (xs s : List α), y ∈ xs.foldl (fun s x => setInsert lt x s) s ↔ y ∈ xs ∨ y ∈ s
  | [], s => by simp
  | x :: xs, s => by
    rw [List.foldl_cons, foldl_setInsert_mem lt htri y xs]
    constructor
    · rintro (h | h)
      · exact Or.inl (List.mem_cons_of_mem _ h)
      · rcases setInsert_mem_imp lt x y s h with h | h
        · exact Or.inl (h ▸ List.mem_cons_self _ _)
        · exact Or.inr h
    · rintro (h | h)
      · rcases List.mem_cons.mp h with h | h
        · exact Or.inr (h ▸ self_mem_setInsert lt htri x s)
        · exact Or.inl h
      · exact Or.inr (mem_setInsert_of_mem lt x y s h)

theorem mem_setInsertAll {α : Type} (lt : α → α → Bool)
    (htri : ∀ a b, lt a b = false → lt b a = false → a = b) (y : α) (xs : List α) :
    y ∈ setInsertAll lt xs ↔ y ∈ xs := by
  unfold setInsertAll
  rw [foldl_setInsert_mem lt htri]
  simp

theorem foldl_setInsert_perm {α : Type} (lt : α → α → Bool) :
    ∀ (xs s : List α), (∀ x ∈ xs, ∀ y ∈ s, lt x y = true ∨ lt y x = true) →
      xs.Pairwise (fun a b => lt a b = true ∨ lt b a = true) →
      (xs.foldl (fun s x => setInsert lt x s) s).Perm (xs ++ s)
  | [], s => by simp
  | x :: xs, s => by
    intro h1 h2
    have hx := List.pairwise_cons.mp h2
    have hp := setInsert_perm lt x s (h1 x (List.mem_cons_self _ _))
    rw [List.foldl_cons]
    refine (foldl_setInsert_perm lt xs _ ?_ hx.2).trans ?_
    · intro a ha y hy
      rcases setInsert_mem_imp lt x y s hy with hy | hy
      · subst hy
        exact (hx.1 a ha).symm
      · exact h1 a (List.mem_cons_of_mem _ ha) y hy
    · exact ((List.Perm.append_left xs hp).trans List.perm_middle)

theorem setInsertAll_perm {α : Type} (lt : α → α → Bool) (xs : List α)
    (h : xs.Pairwise (fun a b => lt a b = true ∨ lt b a = true)) :
    (setInsertAll lt xs).Perm xs := by
  have := foldl_setInsert_perm lt xs [] (by simp) h
  simpa [setInsertAll] using this

/-! ## The comparators -/

theorem elemComp_iff (env : GUIEnv) (a b : GUIGroupElement) :
    elemComp env a b = true ↔
      env.depthOf a > env.depthOf b ∨
        (env.depthOf a = env.depthOf b ∧ a.element > b.element) ∨
        (env.depthOf a = env.depthOf b ∧ a.element = b.element ∧
          a.renderElement > b.renderElement) := by
  simp [elemComp, GUIEnv.depthOf, or_assoc, and_assoc]

theorem elemComp_trans (env : GUIEnv) (a b c : GUIGroupElement)
    (hab : elemComp env a b = true) (hbc : elemComp env b c = true) :
    elemComp env a c = true := by
  rw [elemComp_iff] at *
  omega

theorem elemComp_irrefl (env : GUIEnv) (a : GUIGroupElement) : elemComp env a a = false := by
  rw [Bool.eq_false_iff]
  intro h
  rw [elemComp_iff] at h
  omega

theorem elemComp_trichotomy (env : GUIEnv) (a b : GUIGroupElement)
    (hab : elemComp env a b = false) (hba : elemComp env b a = false) : a = b := by
  rw [Bool.eq_false_iff, Ne, elemComp_iff] at hab hba
  cases a with
  | mk ae ar =>
    cases b with
    | mk be br =>
      simp only [GUIGroupElement.mk.injEq]
      simp only at hab hba
      by_cases he : ae = be
      · subst he
        simp only [GUIEnv.depthOf] at hab hba
        by_cases hr : ar = br
        · exact ⟨rfl, hr⟩
        · exfalso
          rcases Nat.lt_or_gt_of_ne hr with h | h
          · by_cases hd : env.getRenderElementDepth ae ar = env.getRenderElementDepth ae br
            · exact hba (Or.inr (Or.inr ⟨hd.symm, trivial, h⟩))
            · rcases Nat.lt_or_gt_of_ne hd with h2 | h2
              · exact hba (Or.inl h2)
              · exact hab (Or.inl h2)
          · by_cases hd : env.getRenderElementDepth ae ar = env.getRenderElementDepth ae br
            · exact hab (Or.inr (Or.inr ⟨hd, trivial, h⟩))
            · rcases Nat.lt_or_gt_of_ne hd with h2 | h2
              · exact hba (Or.inl h2)
              · exact hab (Or.inl h2)
      · exfalso
        omega

theorem elemComp_depth (env : GUIEnv) (a b : GUIGroupElement) (h : elemComp env a b = true) :
    env.depthOf b ≤ env.depthOf a := by
  rw [elemComp_iff] at h
  omega

theorem allElements_pairwise (env : GUIEnv) (widgets : List Nat) :
    (allElements env widgets).Pairwise (fun a b => elemComp env a b = true) :=
  setInsertAll_pairwise _ (elemComp_trans env) _

theorem allElements_nodup (env : GUIEnv) (widgets : List Nat) :
    (allElements env widgets).Nodup := by
  refine (allElements_pairwise env widgets).imp ?_
  intro a b h hab
  subst hab
  rw [elemComp_irrefl] at h
  exact Bool.false_ne_true h

theorem allElements_depth_sorted (env : GUIEnv) (widgets : List Nat) :
    (allElements env widgets).Pairwise (fun a b => env.depthOf b ≤ env.depthOf a) :=
  (allElements_pairwise env widgets).imp (fun h => elemComp_depth env _ _ h)

theorem mem_insertedElements (env : GUIEnv) (widgets : List Nat) (p : GUIGroupElement) :
    p ∈ insertedElements env widgets ↔
      ∃ widget ∈ widgets, p.element ∈ env.getElements widget ∧
        env.isDisabled p.element = false ∧ p.renderElement < env.getNumRenderElements p.element := by
  unfold insertedElements
  simp only [List.mem_flatMap]
  constructor
  · rintro ⟨w, hw, e, he, hp⟩
    by_cases hd : env.isDisabled e = true
    · simp [hd] at hp
    · simp only [hd, Bool.false_eq_true, if_false, List.mem_map, List.mem_range] at hp
      obtain ⟨i, hi, rfl⟩ := hp
      exact ⟨w, hw, he, by simpa using hd, hi⟩
  · rintro ⟨w, hw, he, hd, hi⟩
    refine ⟨w, hw, p.element, he, ?_⟩
    simp only [hd, Bool.false_eq_true, if_false, List.mem_map, List.mem_range]
    exact ⟨p.renderElement, hi, rfl⟩

theorem mem_allElements (env : GUIEnv) (widgets : List Nat) (p : GUIGroupElement) :
    p ∈ allElements env widgets ↔
      ∃ widget ∈ widgets, p.element ∈ env.getElements widget ∧
        env.isDisabled p.element = false ∧ p.renderElement < env.getNumRenderElements p.element := by
  unfold allElements
  rw [mem_setInsertAll _ (elemComp_trichotomy env), mem_insertedElements]

theorem groupComp_iff (a b : GroupPtr) :
    groupComp a b = true ↔
      a.group.depth > b.group.depth ∨ (a.group.depth = b.group.depth ∧ a.addr > b.addr) := by
  simp [groupComp]

theorem groupComp_trans (a b c : GroupPtr) (hab : groupComp a b = true)
    (hbc : groupComp b c = true) : groupComp a c = true := by
  rw [groupComp_iff] at *
  omega

theorem groupComp_depth (a b : GroupPtr) (h : groupComp a b = true) :
    b.group.depth ≤ a.group.depth := by
  rw [groupComp_iff] at h
  omega

/-! ## The map of material groups -/

theorem groupList_append (a b : MaterialGroups) :
    groupList (a ++ b) = groupList a ++ groupList b := by
  simp [groupList, List.flatMap_append]

theorem groupList_cons (material : Nat × List GUIMaterialGroup) (rest : MaterialGroups) :
    groupList (material :: rest) = material.2 ++ groupList rest := by
  simp [groupList, List.flatMap_cons]

theorem groupList_ensureMaterial (mg : MaterialGroups) (materialId : Nat) :
    groupList (ensureMaterial mg materialId) = groupList mg := by
  unfold ensureMaterial
  split_ifs
  · rfl
  · rw [groupList_append]
    simp [groupList]

theorem foundOverlap_eq_any (env : GUIEnv) (mg : MaterialGroups) (startDepth endDepth : Nat)
    (tb : Rect) :
    foundOverlap env mg startDepth endDepth tb =
      (groupList mg).any fun group =>
        decide (group.depth > startDepth) && decide (group.depth < endDepth) &&
          env.overlaps group.bounds tb := by
  induction mg with
  | nil => rfl
  | cons material rest ih =>
    rw [groupList_cons, List.any_append, ← ih]
    simp [foundOverlap]

theorem groupAccepts_ensureMaterial (env : GUIEnv) (sep : Bool) (mg : MaterialGroups)
    (materialId : Nat) (elem : GUIGroupElement) (group : GUIMaterialGroup) :
    groupAccepts env sep (ensureMaterial mg materialId) elem group =
      groupAccepts env sep mg elem group := by
  simp only [groupAccepts, foundOverlap_eq_any, groupList_ensureMaterial]

theorem groupsOf_append_of_hasMaterial (mg extra : MaterialGroups) (k : Nat)
    (h : hasMaterial mg k = true) : groupsOf (mg ++ extra) k = groupsOf mg k := by
  induction mg with
  | nil => simp [hasMaterial] at h
  | cons material rest ih =>
    simp only [List.cons_append, groupsOf]
    split_ifs with hk
    · rfl
    · apply ih
      simp only [hasMaterial, List.any_cons, Bool.or_eq_true, decide_eq_true_eq] at h
      rcases h with h | h
      · exact absurd h hk
      · simpa [hasMaterial] using h

theorem groupsOf_of_not_hasMaterial (mg : MaterialGroups) (k : Nat)
    (h : hasMaterial mg k = false) : groupsOf mg k = [] := by
  induction mg with
  | nil => rfl
  | cons material rest ih =>
    simp only [hasMaterial, List.any_cons, Bool.or_eq_false_iff, decide_eq_false_iff_not] at h
    simp only [groupsOf, h.1, if_false]
    exact ih (by simpa [hasMaterial] using h.2)

theorem groupsOf_append_of_not_hasMaterial (mg extra : MaterialGroups) (k : Nat)
    (h : hasMaterial mg k = false) : groupsOf (mg ++ extra) k = groupsOf extra k := by
  induction mg with
  | nil => rfl
  | cons material rest ih =>
    simp only [hasMaterial, List.any_cons, Bool.or_eq_false_iff, decide_eq_false_iff_not] at h
    simp only [List.cons_append, groupsOf, h.1, if_false]
    exact ih (by simpa [hasMaterial] using h.2)

theorem groupsOf_ensureMaterial (mg : MaterialGroups) (materialId k : Nat) :
    groupsOf (ensureMaterial mg materialId) k = groupsOf mg k := by
  unfold ensureMaterial
  split_ifs with h
  · rfl
  · by_cases hk : hasMaterial mg k = true
    · exact groupsOf_append_of_hasMaterial mg _ k hk
    · have hk2 : hasMaterial mg k = false := by simpa using hk
      rw [groupsOf_append_of_not_hasMaterial mg _ k hk2, groupsOf_of_not_hasMaterial mg k hk2]
      simp [groupsOf]

theorem groupsOf_updateGroupsOf (materialId : Nat)
    (f : List GUIMaterialGroup → List GUIMaterialGroup) (mg : MaterialGroups) (k : Nat) :
    groupsOf (updateGroupsOf materialId f mg) k =
      if k = materialId then f (groupsOf mg materialId) else groupsOf mg k := by
  induction mg with
  | nil =>
    by_cases hk : k = materialId
    · simp [updateGroupsOf, groupsOf, hk]
    · have : ¬ materialId = k := fun h => hk h.symm
      simp [updateGroupsOf, groupsOf, hk, this]
  | cons material rest ih =>
    unfold updateGroupsOf
    by_cases hm : material.1 = materialId
    · simp only [hm, if_true, groupsOf]
      by_cases hk : k = materialId
      · simp [hk]
      · have : ¬ materialId = k := fun h => hk h.symm
        simp [hk, this]
    · simp only [hm, if_false, groupsOf]
      by_cases hk : k = materialId
      · subst hk
        simp only [hm, if_false, if_true]
        simpa using ih
      · by_cases hmk : material.1 = k
        · simp [hmk, hk]
        · simp only [hmk, if_false, hk]
          simpa [hk] using ih

theorem groupsOf_subset_groupList (mg : MaterialGroups) (k : Nat) (g : GUIMaterialGroup)
    (h : g ∈ groupsOf mg k) : g ∈ groupList mg := by
  induction mg with
  | nil => simp [groupsOf] at h
  | cons material rest ih =>
    rw [groupList_cons]
    unfold groupsOf at h
    split_ifs at h with hk
    · exact List.mem_append_left _ h
    · exact List.mem_append_right _ (ih h)

theorem groupList_updateGroupsOf (materialId : Nat) (mg : MaterialGroups) :
    ∃ before after : List GUIMaterialGroup,
      groupList mg = before ++ groupsOf mg materialId ++ after ∧
        ∀ f : List GUIMaterialGroup → List GUIMaterialGroup,
          groupList (updateGroupsOf materialId f mg) =
            before ++ f (groupsOf mg materialId) ++ after := by
  induction mg with
  | nil =>
    refine ⟨[], [], by simp [groupList, groupsOf], ?_⟩
    intro f
    simp [groupList, groupsOf, updateGroupsOf]
  | cons material rest ih =>
    obtain ⟨before, after, h1, h2⟩ := ih
    by_cases hm : material.1 = materialId
    · refine ⟨[], groupList rest, ?_, ?_⟩
      · simp [groupList_cons, groupsOf, hm]
      · intro f
        simp [groupList_cons, groupsOf, updateGroupsOf, hm]
    · refine ⟨material.2 ++ before, after, ?_, ?_⟩
      · simp only [groupList_cons, groupsOf, hm, if_false, h1, List.append_assoc]
      · intro f
        simp only [updateGroupsOf, hm, if_false, groupList_cons, groupsOf, h2,
          List.append_assoc]

theorem modify_of_getElem? {α : Type} (f : α → α) :
    ∀ (v : List α) (i : Nat) (g : α), v[i]? = some g →
      ∃ v1 v2 : List α, v = v1 ++ g :: v2 ∧ v.modify f i = v1 ++ f g :: v2
  | [], i, g => by simp
  | x :: xs, 0, g => by
    intro h
    simp only [List.getElem?_cons_zero, Option.some.injEq] at h
    subst h
    exact ⟨[], xs, rfl, rfl⟩
  | x :: xs, i + 1, g => by
    intro h
    simp only [List.getElem?_cons_succ] at h
    obtain ⟨v1, v2, h1, h2⟩ := modify_of_getElem? f xs i g h
    refine ⟨x :: v1, v2, by simp [h1], ?_⟩
    simp [List.modify_succ_cons, h2]

theorem placeElement_cases (env : GUIEnv) (sep : Bool) (mg : MaterialGroups)
    (elem : GUIGroupElement) (allGroups : List GUIMaterialGroup) :
    placeElement env sep mg elem allGroups = allGroups ++ [newGroup env elem] ∨
      ∃ (v1 : List GUIMaterialGroup) (group : GUIMaterialGroup) (v2 : List GUIMaterialGroup),
        allGroups = v1 ++ group :: v2 ∧ groupAccepts env sep mg elem group = true ∧
          placeElement env sep mg elem allGroups = v1 ++ mergeInto env elem group :: v2 := by
  unfold placeElement findGroup
  cases hfind : allGroups.enum.reverse.find? fun ig => groupAccepts env sep mg elem ig.2 with
  | none => exact Or.inl rfl
  | some ig =>
    right
    have hacc := List.find?_some hfind
    have hmem := List.mem_of_find?_eq_some hfind
    rw [List.mem_reverse, List.mem_enum_iff_getElem?] at hmem
    obtain ⟨v1, v2, h1, h2⟩ := modify_of_getElem? (mergeInto env elem) allGroups ig.1 ig.2 hmem
    exact ⟨v1, ig.2, v2, h1, hacc, by simpa using h2⟩

/-- The effect of one iteration of the grouping loop on the list of all groups: a new group is
put somewhere in the list, or one accepting group of the material is replaced by its merge. -/
theorem addElement_groupList (env : GUIEnv) (sep : Bool) (mg : MaterialGroups)
    (elem : GUIGroupElement) :
    ∃ before after : List GUIMaterialGroup,
      (groupList mg = before ++ after ∧
        groupList (addElement env sep mg elem) = before ++ newGroup env elem :: after) ∨
      ∃ group : GUIMaterialGroup,
        groupList mg = before ++ group :: after ∧
          groupList (addElement env sep mg elem) = before ++ mergeInto env elem group :: after ∧
          groupAccepts env sep mg elem group = true ∧
          group ∈ groupsOf mg (env.materialOf elem) := by
  obtain ⟨before, after, h1, h2⟩ :=
    groupList_updateGroupsOf (env.materialOf elem) (ensureMaterial mg (env.materialOf elem))
  rw [groupList_ensureMaterial, groupsOf_ensureMaterial] at h1
  have h3 := h2 (placeElement env sep (ensureMaterial mg (env.materialOf elem)) elem)
  rw [groupsOf_ensureMaterial] at h3
  rcases placeElement_cases env sep (ensureMaterial mg (env.materialOf elem)) elem
      (groupsOf mg (env.materialOf elem)) with hp | ⟨v1, group, v2, hv, hacc, hp⟩
  · refine ⟨before ++ groupsOf mg (env.materialOf elem), after, Or.inl ⟨h1, ?_⟩⟩
    unfold addElement
    simp only [h3, hp, List.append_assoc, List.singleton_append]
  · refine ⟨before ++ v1, v2 ++ after, Or.inr ⟨group, ?_, ?_, ?_, ?_⟩⟩
    · rw [h1, hv]
      simp
    · unfold addElement
      simp only [h3, hp, List.append_assoc, List.cons_append]
    · rwa [groupAccepts_ensureMaterial] at hacc
    · rw [hv]
      simp

theorem groupsOf_addElement (env : GUIEnv) (sep : Bool) (mg : MaterialGroups)
    (elem : GUIGroupElement) (k : Nat) :
    groupsOf (addElement env sep mg elem) k =
      if k = env.materialOf elem then
        placeElement env sep (ensureMaterial mg (env.materialOf elem)) elem
          (groupsOf mg (env.materialOf elem))
      else groupsOf mg k := by
  unfold addElement
  simp only [groupsOf_updateGroupsOf, groupsOf_ensureMaterial]

/-! ## Invariants of the grouping loop -/

theorem groupElements_snoc (env : GUIEnv) (sep : Bool) (pre : List GUIGroupElement)
    (elem : GUIGroupElement) :
    groupElements env sep (pre ++ [elem]) =
      addElement env sep (groupElements env sep pre) elem := by
  simp [groupElements, List.foldl_append]

/-- Where a group of the list after one iteration comes from. -/
theorem addElement_group_origin (env : GUIEnv) (sep : Bool) (mg : MaterialGroups)
    (elem : GUIGroupElement) (g1 : GUIMaterialGroup)
    (h : g1 ∈ groupList (addElement env sep mg elem)) :
    g1 ∈ groupList mg ∨ g1 = newGroup env elem ∨
      ∃ g0 ∈ groupList mg, g1 = mergeInto env elem g0 ∧
        groupAccepts env sep mg elem g0 = true ∧ g0 ∈ groupsOf mg (env.materialOf elem) := by
  obtain ⟨before, after, hcase⟩ := addElement_groupList env sep mg elem
  rcases hcase with ⟨h1, h2⟩ | ⟨g0, h1, h2, h3, h4⟩
  · rw [h2] at h
    rw [h1]
    simp only [List.mem_append, List.mem_cons] at h ⊢
    tauto
  · rw [h2] at h
    simp only [List.mem_append, List.mem_cons] at h
    have hg0 : g0 ∈ groupList mg := by rw [h1]; simp
    rcases h with h | h | h
    · left; rw [h1]; simp [h]
    · right; right; exact ⟨g0, hg0, h, h3, h4⟩
    · left; rw [h1]; simp [h]

/-- Where an element of a group of the list after one iteration comes from. -/
theorem addElement_member_origin (env : GUIEnv) (sep : Bool) (mg : MaterialGroups)
    (elem : GUIGroupElement) (g1 : GUIMaterialGroup)
    (h : g1 ∈ groupList (addElement env sep mg elem)) (p : GUIGroupElement)
    (hp : p ∈ g1.elements) :
    (∃ g0 ∈ groupList mg, p ∈ g0.elements ∧ g0.depth = g1.depth ∧
        g0.material = g1.material) ∨
      (p = elem ∧ (g1 = newGroup env elem ∨
        ∃ g0 ∈ groupList mg, g1 = mergeInto env elem g0 ∧
          groupAccepts env sep mg elem g0 = true ∧
          g0 ∈ groupsOf mg (env.materialOf elem))) := by
  rcases addElement_group_origin env sep mg elem g1 h with h | h | ⟨g0, hg0, h1, h2, h3⟩
  · exact Or.inl ⟨g1, h, hp, rfl, rfl⟩
  · subst h
    simp only [newGroup, List.mem_singleton] at hp
    exact Or.inr ⟨hp, Or.inl rfl⟩
  · subst h1
    simp only [mergeInto, List.mem_append, List.mem_singleton] at hp
    rcases hp with hp | hp
    · exact Or.inl ⟨g0, hg0, hp, rfl, rfl⟩
    · exact Or.inr ⟨hp, Or.inr ⟨g0, hg0, rfl, h2, h3⟩⟩

/-- The elements of all groups are the processed elements, each once. -/
theorem groupElements_perm (env : GUIEnv) (sep : Bool) (xs : List GUIGroupElement) :
    ((groupList (groupElements env sep xs)).flatMap GUIMaterialGroup.elements).Perm xs := by
  induction xs using List.reverseRecOn with
  | nil => simp [groupElements, groupList]
  | append_singleton pre elem ih =>
    rw [groupElements_snoc]
    obtain ⟨before, after, hcase⟩ :=
      addElement_groupList env sep (groupElements env sep pre) elem
    rcases hcase with ⟨h1, h2⟩ | ⟨g0, h1, h2, _, _⟩
    · rw [h2]
      rw [h1] at ih
      simp only [List.flatMap_append, List.flatMap_cons, newGroup] at ih ⊢
      refine (List.perm_middle).trans ?_
      exact ((ih.cons elem).trans (List.perm_append_singleton elem pre).symm)
    · rw [h2]
      rw [h1] at ih
      simp only [List.flatMap_append, List.flatMap_cons, mergeInto, List.append_assoc,
        List.singleton_append] at ih ⊢
      have : (before.flatMap GUIMaterialGroup.elements ++
          (g0.elements ++ elem :: after.flatMap GUIMaterialGroup.elements)).Perm
          (elem :: (before.flatMap GUIMaterialGroup.elements ++
            (g0.elements ++ after.flatMap GUIMaterialGroup.elements))) := by
        rw [← List.append_assoc, ← List.append_assoc]
        exact List.perm_middle
      exact this.trans ((ih.cons elem).trans (List.perm_append_singleton elem pre).symm)

theorem mem_of_mem_group (env : GUIEnv) (sep : Bool) (xs : List GUIGroupElement)
    (g : GUIMaterialGroup) (hg : g ∈ groupList (groupElements env sep xs))
    (p : GUIGroupElement) (hp : p ∈ g.elements) : p ∈ xs :=
  (groupElements_perm env sep xs).mem_iff.mp (List.mem_flatMap.mpr ⟨g, hg, hp⟩)

/-- Every group has a first element, and its depth is the depth of the group. -/
theorem group_first_depth (env : GUIEnv) (sep : Bool) (xs : List GUIGroupElement) :
    ∀ g ∈ groupList (groupElements env sep xs),
      ∃ first rest, g.elements = first :: rest ∧ env.depthOf first = g.depth := by
  induction xs using List.reverseRecOn with
  | nil => simp [groupElements, groupList]
  | append_singleton pre elem ih =>
    intro g1 hg1
    rw [groupElements_snoc] at hg1
    rcases addElement_group_origin env sep _ elem g1 hg1 with h | h | ⟨g0, hg0, h1, _, _⟩
    · exact ih g1 h
    · subst h
      exact ⟨elem, [], rfl, rfl⟩
    · obtain ⟨first, rest, hf, hd⟩ := ih g0 hg0
      subst h1
      exact ⟨first, rest ++ [elem], by simp [mergeInto, hf], by simpa [mergeInto] using hd⟩

/-- No element of a group is farther than the group when elements are processed farthest
first. -/
theorem group_member_depth (env : GUIEnv) (sep : Bool) (xs : List GUIGroupElement)
    (hsorted : xs.Pairwise fun a b => env.depthOf b ≤ env.depthOf a) :
    ∀ g ∈ groupList (groupElements env sep xs), ∀ p ∈ g.elements, env.depthOf p ≤ g.depth := by
  induction xs using List.reverseRecOn with
  | nil => simp [groupElements, groupList]
  | append_singleton pre elem ih =>
    have hs := List.pairwise_append.mp hsorted
    intro g1 hg1 p hp
    rw [groupElements_snoc] at hg1
    rcases addElement_member_origin env sep _ elem g1 hg1 p hp with
      ⟨g0, hg0, hp0, hd, _⟩ | ⟨rfl, h | ⟨g0, hg0, h1, _, _⟩⟩
    · rw [← hd]
      exact ih hs.1 g0 hg0 p hp0
    · subst h
      exact le_refl _
    · obtain ⟨first, rest, hf, hd⟩ := group_first_depth env sep pre g0 hg0
      have hfirst : first ∈ pre := mem_of_mem_group env sep pre g0 hg0 first (by simp [hf])
      have := hs.2.2 first hfirst p (by simp)
      subst h1
      simpa [mergeInto, ← hd] using this

/-- The material of a group and of its elements is the key of the vector the group is in. -/
theorem groupsOf_material (env : GUIEnv) (sep : Bool) (xs : List GUIGroupElement) :
    ∀ (k : Nat), ∀ g ∈ groupsOf (groupElements env sep xs) k,
      g.material = k ∧ ∀ p ∈ g.elements, env.materialOf p = k := by
  induction xs using List.reverseRecOn with
  | nil => simp [groupElements, groupsOf]
  | append_singleton pre elem ih =>
    intro k g hg
    rw [groupElements_snoc, groupsOf_addElement] at hg
    split_ifs at hg with hk
    · rcases placeElement_cases env sep
        (ensureMaterial (groupElements env sep pre) (env.materialOf elem)) elem
        (groupsOf (groupElements env sep pre) (env.materialOf elem)) with hp | ⟨v1, g0, v2, hv, _, hp⟩
      · rw [hp, List.mem_append, List.mem_singleton] at hg
        rcases hg with hg | hg
        · rw [hk]; exact ih _ g hg
        · subst hg
          subst hk
          exact ⟨rfl, by simp [newGroup]⟩
      · rw [hp] at hg
        have hg0 : g0 ∈ groupsOf (groupElements env sep pre) (env.materialOf elem) := by
          rw [hv]; simp
        simp only [List.mem_append, List.mem_cons] at hg
        rcases hg with hg | hg | hg
        · rw [hk]; exact ih _ g (by rw [hv]; simp [hg])
        · have := ih _ g0 hg0
          subst hg
          subst hk
          refine ⟨by simpa [mergeInto] using this.1, ?_⟩
          intro p hp
          simp only [mergeInto, List.mem_append, List.mem_singleton] at hp
          rcases hp with hp | hp
          · exact this.2 p hp
          · rw [hp]
        · rw [hk]; exact ih _ g (by rw [hv]; simp [hg])
    · exact ih k g hg

theorem mem_groupList_iff (mg : MaterialGroups) (g : GUIMaterialGroup) :
    g ∈ groupList mg ↔ ∃ material ∈ mg, g ∈ material.2 := by
  simp [groupList, List.mem_flatMap]

/-! ## Materials, bounds and the merge rule -/

/-- Every element of a group has the material of the group. -/
theorem group_member_material (env : GUIEnv) (sep : Bool) (xs : List GUIGroupElement) :
    ∀ g ∈ groupList (groupElements env sep xs), ∀ p ∈ g.elements,
      env.materialOf p = g.material := by
  induction xs using List.reverseRecOn with
  | nil => simp [groupElements, groupList]
  | append_singleton pre elem ih =>
    intro g1 hg1 p hp
    rw [groupElements_snoc] at hg1
    rcases addElement_member_origin env sep _ elem g1 hg1 p hp with
      ⟨g0, hg0, hp0, _, hm⟩ | ⟨rfl, h | ⟨g0, _, h1, _, h3⟩⟩
    · rw [← hm]
      exact ih g0 hg0 p hp0
    · subst h
      rfl
    · subst h1
      simpa [mergeInto] using ((groupsOf_material env sep pre _ g0 h3).1).symm

/-- The bounds of a group overlap whatever the bounds of one of its elements overlap, when
`encapsulate` keeps the overlaps of both rectangles. -/
theorem group_bounds_cover (env : GUIEnv) (sep : Bool)
    (hkeep : ∀ r s t, env.overlaps r t = true → env.overlaps (env.encapsulate r s) t = true)
    (hadd : ∀ r s t, env.overlaps s t = true → env.overlaps (env.encapsulate r s) t = true)
    (xs : List GUIGroupElement) :
    ∀ g ∈ groupList (groupElements env sep xs), ∀ p ∈ g.elements, ∀ t,
      env.overlaps (env.tfrmedBounds p.element) t = true → env.overlaps g.bounds t = true := by
  induction xs using List.reverseRecOn with
  | nil => simp [groupElements, groupList]
  | append_singleton pre elem ih =>
    intro g1 hg1 p hp t ht
    rw [groupElements_snoc] at hg1
    rcases addElement_group_origin env sep _ elem g1 hg1 with h | h | ⟨g0, hg0, h1, _, _⟩
    · exact ih g1 h p hp t ht
    · subst h
      simp only [newGroup, List.mem_singleton] at hp
      subst hp
      exact ht
    · subst h1
      simp only [mergeInto, List.mem_append, List.mem_singleton] at hp ⊢
      rcases hp with hp | hp
      · exact hkeep _ _ _ (ih g0 hg0 p hp t ht)
      · subst hp
        exact hadd _ _ _ ht

theorem depthMinusOne_lt (d : Nat) (h : 1 ≤ d) : depthMinusOne d < d := by
  unfold depthMinusOne
  omega

/-- What the acceptance of a farther group by the fallback says: no group with a depth strictly
between the element and the group has bounds overlapping the element. -/
theorem groupAccepts_fallback (env : GUIEnv) (sep : Bool) (mg : MaterialGroups)
    (elem : GUIGroupElement) (g0 : GUIMaterialGroup)
    (hacc : groupAccepts env sep mg elem g0 = true) (hne : g0.depth ≠ env.depthOf elem)
    (hne1 : g0.depth ≠ depthMinusOne (env.depthOf elem)) :
    ∀ g ∈ groupList mg, env.depthOf elem < g.depth → g.depth < g0.depth →
      env.overlaps g.bounds (env.tfrmedBounds elem.element) = false := by
  intro g hg h1 h2
  unfold groupAccepts at hacc
  simp only at hacc
  split_ifs at hacc with hs hd
  · rcases hd with hd | hd
    · exact absurd hd hne
    · exact absurd hd hne1
  · rw [foundOverlap_eq_any] at hacc
    simp only [Bool.not_eq_true', List.any_eq_false, Bool.and_eq_true, decide_eq_true_eq,
      not_and, Bool.not_eq_true] at hacc
    exact hacc g hg ⟨h1, h2⟩

/-- The merge rule on the finished groups: an element `b` of a group is overlapped by no
farther element `c` whose group has a depth strictly between the depth of `b` and the depth of
the group of `b`. -/
theorem groups_no_intervening (env : GUIEnv) (sep : Bool)
    (hkeep : ∀ r s t, env.overlaps r t = true → env.overlaps (env.encapsulate r s) t = true)
    (hadd : ∀ r s t, env.overlaps s t = true → env.overlaps (env.encapsulate r s) t = true)
    (xs : List GUIGroupElement)
    (hsorted : xs.Pairwise fun a b => env.depthOf b ≤ env.depthOf a) :
    ∀ g ∈ groupList (groupElements env sep xs), ∀ g2 ∈ groupList (groupElements env sep xs),
      ∀ b ∈ g.elements, ∀ c ∈ g2.elements, 1 ≤ env.depthOf b →
        env.depthOf b < env.depthOf c → env.depthOf b < g2.depth → g2.depth < g.depth →
          env.overlaps (env.tfrmedBounds c.element) (env.tfrmedBounds b.element) = false := by
  induction xs using List.reverseRecOn with
  | nil => simp [groupElements, groupList]
  | append_singleton pre elem ih =>
    have hs := List.pairwise_append.mp hsorted
    intro g1 hg1 g2 hg2 b hb c hc hb1 hbc hbg2 hg2g1
    have hg1mem := hg1
    have hg2mem := hg2
    rw [groupElements_snoc] at hg1 hg2
    have hbmem : b ∈ pre ++ [elem] := mem_of_mem_group env sep _ g1 hg1mem b hb
    rcases addElement_member_origin env sep _ elem g2 hg2 c hc with
      ⟨c0, hc0, hcc0, hcd, _⟩ | ⟨rfl, _⟩
    · rcases addElement_member_origin env sep _ elem g1 hg1 b hb with
        ⟨b0, hb0, hbb0, hbd, _⟩ | ⟨rfl, h | ⟨b0, hb0, h1, hacc, _⟩⟩
      · exact ih hs.1 b0 hb0 c0 hc0 b hbb0 c hcc0 hb1 hbc (by omega) (by omega)
      · subst h
        simp only [newGroup] at hg2g1
        omega
      · subst h1
        simp only [mergeInto] at hg2g1
        have hlt := depthMinusOne_lt _ hb1
        have hfb := groupAccepts_fallback env sep _ b b0 hacc (by omega) (by omega) c0 hc0
          (by omega) (by omega)
        by_contra hov
        have hov2 : env.overlaps (env.tfrmedBounds c.element) (env.tfrmedBounds b.element)
            = true := by simpa using hov
        have := group_bounds_cover env sep hkeep hadd pre c0 hc0 c hcc0 _ hov2
        rw [hfb] at this
        exact Bool.false_ne_true this
    · rcases List.mem_append.mp hbmem with hbp | hbe
      · have := hs.2.2 b hbp c (by simp)
        omega
      · simp only [List.mem_singleton] at hbe
        subst hbe
        omega

/-! ## The batch sequence -/

theorem hasMaterial_iff (mg : MaterialGroups) (k : Nat) :
    hasMaterial mg k = true ↔ k ∈ mg.map Prod.fst := by
  simp only [hasMaterial, List.any_eq_true, decide_eq_true_eq, List.mem_map]

theorem keys_updateGroupsOf_of_mem (materialId : Nat)
    (f : List GUIMaterialGroup → List GUIMaterialGroup) (mg : MaterialGroups)
    (h : materialId ∈ mg.map Prod.fst) :
    (updateGroupsOf materialId f mg).map Prod.fst = mg.map Prod.fst := by
  induction mg with
  | nil => simp at h
  | cons material rest ih =>
    unfold updateGroupsOf
    split_ifs with hm
    · simp
    · simp only [List.map_cons, List.cons.injEq, true_and]
      apply ih
      simp only [List.map_cons, List.mem_cons] at h
      rcases h with h | h
      · exact absurd h.symm hm
      · exact h

theorem keys_addElement (env : GUIEnv) (sep : Bool) (mg : MaterialGroups)
    (elem : GUIGroupElement) :
    (addElement env sep mg elem).map Prod.fst =
      if hasMaterial mg (env.materialOf elem) then mg.map Prod.fst
      else mg.map Prod.fst ++ [env.materialOf elem] := by
  unfold addElement
  simp only
  rw [keys_updateGroupsOf_of_mem]
  · unfold ensureMaterial
    split_ifs <;> simp
  · unfold ensureMaterial
    split_ifs with h
    · exact (hasMaterial_iff _ _).mp h
    · simp

theorem groupElements_keys_nodup (env : GUIEnv) (sep : Bool) (xs : List GUIGroupElement) :
    ((groupElements env sep xs).map Prod.fst).Nodup := by
  induction xs using List.reverseRecOn with
  | nil => simp [groupElements]
  | append_singleton pre elem ih =>
    rw [groupElements_snoc, keys_addElement]
    split_ifs with h
    · exact ih
    · rw [List.nodup_append]
      refine ⟨ih, by simp, ?_⟩
      intro a ha hb
      simp only [List.mem_singleton] at hb
      subst hb
      exact h ((hasMaterial_iff _ _).mpr ha)

theorem insertedGroups_cons (env : GUIEnv) (material : Nat × List GUIMaterialGroup)
    (rest : MaterialGroups) :
    insertedGroups env (material :: rest) =
      (material.2.enum.map fun ig => (⟨env.groupAddr material.1 ig.1, ig.2⟩ : GroupPtr)) ++
        insertedGroups env rest := by
  simp [insertedGroups, List.flatMap_cons]

theorem insertedGroups_map_group (env : GUIEnv) (mg : MaterialGroups) :
    (insertedGroups env mg).map GroupPtr.group = groupList mg := by
  induction mg with
  | nil => rfl
  | cons material rest ih =>
    rw [insertedGroups_cons, groupList_cons, List.map_append, ih, List.map_map]
    congr 1
    have : (GroupPtr.group ∘ fun ig : Nat × GUIMaterialGroup =>
        (⟨env.groupAddr material.1 ig.1, ig.2⟩ : GroupPtr)) = Prod.snd := by
      funext ig
      rfl
    rw [this, List.enum_map_snd]

theorem mem_insertedGroups (env : GUIEnv) (mg : MaterialGroups) (p : GroupPtr)
    (h : p ∈ insertedGroups env mg) :
    ∃ material ∈ mg, ∃ i, p.addr = env.groupAddr material.1 i ∧ material.2[i]? = some p.group := by
  simp only [insertedGroups, List.mem_flatMap, List.mem_map] at h
  obtain ⟨material, hm, ig, hig, rfl⟩ := h
  exact ⟨material, hm, ig.1, rfl, List.mem_enum_iff_getElem?.mp hig⟩

/-- Distinct groups have distinct addresses. -/
theorem insertedGroups_addr_pairwise (env : GUIEnv)
    (hinj : ∀ m i m2 i2, env.groupAddr m i = env.groupAddr m2 i2 → m = m2 ∧ i = i2)
    (mg : MaterialGroups) (hkeys : (mg.map Prod.fst).Nodup) :
    (insertedGroups env mg).Pairwise fun a b => a.addr ≠ b.addr := by
  induction mg with
  | nil => simp [insertedGroups]
  | cons material rest ih =>
    rw [insertedGroups_cons]
    simp only [List.map_cons, List.nodup_cons] at hkeys
    rw [List.pairwise_append]
    refine ⟨?_, ih hkeys.2, ?_⟩
    · rw [List.pairwise_map]
      have hidx : (material.2.enum).Pairwise fun a b => a.1 ≠ b.1 := by
        have := List.nodup_enum_map_fst material.2
        rw [List.Nodup, List.pairwise_map] at this
        exact this
      refine hidx.imp ?_
      intro a b hab h
      exact hab (hinj _ _ _ _ h).2
    · intro a ha b hb h
      simp only [List.mem_map] at ha
      obtain ⟨ig, _, rfl⟩ := ha
      obtain ⟨m2, hm2, i, hi, _⟩ := mem_insertedGroups env rest b hb
      rw [hi] at h
      have := (hinj _ _ _ _ h).1
      exact hkeys.1 (by rw [this]; exact List.mem_map_of_mem _ hm2)

theorem mem_sortedGroups (env : GUIEnv) (sep : Bool) (widgets : List Nat) (p : GroupPtr)
    (h : p ∈ sortedGroups env sep widgets) :
    p ∈ insertedGroups env (buildGroups env sep widgets) := by
  unfold sortedGroups setInsertAll at h
  have key : ∀ (xs s : List GroupPtr), p ∈ xs.foldl (fun s x => setInsert groupComp x s) s →
      p ∈ xs ∨ p ∈ s := by
    intro xs
    induction xs with
    | nil => intro s hs; exact Or.inr hs
    | cons x xs ih =>
      intro s hs
      rcases ih _ hs with h1 | h1
      · exact Or.inl (List.mem_cons_of_mem _ h1)
      · rcases setInsert_mem_imp groupComp x p s h1 with h2 | h2
        · exact Or.inl (h2 ▸ List.mem_cons_self _ _)
        · exact Or.inr h2
  rcases key _ _ h with h1 | h1
  · exact h1
  · simp at h1

theorem group_of_mem_sortedGroups (env : GUIEnv) (sep : Bool) (widgets : List Nat) (p : GroupPtr)
    (h : p ∈ sortedGroups env sep widgets) :
    p.group ∈ groupList (buildGroups env sep widgets) := by
  rw [← insertedGroups_map_group env]
  exact List.mem_map_of_mem _ (mem_sortedGroups env sep widgets p h)

/-- With distinct group addresses the batch sequence holds every group once. -/
theorem sortedGroups_perm (env : GUIEnv) (sep : Bool) (widgets : List Nat)
    (hinj : ∀ m i m2 i2, env.groupAddr m i = env.groupAddr m2 i2 → m = m2 ∧ i = i2) :
    ((sortedGroups env sep widgets).map GroupPtr.group).Perm
      (groupList (buildGroups env sep widgets)) := by
  rw [← insertedGroups_map_group env]
  refine List.Perm.map _ (setInsertAll_perm groupComp _ ?_)
  refine (insertedGroups_addr_pairwise env hinj _
    (groupElements_keys_nodup env sep _)).imp ?_
  intro a b hab
  rw [groupComp_iff, groupComp_iff]
  omega

theorem sortedGroups_pairwise (env : GUIEnv) (sep : Bool) (widgets : List Nat) :
    (sortedGroups env sep widgets).Pairwise fun a b => groupComp a b = true :=
  setInsertAll_pairwise _ groupComp_trans _

/-! ## Paint order -/

theorem paintOrder_allElements (groupAddr : Nat → Nat → Nat) :
    allElements (paintOrderEnv groupAddr) [1] = [⟨2, 0⟩, ⟨1, 0⟩, ⟨3, 0⟩, ⟨4, 0⟩] := by
  have h : allElements (paintOrderEnv groupAddr) [1] = allElements paintOrderScene [1] := rfl
  rw [h]
  decide

theorem paintOrder_buildGroups (groupAddr : Nat → Nat → Nat) :
    buildGroups (paintOrderEnv groupAddr) true [1] =
      [(2, [⟨2, 2, 4, ⟨200, 0, 20, 10⟩, [⟨2, 0⟩, ⟨4, 0⟩]⟩]),
        (1, [⟨1, 2, 4, ⟨0, 0, 215, 10⟩, [⟨1, 0⟩, ⟨3, 0⟩]⟩])] := by
  have h : buildGroups (paintOrderEnv groupAddr) true [1] = buildGroups paintOrderScene true [1] :=
    rfl
  rw [h]
  decide

theorem paintOrder_batches (groupAddr : Nat → Nat → Nat) :
    batchElements (paintOrderEnv groupAddr) true [1] =
      (if groupAddr 1 0 < groupAddr 2 0 then [[⟨2, 0⟩, ⟨4, 0⟩], [⟨1, 0⟩, ⟨3, 0⟩]]
      else if groupAddr 2 0 < groupAddr 1 0 then [[⟨1, 0⟩, ⟨3, 0⟩], [⟨2, 0⟩, ⟨4, 0⟩]]
      else [[⟨2, 0⟩, ⟨4, 0⟩]]) := by
  unfold batchElements sortedGroups
  rw [paintOrder_buildGroups]
  simp only [insertedGroups, List.flatMap_cons, List.flatMap_nil, List.enum_cons, List.enumFrom_nil,
    List.enum_nil, List.map_cons, List.map_nil, List.append_nil, List.singleton_append,
    setInsertAll, List.foldl_cons, List.foldl_nil, setInsert, groupComp, paintOrderEnv]
  split_ifs <;> simp_all

/-- C1 (evaluation at a failing input): in the scene of four elements the rebuild puts elements
1 and 3 in one batch and elements 2 and 4 in another batch of the same depth, and whatever the
addresses of the two groups, some fragment is not drawn before a nearer fragment it overlaps:
with the batch of 1 and 3 first, element 3 (depth 2) comes before element 2 (depth 4); with the
batch of 2 and 4 first, element 4 (depth 1) comes before element 3 (depth 2). -/
theorem updateMeshes_paint_order_broken (groupAddr : Nat → Nat → Nat) :
    ∃ f g : GUIGroupElement,
      f ∈ allElements (paintOrderEnv groupAddr) [1] ∧
      g ∈ allElements (paintOrderEnv groupAddr) [1] ∧
      (paintOrderEnv groupAddr).overlaps ((paintOrderEnv groupAddr).tfrmedBounds f.element)
        ((paintOrderEnv groupAddr).tfrmedBounds g.element) = true ∧
      (paintOrderEnv groupAddr).depthOf f > (paintOrderEnv groupAddr).depthOf g ∧
      drawnBefore (batchElements (paintOrderEnv groupAddr) true [1]) f g = false := by
  rw [paintOrder_batches, paintOrder_allElements]
  by_cases h1 : groupAddr 1 0 < groupAddr 2 0
  · rw [if_pos h1]
    exact ⟨⟨3, 0⟩, ⟨4, 0⟩, by decide, by decide, of_decide_eq_true (Eq.refl true), of_decide_eq_true (Eq.refl true), by decide⟩
  · rw [if_neg h1]
    by_cases h2 : groupAddr 2 0 < groupAddr 1 0
    · rw [if_pos h2]
      exact ⟨⟨2, 0⟩, ⟨3, 0⟩, by decide, by decide, of_decide_eq_true (Eq.refl true), of_decide_eq_true (Eq.refl true), by decide⟩
    · rw [if_neg h2]
      exact ⟨⟨2, 0⟩, ⟨3, 0⟩, by decide, by decide, of_decide_eq_true (Eq.refl true), of_decide_eq_true (Eq.refl true), by decide⟩

/-! ## Groups and intervening fragments -/

theorem Rect.overlaps_encapsulate_left (r s t : Rect) (h : r.overlaps t = true) :
    (r.encapsulate s).overlaps t = true := by
  simp only [Rect.overlaps, Rect.encapsulate, Bool.and_eq_true, decide_eq_true_eq] at h ⊢
  omega

theorem Rect.overlaps_encapsulate_right (r s t : Rect) (h : s.overlaps t = true) :
    (r.encapsulate s).overlaps t = true := by
  simp only [Rect.overlaps, Rect.encapsulate, Bool.and_eq_true, decide_eq_true_eq] at h ⊢
  omega

/-- C2 (counterexample): in the scene of three elements, elements 1 (depth 6) and 3 (depth 2)
share a group, while element 2, of depth 4 and overlapping element 1, is in another group. -/
theorem updateMeshes_intervening_counterexample :
    ∃ g ∈ groupList (buildGroups interveningEnv true [1]),
      ∃ g2 ∈ groupList (buildGroups interveningEnv true [1]), g2 ≠ g ∧
        ∃ a ∈ g.elements, ∃ b ∈ g.elements, ∃ c ∈ g2.elements,
          interveningEnv.depthOf a > interveningEnv.depthOf b ∧
          interveningEnv.depthOf b < interveningEnv.depthOf c ∧
          interveningEnv.depthOf c < interveningEnv.depthOf a ∧
          (interveningEnv.overlaps (interveningEnv.tfrmedBounds c.element)
              (interveningEnv.tfrmedBounds a.element) = true ∨
            interveningEnv.overlaps (interveningEnv.tfrmedBounds c.element)
              (interveningEnv.tfrmedBounds b.element) = true) := by
  decide

/-- C2 (amended): for fragments `a` and `b` of one group with `depth a > depth b ≥ 1`, no
fragment `c` farther than `b` that sits in a group whose depth lies strictly between the depth
of `b` and the depth of `a` has transformed bounds overlapping the bounds of `b`, provided
`encapsulate` keeps the overlaps of the rectangles it joins. -/
theorem updateMeshes_no_intervening_group (env : GUIEnv) (sep : Bool) (widgets : List Nat)
    (hkeep : ∀ r s t, env.overlaps r t = true → env.overlaps (env.encapsulate r s) t = true)
    (hadd : ∀ r s t, env.overlaps s t = true → env.overlaps (env.encapsulate r s) t = true)
    (g g2 : GUIMaterialGroup) (hg : g ∈ groupList (buildGroups env sep widgets))
    (hg2 : g2 ∈ groupList (buildGroups env sep widgets))
    (a b c : GUIGroupElement) (ha : a ∈ g.elements) (hb : b ∈ g.elements)
    (hc : c ∈ g2.elements) (hb1 : 1 ≤ env.depthOf b) (hbc : env.depthOf b < env.depthOf c)
    (hlow : env.depthOf b < g2.depth) (hhigh : g2.depth < env.depthOf a) :
    env.overlaps (env.tfrmedBounds c.element) (env.tfrmedBounds b.element) = false := by
  have hsorted := allElements_depth_sorted env widgets
  have hag := group_member_depth env sep _ hsorted g hg a ha
  exact groups_no_intervening env sep hkeep hadd _ hsorted g hg g2 hg2 b hb c hc hb1 hbc hlow
    (by omega)

/-- C2 (witness): the amended statement at the scene of three elements, for elements 1 and 3 of
the first group and element 2 of the second. -/
theorem updateMeshes_no_intervening_group_witness :
    interveningEnv.overlaps (interveningEnv.tfrmedBounds 2) (interveningEnv.tfrmedBounds 3)
      = false :=
  updateMeshes_no_intervening_group interveningEnv true [1]
    (fun r s t h => Rect.overlaps_encapsulate_left r s t h)
    (fun r s t h => Rect.overlaps_encapsulate_right r s t h)
    ⟨1, 2, 6, ⟨0, 0, 110, 10⟩, [⟨1, 0⟩, ⟨3, 0⟩]⟩ ⟨2, 1, 4, ⟨5, 0, 10, 10⟩, [⟨2, 0⟩]⟩
    (by decide) (by decide) ⟨1, 0⟩ ⟨3, 0⟩ ⟨2, 0⟩ (by decide) (by decide) (by decide)
    (by decide) (by decide) (by decide) (by decide)

/-- C3: over all groups of a rebuild, a pair of an element and a render element index is
counted once when the element is an enabled element of a widget of the target and the index is
below its number of render elements, and not at all otherwise. -/
theorem updateMeshes_groups_partition (env : GUIEnv) (sep : Bool) (widgets : List Nat)
    (element i : Nat) :
    ((groupList (buildGroups env sep widgets)).map fun g =>
        g.elements.count ⟨element, i⟩).sum =
      if (∃ widget ∈ widgets, element ∈ env.getElements widget) ∧
          env.isDisabled element = false ∧ i < env.getNumRenderElements element then 1
      else 0 := by
  have hperm := groupElements_perm env sep (allElements env widgets)
  have hcount := hperm.count_eq ⟨element, i⟩
  rw [List.count_flatMap] at hcount
  have hmap : (groupList (buildGroups env sep widgets)).map
      (fun g => g.elements.count ⟨element, i⟩) =
      (groupList (groupElements env sep (allElements env widgets))).map
        (List.count ⟨element, i⟩ ∘ GUIMaterialGroup.elements) := rfl
  rw [hmap, hcount]
  have hmem := mem_allElements env widgets ⟨element, i⟩
  simp only at hmem
  split_ifs with h
  · apply List.count_eq_one_of_mem (allElements_nodup env widgets)
    rw [hmem]
    obtain ⟨⟨w, hw, he⟩, hd, hi⟩ := h
    exact ⟨w, hw, he, hd, hi⟩
  · rw [List.count_eq_zero, hmem]
    rintro ⟨w, hw, he, hd, hi⟩
    exact h ⟨⟨w, hw, he⟩, hd, hi⟩

/-- C4: in the batch sequence of a rebuild the depth of a group is never less than the depth
of the group that follows it. -/
theorem updateMeshes_batches_depth_descending (env : GUIEnv) (sep : Bool) (widgets : List Nat) :
    List.Chain' (fun a b : GroupPtr => a.group.depth ≥ b.group.depth)
      (sortedGroups env sep widgets) :=
  ((sortedGroups_pairwise env sep widgets).imp fun h => groupComp_depth _ _ h).chain'

/-! ## Materials of the batches -/

theorem length_resize {α : Type} (v : List α) (n : Nat) (dflt : α) :
    (resize v n dflt).length = n := by
  simp only [resize, List.length_append, List.length_take, List.length_replicate]
  omega

theorem foldl_set_enumFrom {β γ : Type} (f : β → γ) :
    ∀ (rest : List β) (pre suffix : List γ), suffix.length = rest.length →
      (rest.enumFrom pre.length).foldl (fun ms ig => ms.set ig.1 (f ig.2)) (pre ++ suffix) =
        pre ++ rest.map f
  | [], pre, suffix, h => by
    have : suffix = [] := List.eq_nil_of_length_eq_zero (by simpa using h)
    simp [this]
  | x :: rest, pre, [], h => by simp at h
  | x :: rest, pre, s :: suffix, h => by
    simp only [List.enumFrom_cons, List.foldl_cons]
    have hset : (pre ++ s :: suffix).set pre.length (f x) = (pre ++ [f x]) ++ suffix := by
      simp
    have hlen : pre.length + 1 = (pre ++ [f x]).length := by simp
    rw [hset, hlen, foldl_set_enumFrom f rest (pre ++ [f x]) suffix (by simpa using h)]
    simp

theorem foldl_writeGroup_materials (env : GUIEnv) (sep : Bool) :
    ∀ (l : List (Nat × GroupPtr)) (acc : GUIRenderData × List FillCall),
      (l.foldl (writeGroup env sep) acc).1.cachedMaterials =
        l.foldl (fun ms ig => ms.set ig.1 (some ig.2.group.material)) acc.1.cachedMaterials
  | [], acc => rfl
  | x :: l, acc => by
    rw [List.foldl_cons, List.foldl_cons, foldl_writeGroup_materials env sep l]
    rfl

theorem foldl_writeGroup_widgets (env : GUIEnv) (sep : Bool) :
    ∀ (l : List (Nat × GroupPtr)) (acc : GUIRenderData × List FillCall),
      (l.foldl (writeGroup env sep) acc).1.widgets = acc.1.widgets ∧
        (l.foldl (writeGroup env sep) acc).1.isDirty = acc.1.isDirty
  | [], acc => ⟨rfl, rfl⟩
  | x :: l, acc => by
    rw [List.foldl_cons]
    exact foldl_writeGroup_widgets env sep l _

/-- The materials cached by a rebuild are the materials of the sorted groups, in order. -/
theorem rebuildRenderData_cachedMaterials (env : GUIEnv) (sep : Bool)
    (renderData : GUIRenderData) :
    (rebuildRenderData env sep renderData).1.cachedMaterials =
      (sortedGroups env sep renderData.widgets).map fun p => some p.group.material := by
  unfold rebuildRenderData
  simp only
  rw [foldl_writeGroup_materials]
  have h := foldl_set_enumFrom (fun p : GroupPtr => some p.group.material)
    (sortedGroups env sep renderData.widgets) []
    (resize renderData.cachedMaterials (sortedGroups env sep renderData.widgets).length none)
    (length_resize _ _ _)
  simpa [List.enum] using h

/-- C5: every element of a group of a rebuild has the material of the group; the same holds
for the groups of the batch sequence, and the material cached for a batch is the material of
its group. -/
theorem updateMeshes_group_single_material (env : GUIEnv) (sep : Bool)
    (renderData : GUIRenderData) :
    (∀ g ∈ groupList (buildGroups env sep renderData.widgets), ∀ p ∈ g.elements,
        env.getMaterialID p.element p.renderElement = g.material) ∧
      (∀ batch ∈ sortedGroups env sep renderData.widgets, ∀ p ∈ batch.group.elements,
        env.getMaterialID p.element p.renderElement = batch.group.material) ∧
      (rebuildRenderData env sep renderData).1.cachedMaterials =
        (sortedGroups env sep renderData.widgets).map fun batch => some batch.group.material := by
  refine ⟨?_, ?_, rebuildRenderData_cachedMaterials env sep renderData⟩
  · intro g hg p hp
    exact group_member_material env sep _ g hg p hp
  · intro batch hbatch p hp
    exact group_member_material env sep _ batch.group
      (group_of_mem_sortedGroups env sep _ batch hbatch) p hp

/-- C5 (witness): the statement at the scene of two adjacent depths, for the one batch and its
element 1. -/
theorem updateMeshes_group_single_material_witness :
    adjacentEnv.getMaterialID 1 0 = 7 ∧
      (rebuildRenderData adjacentEnv true ⟨[1], true, [], [], []⟩).1.cachedMaterials = [some 7] :=
  ⟨(updateMeshes_group_single_material adjacentEnv true ⟨[1], true, [], [], []⟩).2.1
      ⟨56, ⟨7, 2, 3, ⟨0, 0, 30, 10⟩, [⟨2, 0⟩, ⟨1, 0⟩]⟩⟩ (by decide) ⟨1, 0⟩ (by decide),
    (updateMeshes_group_single_material adjacentEnv true ⟨[1], true, [], [], []⟩).2.2⟩

/-! ## Batches and (material, depth) pairs -/

theorem length_le_length_flatMap {α β : Type} (f : α → List β) :
    ∀ l : List α, (∀ x ∈ l, f x ≠ []) → l.length ≤ (l.flatMap f).length
  | [], _ => by simp
  | x :: l, h => by
    have hx : 1 ≤ (f x).length := by
      have := h x (List.mem_cons_self _ _)
      exact List.length_pos.mpr this
    have := length_le_length_flatMap f l fun y hy => h y (List.mem_cons_of_mem _ hy)
    simp only [List.flatMap_cons, List.length_cons, List.length_append]
    omega

theorem index_unique_of_disjoint {α : Type} (l : List (List α))
    (hdisj : l.Pairwise (List.Disjoint on id)) (i j : Nat) (b1 b2 : List α)
    (hi : l[i]? = some b1) (hj : l[j]? = some b2) (x : α) (h1 : x ∈ b1) (h2 : x ∈ b2) :
    i = j := by
  obtain ⟨hil, hib⟩ := List.getElem?_eq_some.mp hi
  obtain ⟨hjl, hjb⟩ := List.getElem?_eq_some.mp hj
  by_contra hne
  rcases Nat.lt_or_gt_of_ne hne with hlt | hlt
  · have := List.pairwise_iff_getElem.mp hdisj i j hil hjl hlt
    simp only [Function.onFun, id, hib, hjb] at this
    exact this h1 h2
  · have := List.pairwise_iff_getElem.mp hdisj j i hjl hil hlt
    simp only [Function.onFun, id, hib, hjb] at this
    exact this h2 h1

/-- With distinct group addresses, the batches hold the elements of the render target, each
once. -/
theorem batchElements_perm (env : GUIEnv) (sep : Bool) (widgets : List Nat)
    (hinj : ∀ m i m2 i2, env.groupAddr m i = env.groupAddr m2 i2 → m = m2 ∧ i = i2) :
    ((batchElements env sep widgets).flatMap id).Perm (allElements env widgets) := by
  have h1 : (batchElements env sep widgets).flatMap id =
      ((sortedGroups env sep widgets).map GroupPtr.group).flatMap GUIMaterialGroup.elements := by
    simp [batchElements, List.flatMap_map]
  rw [h1]
  exact ((sortedGroups_perm env sep widgets hinj).flatMap_right _).trans
    (groupElements_perm env sep _)

theorem batchElements_length (env : GUIEnv) (sep : Bool) (widgets : List Nat)
    (hinj : ∀ m i m2 i2, env.groupAddr m i = env.groupAddr m2 i2 → m = m2 ∧ i = i2) :
    (batchElements env sep widgets).length ≤ (allElements env widgets).length := by
  have h1 : (batchElements env sep widgets).length =
      (groupList (buildGroups env sep widgets)).length := by
    rw [← (sortedGroups_perm env sep widgets hinj).length_eq]
    simp [batchElements]
  have h2 := length_le_length_flatMap GUIMaterialGroup.elements
    (groupList (buildGroups env sep widgets)) (by
      intro g hg
      obtain ⟨first, rest, hf, _⟩ := group_first_depth env sep _ g hg
      simp [hf])
  have h3 := (groupElements_perm env sep (allElements env widgets)).length_eq
  unfold buildGroups at h1 h2
  omega

/-- C6 (counterexample): the two elements of the scene have distinct depths, carry the pairs
(7, 3) and (7, 2) and do not overlap, yet the rebuild produces one batch holding both. -/
theorem updateMeshes_one_batch_per_pair_counterexample :
    ((allElements adjacentEnv [1]).map fun p =>
        (adjacentEnv.materialOf p, adjacentEnv.depthOf p)) = [(7, 3), (7, 2)] ∧
      adjacentEnv.overlaps (adjacentEnv.tfrmedBounds 1) (adjacentEnv.tfrmedBounds 2) = false ∧
      batchElements adjacentEnv true [1] = [[⟨2, 0⟩, ⟨1, 0⟩]] := by
  decide

/-- C6 (amended): when the fragments of the render target have pairwise distinct depths (and
the groups distinct addresses), every (material, depth) pair occurring among the fragments lies
in exactly one batch, no batch is empty, and there are at most as many batches as pairs. -/
theorem updateMeshes_pair_in_one_batch (env : GUIEnv) (sep : Bool) (widgets : List Nat)
    (hinj : ∀ m i m2 i2, env.groupAddr m i = env.groupAddr m2 i2 → m = m2 ∧ i = i2)
    (hdistinct : ∀ p ∈ allElements env widgets, ∀ q ∈ allElements env widgets,
      env.depthOf p = env.depthOf q → p = q) :
    (∀ p ∈ allElements env widgets, ∃! i : Nat, ∃ batch,
        (batchElements env sep widgets)[i]? = some batch ∧
          ∃ q ∈ batch, env.materialOf q = env.materialOf p ∧ env.depthOf q = env.depthOf p) ∧
      (∀ batch ∈ batchElements env sep widgets, batch ≠ []) ∧
      (batchElements env sep widgets).length ≤
        ((allElements env widgets).map fun p => (env.materialOf p, env.depthOf p)).dedup.length := by
  have hperm := batchElements_perm env sep widgets hinj
  have hnodup : ((batchElements env sep widgets).flatMap id).Nodup :=
    hperm.nodup_iff.mpr (allElements_nodup env widgets)
  have hdisj := (List.nodup_flatMap.mp hnodup).2
  refine ⟨?_, ?_, ?_⟩
  · intro p hp
    have hp2 : p ∈ (batchElements env sep widgets).flatMap id := hperm.mem_iff.mpr hp
    obtain ⟨batch, hbatch, hpb⟩ := List.mem_flatMap.mp hp2
    obtain ⟨i, hi⟩ := List.mem_iff_getElem?.mp hbatch
    refine ⟨i, ⟨batch, hi, p, hpb, rfl, rfl⟩, ?_⟩
    rintro j ⟨batch2, hj, q, hq, _, hdq⟩
    have hq2 : q ∈ allElements env widgets :=
      hperm.mem_iff.mp (List.mem_flatMap.mpr ⟨batch2, List.mem_iff_getElem?.mpr ⟨j, hj⟩, hq⟩)
    have hqp : q = p := hdistinct q hq2 p hp hdq
    subst hqp
    exact index_unique_of_disjoint _ hdisj j i batch2 batch hj hi q hq hpb
  · intro batch hbatch
    simp only [batchElements, List.mem_map] at hbatch
    obtain ⟨ptr, hptr, rfl⟩ := hbatch
    obtain ⟨first, rest, hf, _⟩ := group_first_depth env sep _ ptr.group
      (group_of_mem_sortedGroups env sep widgets ptr hptr)
    simp [hf]
  · have hmapnodup : ((allElements env widgets).map fun p =>
        (env.materialOf p, env.depthOf p)).Nodup := by
      refine List.Nodup.map_on ?_ (allElements_nodup env widgets)
      intro x hx y hy hxy
      exact hdistinct x hx y hy (by simpa using congrArg Prod.snd hxy)
    rw [hmapnodup.dedup, List.length_map]
    exact batchElements_length env sep widgets hinj

/-- C6 (witness): the amended statement at the scene of two adjacent depths. -/
theorem updateMeshes_pair_in_one_batch_witness :
    (batchElements adjacentEnv true [1]).length ≤
      ((allElements adjacentEnv [1]).map fun p =>
        (adjacentEnv.materialOf p, adjacentEnv.depthOf p)).dedup.length :=
  (updateMeshes_pair_in_one_batch adjacentEnv true [1]
    (by
      intro m i m2 i2 h
      exact Nat.pair_eq_pair.mp h)
    (by decide)).2.2

/-! ## Adjacent depths -/

theorem eq_pair_of_pairwise {α : Type} (lt : α → α → Bool) (hirr : ∀ a, lt a a = false)
    (hasym : ∀ a b, lt a b = true → lt b a = false) (p q : α) (hpq : lt p q = true) :
    ∀ l : List α, l.Pairwise (fun a b => lt a b = true) → (∀ y, y ∈ l ↔ y = p ∨ y = q) →
      l = [p, q]
  | [], _, hmem => by
    have := (hmem p).mpr (Or.inl rfl)
    simp at this
  | [x], _, hmem => by
    have h1 : p = x := by simpa using (hmem p).mpr (Or.inl rfl)
    have h2 : q = x := by simpa using (hmem q).mpr (Or.inr rfl)
    rw [h1, h2, hirr] at hpq
    exact absurd hpq Bool.false_ne_true
  | x :: y :: rest, hpw, hmem => by
    have hx := (hmem x).mp (by simp)
    have hy := (hmem y).mp (by simp)
    have hp1 := List.pairwise_cons.mp hpw
    have hp2 := List.pairwise_cons.mp hp1.2
    have hxy : lt x y = true := hp1.1 y (by simp)
    have hxp : x = p := by
      rcases hx with hx | hx
      · exact hx
      · rcases hy with hy | hy
        · rw [hx, hy, hasym p q hpq] at hxy
          exact absurd hxy Bool.false_ne_true
        · rw [hx, hy, hirr] at hxy
          exact absurd hxy Bool.false_ne_true
    have hyq : y = q := by
      rcases hy with hy | hy
      · rw [hxp, hy, hirr] at hxy
        exact absurd hxy Bool.false_ne_true
      · exact hy
    have hrest : rest = [] := by
      cases rest with
      | nil => rfl
      | cons z zs =>
        exfalso
        have hz := (hmem z).mp (by simp)
        have hxz : lt x z = true := hp1.1 z (by simp)
        have hyz : lt y z = true := hp2.1 z (by simp)
        rcases hz with hz | hz
        · rw [hxp, hz, hirr] at hxz
          exact absurd hxz Bool.false_ne_true
        · rw [hyq, hz, hirr] at hyz
          exact absurd hyz Bool.false_ne_true
    rw [hxp, hyq, hrest]

theorem depthMinusOne_ne_succ (d : Nat) : d + 1 ≠ depthMinusOne d := by
  unfold depthMinusOne
  omega

/-- The grouping loop over two elements of one material and one parent widget with depths
`d + 1` and `d`: the second joins the group of the first. -/
theorem groupElements_adjacent (env : GUIEnv) (sep : Bool) (pa pb : GUIGroupElement) (d : Nat)
    (hparent : env.getParentWidget pa.element = env.getParentWidget pb.element)
    (hmat : env.materialOf pa = env.materialOf pb)
    (hda : env.depthOf pa = d) (hdb : env.depthOf pb = d + 1) :
    groupElements env sep [pb, pa] =
      [(env.materialOf pb, [mergeInto env pa (newGroup env pb)])] := by
  have h1 : addElement env sep [] pb = [(env.materialOf pb, [newGroup env pb])] := by
    simp [addElement, ensureMaterial, hasMaterial, updateGroupsOf, placeElement, findGroup]
  have hacc : groupAccepts env sep [(env.materialOf pb, [newGroup env pb])] pa
      (newGroup env pb) = true := by
    have hne := depthMinusOne_ne_succ d
    simp [groupAccepts, skippedForWidget, newGroup, foundOverlap, hparent, hda, hdb, hne]
  have h2 : addElement env sep [(env.materialOf pb, [newGroup env pb])] pa =
      [(env.materialOf pb, [mergeInto env pa (newGroup env pb)])] := by
    simp [addElement, ensureMaterial, hasMaterial, updateGroupsOf, placeElement, findGroup,
      hmat, hacc, List.enum, List.enumFrom]
  simp only [groupElements, List.foldl_cons, List.foldl_nil, h1, h2]

/-- C7: when the only enabled fragments on a render target are the single fragments of two
elements `a` and `b` of one widget `w` that share a material and have depths `d` and `d + 1`,
the rebuild yields exactly one group, holding the fragment of `b` and then the fragment of `a`,
and this group is the only batch (the bounds play no part). -/
theorem updateMeshes_adjacent_depths_one_group (env : GUIEnv) (sep : Bool) (widgets : List Nat)
    (w a b d : Nat) (hw : w ∈ widgets) (ha : a ∈ env.getElements w) (hb : b ∈ env.getElements w)
    (hena : env.isDisabled a = false) (henb : env.isDisabled b = false)
    (hna : env.getNumRenderElements a = 1) (hnb : env.getNumRenderElements b = 1)
    (honly : ∀ w2 ∈ widgets, ∀ e ∈ env.getElements w2, env.isDisabled e = false →
      e = a ∨ e = b)
    (hpa : env.getParentWidget a = w) (hpb : env.getParentWidget b = w)
    (hmat : env.getMaterialID a 0 = env.getMaterialID b 0)
    (hda : env.getRenderElementDepth a 0 = d) (hdb : env.getRenderElementDepth b 0 = d + 1) :
    ∃ g : GUIMaterialGroup,
      groupList (buildGroups env sep widgets) = [g] ∧ g.elements = [⟨b, 0⟩, ⟨a, 0⟩] ∧
        (sortedGroups env sep widgets).map GroupPtr.group = [g] := by
  have hlt : elemComp env ⟨b, 0⟩ ⟨a, 0⟩ = true := by
    rw [elemComp_iff]
    simp only [GUIEnv.depthOf, hda, hdb]
    omega
  have hall : allElements env widgets = [⟨b, 0⟩, ⟨a, 0⟩] := by
    refine eq_pair_of_pairwise (elemComp env) (elemComp_irrefl env) ?_ _ _ hlt _
      (allElements_pairwise env widgets) ?_
    · intro x y hxy
      rw [Bool.eq_false_iff]
      intro hyx
      have := elemComp_trans env x y x hxy hyx
      rw [elemComp_irrefl] at this
      exact Bool.false_ne_true this
    · rintro ⟨ye, yi⟩
      rw [mem_allElements]
      simp only [GUIGroupElement.mk.injEq]
      constructor
      · rintro ⟨w2, hw2, he, hd, hi⟩
        rcases honly w2 hw2 ye he hd with h | h
        · right
          rw [h, hna] at hi
          exact ⟨h, by omega⟩
        · left
          rw [h, hnb] at hi
          exact ⟨h, by omega⟩
      · rintro (⟨rfl, rfl⟩ | ⟨rfl, rfl⟩)
        · exact ⟨w, hw, hb, henb, by simp [hnb]⟩
        · exact ⟨w, hw, ha, hena, by simp [hna]⟩
  have hgroups := groupElements_adjacent env sep ⟨a, 0⟩ ⟨b, 0⟩ d (by simp [hpa, hpb])
    (by simpa [GUIEnv.materialOf] using hmat) (by simpa [GUIEnv.depthOf] using hda)
    (by simpa [GUIEnv.depthOf] using hdb)
  refine ⟨mergeInto env ⟨a, 0⟩ (newGroup env ⟨b, 0⟩), ?_, ?_, ?_⟩
  · simp [buildGroups, hall, hgroups, groupList]
  · simp [mergeInto, newGroup]
  · simp [sortedGroups, buildGroups, hall, hgroups, insertedGroups, setInsertAll, setInsert,
      List.enum, List.enumFrom]

/-- C7 (witness): the statement at the scene of two elements with depths 2 and 3. -/
theorem updateMeshes_adjacent_depths_one_group_witness :
    ∃ g : GUIMaterialGroup,
      groupList (buildGroups adjacentEnv true [1]) = [g] ∧ g.elements = [⟨2, 0⟩, ⟨1, 0⟩] ∧
        (sortedGroups adjacentEnv true [1]).map GroupPtr.group = [g] :=
  updateMeshes_adjacent_depths_one_group adjacentEnv true [1] 1 1 2 2 (by decide) (by decide)
    (by decide) (by decide) (by decide) (by decide) (by decide) (by decide) (by decide)
    (by decide) (by decide) (by decide) (by decide)

/-! ## The render cache -/

theorem updateRenderData_isDirty (env : GUIEnv) (sep : Bool) (renderData : GUIRenderData) :
    (updateRenderData env sep renderData).1.isDirty = false ∧
      (updateRenderData env sep renderData).1.widgets = renderData.widgets := by
  unfold updateRenderData
  simp only
  split_ifs
  · unfold rebuildRenderData
    simp only
    have h := foldl_writeGroup_widgets env sep
      (sortedGroups env sep renderData.widgets).enum
    exact ⟨(h _).2, (h _).1⟩
  · exact ⟨rfl, rfl⟩

theorem updateRenderData_clean (env : GUIEnv) (sep : Bool) (renderData : GUIRenderData)
    (hflag : renderData.isDirty = false)
    (hclean : ∀ widget ∈ renderData.widgets, env.widgetIsDirty widget = false) :
    updateRenderData env sep renderData = (renderData, []) := by
  have hany : renderData.widgets.any env.widgetIsDirty = false := by
    rw [List.any_eq_false]
    intro w hw
    simp [hclean w hw]
  unfold updateRenderData
  simp only [hflag, hany, Bool.or_self, Bool.false_eq_true, if_false]
  cases renderData
  simp only at hflag
  simp [hflag]

theorem updateMeshes_clean (env : GUIEnv) (m : GUIManager)
    (hflag : ∀ entry ∈ m.mCachedGUIData, entry.2.isDirty = false)
    (hclean : ∀ entry ∈ m.mCachedGUIData, ∀ widget ∈ entry.2.widgets,
      env.widgetIsDirty widget = false) :
    updateMeshes env m = (m, []) := by
  unfold updateMeshes
  have hmap : m.mCachedGUIData.map (fun cachedMeshData =>
      (cachedMeshData.1, updateRenderData env m.mSeparateMeshesByWidget cachedMeshData.2)) =
      m.mCachedGUIData.map fun cachedMeshData =>
        (cachedMeshData.1, (cachedMeshData.2, ([] : List FillCall))) := by
    apply List.map_congr_left
    intro entry hentry
    rw [updateRenderData_clean env _ entry.2 (hflag entry hentry) (hclean entry hentry)]
  simp only [hmap, List.map_map]
  have h1 : (m.mCachedGUIData.map ((fun r : Nat × GUIRenderData × List FillCall => (r.1, r.2.1)) ∘
      fun cachedMeshData => (cachedMeshData.1, (cachedMeshData.2, ([] : List FillCall))))) =
      m.mCachedGUIData := by
    simp [Function.comp_def]
  have h2 : (m.mCachedGUIData.map fun cachedMeshData =>
      (cachedMeshData.1, (cachedMeshData.2, ([] : List FillCall)))).flatMap
        (fun r => r.2.2) = [] := by
    simp [List.flatMap_map]
  rw [h1, h2]

/-- C8: after a run of `updateMeshes` the dirty flag of every cache entry is false, and a second
run in which no widget of a cache entry reports itself dirty leaves the manager, with the cached
meshes, materials and widgets of every render target, as it is and makes no `fillBuffer`
call. -/
theorem updateMeshes_idempotent_when_clean (env1 env2 : GUIEnv) (m : GUIManager)
    (hclean : ∀ entry ∈ (updateMeshes env1 m).1.mCachedGUIData, ∀ widget ∈ entry.2.widgets,
      env2.widgetIsDirty widget = false) :
    (∀ entry ∈ (updateMeshes env1 m).1.mCachedGUIData, entry.2.isDirty = false) ∧
      updateMeshes env2 (updateMeshes env1 m).1 = ((updateMeshes env1 m).1, []) := by
  have hflag : ∀ entry ∈ (updateMeshes env1 m).1.mCachedGUIData, entry.2.isDirty = false := by
    intro entry hentry
    simp only [updateMeshes, List.map_map, List.mem_map, Function.comp] at hentry
    obtain ⟨old, _, rfl⟩ := hentry
    exact (updateRenderData_isDirty env1 _ old.2).1
  exact ⟨hflag, updateMeshes_clean env2 _ hflag hclean⟩

/-- C8 (witness): the statement at the manager with one widget and the scene of two adjacent
depths, where the first run rebuilds the cache entry. -/
theorem updateMeshes_idempotent_when_clean_witness :
    (updateMeshes adjacentEnv oneWidgetManager).2 ≠ [] ∧
      updateMeshes adjacentEnv (updateMeshes adjacentEnv oneWidgetManager).1 =
        ((updateMeshes adjacentEnv oneWidgetManager).1, []) :=
  ⟨by decide,
    (updateMeshes_idempotent_when_clean adjacentEnv adjacentEnv oneWidgetManager
      (by decide)).2⟩

/-! ## Button down and button up -/

theorem buttonToMouseButton_toButtonCode (b : GUIMouseButton) :
    buttonToMouseButton b.toButtonCode = Except.ok b := by
  cases b <;> rfl

theorem isMouse_toButtonCode (b : GUIMouseButton) (used : Bool) :
    (ButtonEvent.mk b.toButtonCode used).isMouse = true := by
  cases b <;> rfl

theorem isKeyboard_toButtonCode (b : GUIMouseButton) (used : Bool) :
    (ButtonEvent.mk b.toButtonCode used).isKeyboard = false := by
  cases b <;> rfl

theorem filter_isMouseEvent_transferFocus (env : GUIEnv) (m : GUIManager) :
    (transferFocus env m).2.filter GUICall.isMouseEvent = [] := by
  unfold transferFocus
  cases m.mMouseOverElement with
  | none => rfl
  | some overElement =>
    simp only
    split_ifs
    · cases m.mKeyboardFocusElement with
      | none => rfl
      | some focusElement =>
        simp only
        split_ifs <;> rfl
    · rfl

theorem transferFocus_state (env : GUIEnv) (m : GUIManager) :
    ∃ focusElement focusWidget, (transferFocus env m).1 =
      { m with mKeyboardFocusElement := focusElement, mKeyboardFocusWidget := focusWidget } := by
  rcases m with ⟨ws, cache, sep, oe, ow, ae, aw, ab, fe, fw, lp⟩
  cases oe with
  | none => exact ⟨fe, fw, rfl⟩
  | some overElement =>
    by_cases h : env.acceptsKeyboardFocus overElement = true
    · exact ⟨some overElement, ow, by simp [transferFocus, h]⟩
    · exact ⟨fe, fw, by simp [transferFocus, h]⟩

/-- C9: with element `H` of widget `W` hovered and no element active, an unconsumed pointer
`ButtonDown(b)` followed by an unconsumed pointer `ButtonUp(b)` both succeed, the mouse events
delivered are `MouseDown`, `DragStart`, `MouseUp` and `DragEnd`, in this order and all to `H`
through `W`, and afterwards the active element and widget are null and the active button is
`Left`. -/
theorem buttonDown_then_buttonUp (envDown envUp : GUIEnv) (m : GUIManager) (H W : Nat)
    (b : GUIMouseButton) (hover : m.mMouseOverElement = some H)
    (hoverWidget : m.mMouseOverWidget = some W) (hactive : m.mActiveElement = none) :
    ∃ pressed downCalls released upCalls,
      onButtonDown envDown m ⟨b.toButtonCode, false⟩ = Except.ok (pressed, downCalls) ∧
      onButtonUp envUp pressed ⟨b.toButtonCode, false⟩ = Except.ok (released, upCalls) ∧
      (downCalls ++ upCalls).filter GUICall.isMouseEvent =
        [GUICall.mouseEvent W H (mkMouseEvent envDown (GUIMouseEventData.MouseDown (some H)
            (getWidgetRelativePos envDown W envDown.getMousePosition) b)),
          GUICall.mouseEvent W H (mkMouseEvent envDown (GUIMouseEventData.MouseDragStart (some H)
            (getWidgetRelativePos envDown W envDown.getMousePosition))),
          GUICall.mouseEvent W H (mkMouseEvent envUp (GUIMouseEventData.MouseUp (some H)
            (getWidgetRelativePos envUp W envUp.getMousePosition) b)),
          GUICall.mouseEvent W H (mkMouseEvent envUp (GUIMouseEventData.MouseDragEnd (some H)
            (getWidgetRelativePos envUp W envUp.getMousePosition)))] ∧
      released.mActiveElement = none ∧ released.mActiveWidget = none ∧
      released.mActiveMouseButton = GUIMouseButton.Left := by
  rcases m with ⟨ws, cache, sep, oe, ow, ae, aw, ab, fe, fw, lp⟩
  simp only at hover hoverWidget hactive
  subst hover hoverWidget hactive
  obtain ⟨fe2, fw2, hfocus⟩ := transferFocus_state envDown
    ⟨ws, cache, sep, some H, some W, some H, some W, b, fe, fw, lp⟩
  have hfilter := filter_isMouseEvent_transferFocus envDown
    ⟨ws, cache, sep, some H, some W, some H, some W, b, fe, fw, lp⟩
  have hdown : onButtonDown envDown ⟨ws, cache, sep, some H, some W, none, aw, ab, fe, fw, lp⟩
      ⟨b.toButtonCode, false⟩ = Except.ok
        (⟨ws, cache, sep, some H, some W, some H, some W, b, fe2, fw2, lp⟩,
          [GUICall.mouseEvent W H (mkMouseEvent envDown (GUIMouseEventData.MouseDown (some H)
              (getWidgetRelativePos envDown W envDown.getMousePosition) b)),
            GUICall.mouseEvent W H (mkMouseEvent envDown (GUIMouseEventData.MouseDragStart
              (some H) (getWidgetRelativePos envDown W envDown.getMousePosition)))] ++
          (transferFocus envDown
            ⟨ws, cache, sep, some H, some W, some H, some W, b, fe, fw, lp⟩).2) := by
    simp [onButtonDown, isKeyboard_toButtonCode, isMouse_toButtonCode,
      buttonToMouseButton_toButtonCode, clearStuckActive, acceptMouseDown, deref, hfocus]
  have hup : onButtonUp envUp ⟨ws, cache, sep, some H, some W, some H, some W, b, fe2, fw2, lp⟩
      ⟨b.toButtonCode, false⟩ = Except.ok
        (⟨ws, cache, sep, some H, some W, none, none, GUIMouseButton.Left, fe2, fw2, lp⟩,
          [GUICall.mouseEvent W H (mkMouseEvent envUp (GUIMouseEventData.MouseUp (some H)
              (getWidgetRelativePos envUp W envUp.getMousePosition) b)),
            GUICall.mouseEvent W H (mkMouseEvent envUp (GUIMouseEventData.MouseDragEnd (some H)
              (getWidgetRelativePos envUp W envUp.getMousePosition)))]) := by
    simp [onButtonUp, isKeyboard_toButtonCode, isMouse_toButtonCode,
      buttonToMouseButton_toButtonCode, releaseMouse, deref]
  refine ⟨_, _, _, _, hdown, hup, ?_, rfl, rfl, rfl⟩
  simp only [List.filter_append, hfilter, List.append_nil]
  rfl

/-- C9 (witness): the statement for the left button at a manager hovering element 2 of
widget 1. -/
theorem buttonDown_then_buttonUp_witness :
    ∃ pressed downCalls released upCalls,
      onButtonDown hoverEnv { oneWidgetManager with
          mMouseOverElement := some 2, mMouseOverWidget := some 1 }
        ⟨ButtonCode.mouseLeft, false⟩ = Except.ok (pressed, downCalls) ∧
      onButtonUp hoverEnv pressed ⟨ButtonCode.mouseLeft, false⟩ =
        Except.ok (released, upCalls) ∧
      (downCalls ++ upCalls).filter GUICall.isMouseEvent =
        [GUICall.mouseEvent 1 2 (mkMouseEvent hoverEnv (GUIMouseEventData.MouseDown (some 2)
            (getWidgetRelativePos hoverEnv 1 hoverEnv.getMousePosition) GUIMouseButton.Left)),
          GUICall.mouseEvent 1 2 (mkMouseEvent hoverEnv (GUIMouseEventData.MouseDragStart
            (some 2) (getWidgetRelativePos hoverEnv 1 hoverEnv.getMousePosition))),
          GUICall.mouseEvent 1 2 (mkMouseEvent hoverEnv (GUIMouseEventData.MouseUp (some 2)
            (getWidgetRelativePos hoverEnv 1 hoverEnv.getMousePosition) GUIMouseButton.Left)),
          GUICall.mouseEvent 1 2 (mkMouseEvent hoverEnv (GUIMouseEventData.MouseDragEnd (some 2)
            (getWidgetRelativePos hoverEnv 1 hoverEnv.getMousePosition)))] ∧
      released.mActiveElement = none ∧ released.mActiveWidget = none ∧
      released.mActiveMouseButton = GUIMouseButton.Left :=
  buttonDown_then_buttonUp hoverEnv hoverEnv
    { oneWidgetManager with mMouseOverElement := some 2, mMouseOverWidget := some 1 } 2 1
    GUIMouseButton.Left rfl rfl rfl

/-! ## The topmost element -/

theorem sortedElements_sorted (env : GUIEnv) (widget : Nat) :
    (sortedElements env widget).Pairwise fun a b => env.getDepth a ≤ env.getDepth b := by
  have htotal : IsTotal Nat (fun a b => env.getDepth a ≤ env.getDepth b) :=
    ⟨fun a b => Nat.le_total _ _⟩
  have htrans : IsTrans Nat (fun a b => env.getDepth a ≤ env.getDepth b) :=
    ⟨fun a b c h1 h2 => Nat.le_trans h1 h2⟩
  exact List.sorted_insertionSort (fun a b => env.getDepth a ≤ env.getDepth b) _

theorem mem_sortedElements (env : GUIEnv) (widget element : Nat) :
    element ∈ sortedElements env widget ↔ element ∈ env.getElements widget :=
  (List.perm_insertionSort _ _).mem_iff

/-- The invariant of the widget loop of the topmost-element search: the depth found so far is
a lower bound for the enabled, pointer-containing elements of the candidate widgets scanned,
and it is the depth of the element found so far, which is such an element. -/
theorem scan_invariant (env : GUIEnv) (window : Nat) (screenPos : Int2) (focus : Option Nat) :
    ∀ widgets : List Nat,
      let st := widgets.foldl (scanWidget env window screenPos) ⟨none, 2 ^ 32 - 1, focus, ⟨0, 0⟩⟩
      (∀ w ∈ widgets, env.getOwnerWindow w = window → env.widgetInBounds w screenPos = true →
        ∀ e ∈ env.getElements w, env.isDisabled e = false →
          env.isInBounds e (env.worldToLocal w screenPos) = true →
            st.topMostDepth ≤ env.getDepth e) ∧
      (st.topMostElement = none → st.topMostDepth = 2 ^ 32 - 1) ∧
      (∀ t, st.topMostElement = some t → st.topMostDepth = env.getDepth t ∧
        ∃ w ∈ widgets, env.getOwnerWindow w = window ∧ env.widgetInBounds w screenPos = true ∧
          st.widgetInFocus = some w ∧ t ∈ env.getElements w ∧ env.isDisabled t = false ∧
          env.isInBounds t (env.worldToLocal w screenPos) = true) := by
  intro widgets
  induction widgets using List.reverseRecOn with
  | nil => simp
  | append_singleton pre w ih =>
    simp only [List.foldl_append, List.foldl_cons, List.foldl_nil]
    simp only at ih
    generalize pre.foldl (scanWidget env window screenPos) ⟨none, 2 ^ 32 - 1, focus, ⟨0, 0⟩⟩ = st
      at ih ⊢
    obtain ⟨ih1, ih2, ih3⟩ := ih
    unfold scanWidget
    by_cases hcand : env.getOwnerWindow w = window ∧ env.widgetInBounds w screenPos = true
    · simp only [hcand, and_self, if_true]
      cases hfind : (sortedElements env w).find? fun element =>
          !env.isDisabled element && env.isInBounds element (env.worldToLocal w screenPos) &&
            decide (env.getDepth element < st.topMostDepth) with
      | none =>
        simp only
        rw [List.find?_eq_none] at hfind
        refine ⟨?_, ih2, ?_⟩
        · intro w2 hw2 hwin hin e he hd hb
          rcases List.mem_append.mp hw2 with h | h
          · exact ih1 w2 h hwin hin e he hd hb
          · simp only [List.mem_singleton] at h
            subst h
            have := hfind e ((mem_sortedElements env w2 e).mpr he)
            simp only [hd, hb, Bool.not_false, Bool.and_self, Bool.true_and,
              decide_eq_true_eq] at this
            omega
        · intro t ht
          obtain ⟨h1, w2, hw2, h2⟩ := ih3 t ht
          exact ⟨h1, w2, List.mem_append_left _ hw2, h2⟩
      | some found =>
        simp only
        have hp := List.find?_some hfind
        simp only [Bool.and_eq_true, Bool.not_eq_true', decide_eq_true_eq] at hp
        obtain ⟨as, bs, hsplit, hbefore⟩ := (List.find?_eq_some.mp hfind).2
        have hsorted := sortedElements_sorted env w
        rw [hsplit] at hsorted
        have hafter := (List.pairwise_cons.mp (List.pairwise_append.mp hsorted).2.1).1
        have hfoundmem : found ∈ env.getElements w := by
          rw [← mem_sortedElements, hsplit]
          simp
        refine ⟨?_, by simp, ?_⟩
        · intro w2 hw2 hwin hin e he hd hb
          rcases List.mem_append.mp hw2 with h | h
          · have := ih1 w2 h hwin hin e he hd hb
            omega
          · simp only [List.mem_singleton] at h
            subst h
            have hmem := (mem_sortedElements env w2 e).mpr he
            rw [hsplit] at hmem
            rcases List.mem_append.mp hmem with h3 | h3
            · have := hbefore e h3
              simp only [hd, hb, Bool.not_false, Bool.and_self, Bool.true_and,
                Bool.not_eq_true', decide_eq_false_iff_not] at this
              omega
            · rcases List.mem_cons.mp h3 with h4 | h4
              · rw [h4]
              · exact hafter e h4
        · intro t ht
          simp only [Option.some.injEq] at ht
          subst ht
          exact ⟨rfl, w, by simp, hcand.1, hcand.2, rfl, hfoundmem, hp.1.1, hp.1.2⟩
    · simp only [hcand, if_false]
      refine ⟨?_, ih2, ?_⟩
      · intro w2 hw2 hwin hin e he hd hb
        rcases List.mem_append.mp hw2 with h | h
        · exact ih1 w2 h hwin hin e he hd hb
        · simp only [List.mem_singleton] at h
          subst h
          exact absurd ⟨hwin, hin⟩ hcand
      · intro t ht
        obtain ⟨h1, w2, hw2, h2⟩ := ih3 t ht
        exact ⟨h1, w2, List.mem_append_left _ hw2, h2⟩

/-- The topmost-element search resolves to an enabled, pointer-containing element of lowest
depth among the candidate widgets whenever one of these elements has a depth below the largest
`UINT32`, and to null when there is no such element at all. -/
theorem findTopMost_lowest_depth (env : GUIEnv) (mWidgets : List Nat) (eventScreenPos : Int2)
    (focused : Nat)
    (hfocus : (mWidgets.find? fun widget => env.hasFocus (env.getOwnerWindow widget)) =
      some focused) :
    ((∃ w ∈ mWidgets, env.getOwnerWindow w = env.getOwnerWindow focused ∧
        env.widgetInBounds w
          (env.screenToWindowPos (env.getOwnerWindow focused) eventScreenPos) = true ∧
        ∃ e ∈ env.getElements w, env.isDisabled e = false ∧
          env.isInBounds e (env.worldToLocal w
            (env.screenToWindowPos (env.getOwnerWindow focused) eventScreenPos)) = true ∧
          env.getDepth e < 2 ^ 32 - 1) →
      ∃ t w, (findTopMost env mWidgets eventScreenPos).topMostElement = some t ∧
        (findTopMost env mWidgets eventScreenPos).widgetInFocus = some w ∧ w ∈ mWidgets ∧
        env.getOwnerWindow w = env.getOwnerWindow focused ∧
        env.widgetInBounds w
          (env.screenToWindowPos (env.getOwnerWindow focused) eventScreenPos) = true ∧
        t ∈ env.getElements w ∧ env.isDisabled t = false ∧
        env.isInBounds t (env.worldToLocal w
          (env.screenToWindowPos (env.getOwnerWindow focused) eventScreenPos)) = true ∧
        ∀ w2 ∈ mWidgets, env.getOwnerWindow w2 = env.getOwnerWindow focused →
          env.widgetInBounds w2
            (env.screenToWindowPos (env.getOwnerWindow focused) eventScreenPos) = true →
          ∀ e2 ∈ env.getElements w2, env.isDisabled e2 = false →
            env.isInBounds e2 (env.worldToLocal w2
              (env.screenToWindowPos (env.getOwnerWindow focused) eventScreenPos)) = true →
            env.getDepth t ≤ env.getDepth e2) ∧
    ((∀ w ∈ mWidgets, env.getOwnerWindow w = env.getOwnerWindow focused →
        env.widgetInBounds w
          (env.screenToWindowPos (env.getOwnerWindow focused) eventScreenPos) = true →
        ∀ e ∈ env.getElements w, env.isDisabled e = false →
          env.isInBounds e (env.worldToLocal w
            (env.screenToWindowPos (env.getOwnerWindow focused) eventScreenPos)) = false) →
      (findTopMost env mWidgets eventScreenPos).topMostElement = none) := by
  have hinv := scan_invariant env (env.getOwnerWindow focused)
    (env.screenToWindowPos (env.getOwnerWindow focused) eventScreenPos) (some focused) mWidgets
  simp only at hinv
  have htop : findTopMost env mWidgets eventScreenPos =
      mWidgets.foldl (scanWidget env (env.getOwnerWindow focused)
        (env.screenToWindowPos (env.getOwnerWindow focused) eventScreenPos))
        ⟨none, 2 ^ 32 - 1, some focused, ⟨0, 0⟩⟩ := by
    simp only [findTopMost, hfocus]
  rw [htop]
  obtain ⟨h1, h2, h3⟩ := hinv
  constructor
  · rintro ⟨w, hw, hwin, hin, e, he, hd, hb, hdepth⟩
    have hle := h1 w hw hwin hin e he hd hb
    cases htm : (mWidgets.foldl (scanWidget env (env.getOwnerWindow focused)
        (env.screenToWindowPos (env.getOwnerWindow focused) eventScreenPos))
        ⟨none, 2 ^ 32 - 1, some focused, ⟨0, 0⟩⟩).topMostElement with
    | none =>
      have := h2 htm
      omega
    | some t =>
      obtain ⟨hdt, w2, hw2, hwin2, hin2, hfw, ht, htd, htb⟩ := h3 t htm
      refine ⟨t, w2, rfl, hfw, hw2, hwin2, hin2, ht, htd, htb, ?_⟩
      intro w3 hw3 hwin3 hin3 e3 he3 hd3 hb3
      rw [← hdt]
      exact h1 w3 hw3 hwin3 hin3 e3 he3 hd3 hb3
  · intro hnone
    cases htm : (mWidgets.foldl (scanWidget env (env.getOwnerWindow focused)
        (env.screenToWindowPos (env.getOwnerWindow focused) eventScreenPos))
        ⟨none, 2 ^ 32 - 1, some focused, ⟨0, 0⟩⟩).topMostElement with
    | none => rfl
    | some t =>
      obtain ⟨_, w2, hw2, hwin2, hin2, _, ht, htd, htb⟩ := h3 t htm
      have := hnone w2 hw2 hwin2 hin2 t ht htd
      rw [this] at htb
      exact absurd htb Bool.false_ne_true

/-- The scenario of the specification for the topmost-element search: with A (element 1,
depth 2) and B (element 2, depth 1) both at (0, 0, 10, 10) and the pointer at (5, 5), the
topmost element resolves to B, and `MouseOver` and then `MouseMove` go to B and nothing to
A. -/
theorem onMouseMoved_lower_depth_wins :
    (onMouseMoved hoverEnv oneWidgetManager ⟨⟨5, 5⟩, 0, false⟩).toOption.map
        (fun r => (r.1.mMouseOverElement, r.1.mMouseOverWidget, r.2)) =
      some (some 2, some 1,
        [GUICall.mouseEvent 1 2
            (mkMouseEvent hoverEnv (GUIMouseEventData.MouseOver (some 2) ⟨5, 5⟩)),
          GUICall.mouseEvent 1 2
            (mkMouseEvent hoverEnv (GUIMouseEventData.MouseMove (some 2) ⟨5, 5⟩))]) := by
  decide

/-- C10 (evaluation at a failing input): element 1 of the registered widget 1 is enabled,
contains the widget-local pointer position and has the largest `UINT32` depth; the topmost
element resolves to null all the same, and `onMouseMoved` hovers nothing and delivers
nothing. -/
theorem onMouseMoved_largest_depth_not_resolved :
    1 ∈ farthestEnv.getElements 1 ∧ farthestEnv.isDisabled 1 = false ∧
      farthestEnv.isInBounds 1
        (farthestEnv.worldToLocal 1 (farthestEnv.screenToWindowPos 1 ⟨5, 5⟩)) = true ∧
      farthestEnv.getDepth 1 = 2 ^ 32 - 1 ∧
      (findTopMost farthestEnv [1] ⟨5, 5⟩).topMostElement = none ∧
      (onMouseMoved farthestEnv oneWidgetManager ⟨⟨5, 5⟩, 0, false⟩).toOption.map
        (fun r => (r.1.mMouseOverElement, r.2)) = some (none, []) := by
  decide

/-! ## Element removal, consumed events and text input -/

/-- C11: after `onGUIElementRemovedFromWidget` for element `e`, none of the hovered, active and
focused element slots holds `e`; a slot that held `e` has its element and its widget null, a
slot that did not is as it was; and a second notification for `e` changes nothing. -/
theorem elementRemoved_clears_slots (m : GUIManager) (widget element : Nat) :
    (onGUIElementRemovedFromWidget m widget element).mMouseOverElement ≠ some element ∧
    (onGUIElementRemovedFromWidget m widget element).mActiveElement ≠ some element ∧
    (onGUIElementRemovedFromWidget m widget element).mKeyboardFocusElement ≠ some element ∧
    ((onGUIElementRemovedFromWidget m widget element).mMouseOverElement,
        (onGUIElementRemovedFromWidget m widget element).mMouseOverWidget) =
      (if m.mMouseOverElement = some element then (none, none)
        else (m.mMouseOverElement, m.mMouseOverWidget)) ∧
    ((onGUIElementRemovedFromWidget m widget element).mActiveElement,
        (onGUIElementRemovedFromWidget m widget element).mActiveWidget) =
      (if m.mActiveElement = some element then (none, none)
        else (m.mActiveElement, m.mActiveWidget)) ∧
    ((onGUIElementRemovedFromWidget m widget element).mKeyboardFocusElement,
        (onGUIElementRemovedFromWidget m widget element).mKeyboardFocusWidget) =
      (if m.mKeyboardFocusElement = some element then (none, none)
        else (m.mKeyboardFocusElement, m.mKeyboardFocusWidget)) ∧
    onGUIElementRemovedFromWidget (onGUIElementRemovedFromWidget m widget element) widget
        element = onGUIElementRemovedFromWidget m widget element := by
  rcases m with ⟨ws, cache, sep, oe, ow, ae, aw, ab, fe, fw, lp⟩
  by_cases h1 : oe = some element <;> by_cases h2 : ae = some element <;>
    by_cases h3 : fe = some element <;>
    simp [onGUIElementRemovedFromWidget, h1, h2, h3]

/-- C13: a `ButtonDown`, `ButtonUp` or `PointerMove` event that is already consumed makes no
call and leaves the manager, with its hover, active and focus slots, active button and last
cursor position, as it is. -/
theorem consumed_event_ignored (env : GUIEnv) (m : GUIManager) (button : ButtonEvent)
    (move : MouseEvent) (hbutton : button.used = true) (hmove : move.used = true) :
    onButtonDown env m button = Except.ok (m, []) ∧
      onButtonUp env m button = Except.ok (m, []) ∧
      onMouseMoved env m move = Except.ok (m, []) := by
  simp [onButtonDown, onButtonUp, onMouseMoved, hbutton, hmove]

/-- C18: `onTextInput` sends a text-input key event to the focused element through the focus
widget when there is a focused element and neither a control nor an alt key is down, makes no
call otherwise, and leaves the manager as it is in both cases. -/
theorem onTextInput_delivery (env : GUIEnv) (m : GUIManager) (event : TextInputEvent)
    (hwidget : m.mKeyboardFocusElement ≠ none → m.mKeyboardFocusWidget ≠ none) :
    onTextInput env m event =
      Except.ok (m,
        match m.mKeyboardFocusElement, m.mKeyboardFocusWidget with
        | some focusElement, some focusWidget =>
          if ctrlDown env = false ∧ altDown env = false then
            [GUICall.keyEvent focusWidget focusElement
              (mkKeyEvent env (GUIKeyEventData.TextInput event.textChar))]
          else []
        | _, _ => []) := by
  rcases m with ⟨ws, cache, sep, oe, ow, ae, aw, ab, fe, fw, lp⟩
  cases fe with
  | none => simp [onTextInput]
  | some f =>
    cases fw with
    | none => simp at hwidget
    | some w =>
      by_cases hc : ctrlDown env = true <;> by_cases ha : altDown env = true <;>
        simp [onTextInput, deref, hc, ha]

/-! ## Releasing away from the active element -/

/-- C15: with element `A` of widget `W` active for button `b` and the hovered element not `A`,
an unconsumed pointer `ButtonUp(b)` makes exactly one call, a `DragEnd` mouse event to `A`
through `W` (so no `MouseUp`), and leaves the active element and widget null and the active
button `Left`; an unconsumed pointer `ButtonUp` for another button makes no call and leaves
the manager as it is. -/
theorem buttonUp_away_from_active (env : GUIEnv) (m : GUIManager) (A W : Nat)
    (hactive : m.mActiveElement = some A) (hwidget : m.mActiveWidget = some W)
    (hover : m.mMouseOverElement ≠ some A) :
    onButtonUp env m ⟨m.mActiveMouseButton.toButtonCode, false⟩ =
        Except.ok
          ({ m with
              mActiveElement := none
              mActiveWidget := none
              mActiveMouseButton := GUIMouseButton.Left },
            [GUICall.mouseEvent W A (mkMouseEvent env
              (GUIMouseEventData.MouseDragEnd m.mMouseOverElement
                (match m.mMouseOverWidget with
                  | some overWidget => getWidgetRelativePos env overWidget env.getMousePosition
                  | none => ⟨0, 0⟩)))]) ∧
      ∀ other : GUIMouseButton, other ≠ m.mActiveMouseButton →
        onButtonUp env m ⟨other.toButtonCode, false⟩ = Except.ok (m, []) := by
  rcases m with ⟨ws, cache, sep, oe, ow, ae, aw, ab, fe, fw, lp⟩
  simp only at hactive hwidget hover
  subst hactive hwidget
  have hne : ¬ some A = oe := fun h => hover h.symm
  constructor
  · cases ow <;>
      simp [onButtonUp, isKeyboard_toButtonCode, isMouse_toButtonCode,
        buttonToMouseButton_toButtonCode, releaseMouse, deref, hne]
  · intro other hother
    have hne2 : ¬ ab = other := fun h => hother h.symm
    simp [onButtonUp, isKeyboard_toButtonCode, isMouse_toButtonCode,
      buttonToMouseButton_toButtonCode, releaseMouse, hne2]

/-! ## The widget and element found under the pointer -/

theorem scanWidget_widgetInFocus (env : GUIEnv) (window : Nat) (screenPos : Int2)
    (st : TopMost) (w : Nat) :
    (scanWidget env window screenPos st w).widgetInFocus = st.widgetInFocus ∨
      (scanWidget env window screenPos st w).widgetInFocus = some w := by
  unfold scanWidget
  by_cases hcand : env.getOwnerWindow w = window ∧ env.widgetInBounds w screenPos = true
  · simp only [hcand, and_self, if_true]
    cases (sortedElements env w).find? fun element =>
        !env.isDisabled element && env.isInBounds element (env.worldToLocal w screenPos) &&
          decide (env.getDepth element < st.topMostDepth) with
    | none => exact Or.inl rfl
    | some found => exact Or.inr rfl
  · simp [hcand]

/-- The widget in focus after the widget loop is the one it started with or one of the widgets
scanned. -/
theorem scan_widgetInFocus (env : GUIEnv) (window : Nat) (screenPos : Int2) :
    ∀ (widgets : List Nat) (st : TopMost),
      (widgets.foldl (scanWidget env window screenPos) st).widgetInFocus = st.widgetInFocus ∨
        ∃ w ∈ widgets,
          (widgets.foldl (scanWidget env window screenPos) st).widgetInFocus = some w
  | [], _ => Or.inl rfl
  | w :: rest, st => by
    rw [List.foldl_cons]
    rcases scan_widgetInFocus env window screenPos rest (scanWidget env window screenPos st w)
      with h | ⟨w2, hw2, h⟩
    · rw [h]
      rcases scanWidget_widgetInFocus env window screenPos st w with h2 | h2
      · exact Or.inl h2
      · exact Or.inr ⟨w, List.mem_cons_self _ _, h2⟩
    · exact Or.inr ⟨w2, List.mem_cons_of_mem _ hw2, h⟩

/-- The widget in focus found by the topmost-element search is a registered widget. -/
theorem findTopMost_widget_mem (env : GUIEnv) (mWidgets : List Nat) (eventScreenPos : Int2)
    (w : Nat) (h : (findTopMost env mWidgets eventScreenPos).widgetInFocus = some w) :
    w ∈ mWidgets := by
  unfold findTopMost at h
  cases hfind : mWidgets.find? fun widget => env.hasFocus (env.getOwnerWindow widget) with
  | none => simp [hfind] at h
  | some focused =>
    simp only [hfind] at h
    rcases scan_widgetInFocus env (env.getOwnerWindow focused)
      (env.screenToWindowPos (env.getOwnerWindow focused) eventScreenPos) mWidgets
      ⟨none, 2 ^ 32 - 1, some focused, ⟨0, 0⟩⟩ with h2 | ⟨w2, hw2, h2⟩
    · rw [h2] at h
      simp only [Option.some.injEq] at h
      rw [← h]
      exact List.mem_of_find?_eq_some hfind
    · rw [h2] at h
      simp only [Option.some.injEq] at h
      rw [← h]
      exact hw2

/-- The topmost element found is an element of the widget in focus, which is registered. -/
theorem findTopMost_element_widget (env : GUIEnv) (mWidgets : List Nat) (eventScreenPos : Int2)
    (t : Nat) (h : (findTopMost env mWidgets eventScreenPos).topMostElement = some t) :
    ∃ w ∈ mWidgets, (findTopMost env mWidgets eventScreenPos).widgetInFocus = some w ∧
      t ∈ env.getElements w := by
  cases hfind : mWidgets.find? fun widget => env.hasFocus (env.getOwnerWindow widget) with
  | none => simp [findTopMost, hfind] at h
  | some focused =>
    have htop : findTopMost env mWidgets eventScreenPos =
        mWidgets.foldl (scanWidget env (env.getOwnerWindow focused)
          (env.screenToWindowPos (env.getOwnerWindow focused) eventScreenPos))
          ⟨none, 2 ^ 32 - 1, some focused, ⟨0, 0⟩⟩ := by
      simp only [findTopMost, hfind]
    have hinv := scan_invariant env (env.getOwnerWindow focused)
      (env.screenToWindowPos (env.getOwnerWindow focused) eventScreenPos) (some focused) mWidgets
    simp only at hinv
    rw [htop] at h ⊢
    obtain ⟨_, w, hw, _, _, hfw, ht, _, _⟩ := hinv.2.2 t h
    exact ⟨w, hw, hfw, ht⟩

/-- The `MouseOut` and `MouseOver` part of `onMouseMoved`, spelled out for a manager whose
hovered element has a widget and a search result whose topmost element has one. -/
theorem hoverCalls_eq (env : GUIEnv) (m : GUIManager) (event : MouseEvent) (top : TopMost)
    (hover : m.mMouseOverElement ≠ none → m.mMouseOverWidget ≠ none)
    (htop : top.topMostElement ≠ none → top.widgetInFocus ≠ none) :
    hoverCalls env m event top = Except.ok
      ((match m.mMouseOverElement, m.mMouseOverWidget with
        | some P, some PW =>
          if top.topMostElement ≠ some P ∧
              (m.mActiveElement = none ∨ m.mActiveElement = some P) then
            [GUICall.mouseEvent PW P (mkMouseEvent env (GUIMouseEventData.MouseOut
              top.topMostElement (getWidgetRelativePos env PW event.screenPos)))]
          else []
        | _, _ => []) ++
      (match top.topMostElement, top.widgetInFocus with
        | some T, some TW =>
          if m.mMouseOverElement ≠ some T ∧
              (m.mActiveElement = none ∨ m.mActiveElement = some T) then
            [GUICall.mouseEvent TW T (mkMouseEvent env (GUIMouseEventData.MouseOver
              top.topMostElement top.localPos))]
          else []
        | _, _ => [])) := by
  rcases m with ⟨ws, cache, sep, oe, ow, ae, aw, ab, fe, fw, lp⟩
  rcases top with ⟨te, td, tw, tl⟩
  simp only at hover htop
  cases oe with
  | none =>
    cases te with
    | none => simp [hoverCalls]
    | some T =>
      cases tw with
      | none => simp at htop
      | some TW =>
        by_cases ha : ae = none
        · simp [hoverCalls, deref, ha]
        · by_cases ha2 : ae = some T
          · simp [hoverCalls, deref, ha2]
          · have ha3 : ¬ some T = ae := fun h => ha2 h.symm
            simp [hoverCalls, deref, ha, ha2, ha3]
  | some P =>
    cases ow with
    | none => simp at hover
    | some PW =>
      cases te with
      | none =>
        by_cases ha : ae = none
        · simp [hoverCalls, deref, ha]
        · by_cases ha2 : ae = some P
          · simp [hoverCalls, deref, ha2]
          · have ha3 : ¬ some P = ae := fun h => ha2 h.symm
            simp [hoverCalls, deref, ha, ha2, ha3]
      | some T =>
        cases tw with
        | none => simp at htop
        | some TW =>
          by_cases hTP : T = P
          · subst hTP
            simp [hoverCalls]
          · have hPT : ¬ P = T := fun h => hTP h.symm
            by_cases ha : ae = none
            · simp [hoverCalls, deref, ha, hTP, hPT]
            · by_cases haP : ae = some P
              · have : ¬ some T = ae := by rw [haP]; simpa using hTP
                simp [hoverCalls, deref, haP, hTP, hPT]
              · by_cases haT : ae = some T
                · simp [hoverCalls, deref, haT, hTP, hPT]
                · have h1 : ¬ some P = ae := fun h => haP h.symm
                  have h2 : ¬ some T = ae := fun h => haT h.symm
                  simp [hoverCalls, deref, ha, haP, haT, h1, h2, hTP, hPT]

/-! ## The calls of a pointer move -/

/-- The `MouseDrag` part of `onMouseMoved` while an element is active. -/
theorem moveCalls_active (env : GUIEnv) (m : GUIManager) (event : MouseEvent) (top : TopMost)
    (A W : Nat) (hactive : m.mActiveElement = some A) (hwidget : m.mActiveWidget = some W) :
    moveCalls env m event top = Except.ok
      (if m.mLastCursorLocalPos ≠ getWidgetRelativePos env W event.screenPos then
          getWidgetRelativePos env W event.screenPos
        else m.mLastCursorLocalPos,
        if m.mLastCursorLocalPos ≠ getWidgetRelativePos env W event.screenPos then
          [GUICall.mouseEvent W A (mkMouseEvent env (GUIMouseEventData.MouseDrag
            top.topMostElement (getWidgetRelativePos env W event.screenPos)
            ⟨(getWidgetRelativePos env W event.screenPos).x - m.mLastCursorLocalPos.x,
              (getWidgetRelativePos env W event.screenPos).y - m.mLastCursorLocalPos.y⟩))]
        else []) := by
  rcases m with ⟨ws, cache, sep, oe, ow, ae, aw, ab, fe, fw, lp⟩
  simp only at hactive hwidget
  subst hactive hwidget
  by_cases h : lp = getWidgetRelativePos env W event.screenPos <;>
    simp [moveCalls, deref, h]

/-- The `MouseMove` and `MouseWheelScroll` part of `onMouseMoved` while no element is active
and element `T` of widget `TW` is topmost. -/
theorem moveCalls_hovering (env : GUIEnv) (m : GUIManager) (event : MouseEvent) (top : TopMost)
    (T TW : Nat) (hactive : m.mActiveElement = none) (htop : top.topMostElement = some T)
    (hwidget : top.widgetInFocus = some TW) :
    moveCalls env m event top = Except.ok
      (if m.mLastCursorLocalPos ≠ top.localPos then top.localPos else m.mLastCursorLocalPos,
        (if m.mLastCursorLocalPos ≠ top.localPos then
          [GUICall.mouseEvent TW T (mkMouseEvent env (GUIMouseEventData.MouseMove
            top.topMostElement top.localPos))]
        else []) ++
        (if event.mouseWheelScrollAmount.natAbs > 1 then
          [GUICall.mouseEvent TW T (mkMouseEvent env (GUIMouseEventData.MouseWheelScroll
            top.topMostElement event.mouseWheelScrollAmount))]
        else [])) := by
  rcases m with ⟨ws, cache, sep, oe, ow, ae, aw, ab, fe, fw, lp⟩
  rcases top with ⟨te, td, tw, tl⟩
  simp only at hactive htop hwidget
  subst hactive htop hwidget
  by_cases hmoved : lp = tl <;>
    by_cases hwheel : event.mouseWheelScrollAmount.natAbs > 1 <;>
    simp [moveCalls, deref, hmoved, hwheel]

/-- The second part of `onMouseMoved` succeeds when the active element has a widget and the
topmost element has one, and it sends no `MouseOut` and no `MouseOver`. -/
theorem moveCalls_ok (env : GUIEnv) (m : GUIManager) (event : MouseEvent) (top : TopMost)
    (hactive : m.mActiveElement ≠ none → m.mActiveWidget ≠ none)
    (htop : top.topMostElement ≠ none → top.widgetInFocus ≠ none) :
    ∃ lastPos moves, moveCalls env m event top = Except.ok (lastPos, moves) ∧
      ∀ c ∈ moves, c.isMouseOut = false ∧ c.isMouseOver = false := by
  rcases m with ⟨ws, cache, sep, oe, ow, ae, aw, ab, fe, fw, lp⟩
  rcases top with ⟨te, td, tw, tl⟩
  simp only at hactive htop
  cases ae with
  | some A =>
    cases aw with
    | none => simp at hactive
    | some W =>
      refine ⟨_, _, moveCalls_active env _ event _ A W rfl rfl, ?_⟩
      intro c hc
      split_ifs at hc
      · simp only [List.mem_singleton] at hc
        subst hc
        exact ⟨rfl, rfl⟩
      · simp at hc
  | none =>
    cases te with
    | none => exact ⟨lp, [], by simp [moveCalls], by simp⟩
    | some T =>
      cases tw with
      | none => simp at htop
      | some TW =>
        refine ⟨_, _, moveCalls_hovering env _ event _ T TW rfl rfl rfl, ?_⟩
        intro c hc
        rcases List.mem_append.mp hc with hc | hc
        · split_ifs at hc
          · simp only [List.mem_singleton] at hc
            subst hc
            exact ⟨rfl, rfl⟩
          · simp at hc
        · split_ifs at hc
          · simp only [List.mem_singleton] at hc
            subst hc
            exact ⟨rfl, rfl⟩
          · simp at hc

/-! ## Hover transitions and drags -/

/-- The `MouseOut` and `MouseOver` part of `onMouseMoved` as a `MouseOut` part followed by a
`MouseOver` part, each empty or a single call. -/
theorem hoverCalls_spec (env : GUIEnv) (m : GUIManager) (event : MouseEvent) (top : TopMost)
    (hover : m.mMouseOverElement ≠ none → m.mMouseOverWidget ≠ none)
    (htop : top.topMostElement ≠ none → top.widgetInFocus ≠ none) :
    ∃ out over, hoverCalls env m event top = Except.ok (out ++ over) ∧
      (m.mMouseOverElement = none → out = []) ∧
      (∀ P PW, m.mMouseOverElement = some P → m.mMouseOverWidget = some PW →
        out = if top.topMostElement ≠ some P ∧
            (m.mActiveElement = none ∨ m.mActiveElement = some P) then
          [GUICall.mouseEvent PW P (mkMouseEvent env (GUIMouseEventData.MouseOut
            top.topMostElement (getWidgetRelativePos env PW event.screenPos)))]
        else []) ∧
      (top.topMostElement = none → over = []) ∧
      (∀ T TW, top.topMostElement = some T → top.widgetInFocus = some TW →
        over = if m.mMouseOverElement ≠ some T ∧
            (m.mActiveElement = none ∨ m.mActiveElement = some T) then
          [GUICall.mouseEvent TW T (mkMouseEvent env (GUIMouseEventData.MouseOver
            top.topMostElement top.localPos))]
        else []) ∧
      (∀ c ∈ out ++ over, c.isMouseDrag = false) := by
  refine ⟨_, _, hoverCalls_eq env m event top hover htop, ?_, ?_, ?_, ?_, ?_⟩
  · intro h
    simp only [h]
  · intro P PW h1 h2
    simp only [h1, h2]
  · intro h
    simp only [h]
  · intro T TW h1 h2
    simp only [h1, h2]
  · intro c hc
    rcases List.mem_append.mp hc with hc | hc
    · split at hc
      · split_ifs at hc
        · simp only [List.mem_singleton] at hc
          subst hc
          rfl
        · simp at hc
      · simp at hc
    · split at hc
      · split_ifs at hc
        · simp only [List.mem_singleton] at hc
          subst hc
          rfl
        · simp at hc
      · simp at hc

/-- What `onMouseMoved` does with an unconsumed event: the calls of the hover part, then the
calls of the move part, and the hover slot set to the search result. -/
theorem onMouseMoved_eq (env : GUIEnv) (m : GUIManager) (event : MouseEvent)
    (hunused : event.used = false) (hover : List GUICall) (lastPos : Int2)
    (moves : List GUICall)
    (h1 : hoverCalls env m event (findTopMost env m.mWidgets event.screenPos) =
      Except.ok hover)
    (h2 : moveCalls env m event (findTopMost env m.mWidgets event.screenPos) =
      Except.ok (lastPos, moves)) :
    onMouseMoved env m event = Except.ok
      ({ m with
          mLastCursorLocalPos := lastPos
          mMouseOverElement := (findTopMost env m.mWidgets event.screenPos).topMostElement
          mMouseOverWidget := (findTopMost env m.mWidgets event.screenPos).widgetInFocus },
        hover ++ moves) := by
  simp [onMouseMoved, hunused, h1, h2]

theorem findTopMost_widget_ne_none (env : GUIEnv) (mWidgets : List Nat) (pos : Int2) :
    (findTopMost env mWidgets pos).topMostElement ≠ none →
      (findTopMost env mWidgets pos).widgetInFocus ≠ none := by
  intro h
  cases ht : (findTopMost env mWidgets pos).topMostElement with
  | none => exact absurd ht h
  | some t =>
    obtain ⟨w, _, hw, _⟩ := findTopMost_element_widget env mWidgets pos t ht
    rw [hw]
    simp

/-- C17: for an unconsumed `PointerMove` with previous hover `P` and topmost element `T`, the
calls are a `MouseOut` part, then a `MouseOver` part, then calls that are neither. The
`MouseOut` part is one `MouseOut` to `P` through its widget when `P` is not null, `T` is not
`P` and no element is active or `P` is, and empty otherwise; the `MouseOver` part is one
`MouseOver` to `T` through the widget in focus when `T` is not null, `T` is not `P` and no
element is active or `T` is, and empty otherwise; the hover slot holds `T` afterwards. -/
theorem onMouseMoved_hover_transition (env : GUIEnv) (m : GUIManager) (event : MouseEvent)
    (hunused : event.used = false)
    (hover : m.mMouseOverElement ≠ none → m.mMouseOverWidget ≠ none)
    (hactive : m.mActiveElement ≠ none → m.mActiveWidget ≠ none) :
    ∃ next out over moves,
      onMouseMoved env m event = Except.ok (next, out ++ over ++ moves) ∧
      next.mMouseOverElement = (findTopMost env m.mWidgets event.screenPos).topMostElement ∧
      next.mMouseOverWidget = (findTopMost env m.mWidgets event.screenPos).widgetInFocus ∧
      (∀ c ∈ moves, c.isMouseOut = false ∧ c.isMouseOver = false) ∧
      (m.mMouseOverElement = none → out = []) ∧
      (∀ P PW, m.mMouseOverElement = some P → m.mMouseOverWidget = some PW →
        out = if (findTopMost env m.mWidgets event.screenPos).topMostElement ≠ some P ∧
            (m.mActiveElement = none ∨ m.mActiveElement = some P) then
          [GUICall.mouseEvent PW P (mkMouseEvent env (GUIMouseEventData.MouseOut
            (findTopMost env m.mWidgets event.screenPos).topMostElement
            (getWidgetRelativePos env PW event.screenPos)))]
        else []) ∧
      ((findTopMost env m.mWidgets event.screenPos).topMostElement = none → over = []) ∧
      (∀ T TW, (findTopMost env m.mWidgets event.screenPos).topMostElement = some T →
        (findTopMost env m.mWidgets event.screenPos).widgetInFocus = some TW →
        over = if m.mMouseOverElement ≠ some T ∧
            (m.mActiveElement = none ∨ m.mActiveElement = some T) then
          [GUICall.mouseEvent TW T (mkMouseEvent env (GUIMouseEventData.MouseOver
            (findTopMost env m.mWidgets event.screenPos).topMostElement
            (findTopMost env m.mWidgets event.screenPos).localPos))]
        else []) := by
  have htop := findTopMost_widget_ne_none env m.mWidgets event.screenPos
  obtain ⟨out, over, h1, h3, h4, h5, h6, _⟩ :=
    hoverCalls_spec env m event (findTopMost env m.mWidgets event.screenPos) hover htop
  obtain ⟨lastPos, moves, h2, hkinds⟩ :=
    moveCalls_ok env m event (findTopMost env m.mWidgets event.screenPos) hactive htop
  exact ⟨_, out, over, moves, onMouseMoved_eq env m event hunused _ _ _ h1 h2, rfl, rfl,
    hkinds, h3, h4, h5, h6⟩

/-- C16 (amended): for an unconsumed `PointerMove` handled while element `A` of widget `W` is
active, the `MouseDrag` calls made are one `MouseDrag` to `A` through `W`, carrying the
topmost element, the position local to `W` and its difference from the last cursor position,
when that position differs from the last cursor position, and none when it does not. -/
theorem onMouseMoved_drag_when_moved (env : GUIEnv) (m : GUIManager) (event : MouseEvent)
    (A W : Nat) (hunused : event.used = false) (hactive : m.mActiveElement = some A)
    (hwidget : m.mActiveWidget = some W)
    (hover : m.mMouseOverElement ≠ none → m.mMouseOverWidget ≠ none) :
    ∃ next calls, onMouseMoved env m event = Except.ok (next, calls) ∧
      calls.filter GUICall.isMouseDrag =
        if m.mLastCursorLocalPos ≠ getWidgetRelativePos env W event.screenPos then
          [GUICall.mouseEvent W A (mkMouseEvent env (GUIMouseEventData.MouseDrag
            (findTopMost env m.mWidgets event.screenPos).topMostElement
            (getWidgetRelativePos env W event.screenPos)
            ⟨(getWidgetRelativePos env W event.screenPos).x - m.mLastCursorLocalPos.x,
              (getWidgetRelativePos env W event.screenPos).y - m.mLastCursorLocalPos.y⟩))]
        else [] := by
  have htop := findTopMost_widget_ne_none env m.mWidgets event.screenPos
  obtain ⟨out, over, h1, _, _, _, _, hnodrag⟩ :=
    hoverCalls_spec env m event (findTopMost env m.mWidgets event.screenPos) hover htop
  have h2 := moveCalls_active env m event (findTopMost env m.mWidgets event.screenPos) A W
    hactive hwidget
  refine ⟨_, _, onMouseMoved_eq env m event hunused _ _ _ h1 h2, ?_⟩
  rw [List.filter_append]
  have : (out ++ over).filter GUICall.isMouseDrag = [] := by
    rw [List.filter_eq_nil_iff]
    intro c hc
    simp [hnodrag c hc]
  rw [this, List.nil_append]
  split_ifs <;> rfl

/-! ## Slot invariants of the handlers -/

theorem clearStuckActive_slots (P : Option Nat → Option Nat → Prop) (hnone : P none none)
    (m : GUIManager) (guiButton : GUIMouseButton) (hinv : m.slotsSatisfy P) :
    (clearStuckActive m guiButton).slotsSatisfy P ∧
      (clearStuckActive m guiButton).mWidgets = m.mWidgets := by
  unfold clearStuckActive
  split_ifs
  · exact ⟨⟨hinv.1, hnone, hinv.2.2⟩, rfl⟩
  · exact ⟨hinv, rfl⟩

theorem acceptMouseDown_slots (P : Option Nat → Option Nat → Prop) (env : GUIEnv)
    (m : GUIManager) (guiButton : GUIMouseButton) (next : GUIManager) (calls : List GUICall)
    (h : acceptMouseDown env m guiButton = Except.ok (next, calls))
    (hinv : m.slotsSatisfy P) :
    next.slotsSatisfy P ∧ next.mWidgets = m.mWidgets := by
  unfold acceptMouseDown at h
  split at h
  · split at h
    · exact absurd h (by simp)
    · simp only [Except.ok.injEq, Prod.mk.injEq] at h
      rw [← h.1]
      exact ⟨⟨hinv.1, hinv.1, hinv.2.2⟩, rfl⟩
  · simp only [Except.ok.injEq, Prod.mk.injEq] at h
    rw [← h.1]
    exact ⟨hinv, rfl⟩

theorem transferFocus_slots (P : Option Nat → Option Nat → Prop) (env : GUIEnv)
    (m : GUIManager) (hinv : m.slotsSatisfy P) :
    (transferFocus env m).1.slotsSatisfy P ∧ (transferFocus env m).1.mWidgets = m.mWidgets := by
  unfold transferFocus
  split
  · exact ⟨hinv, rfl⟩
  · split_ifs
    · exact ⟨⟨hinv.1, hinv.2.1, hinv.1⟩, rfl⟩
    · exact ⟨hinv, rfl⟩

theorem releaseMouse_slots (P : Option Nat → Option Nat → Prop) (hnone : P none none)
    (env : GUIEnv) (m : GUIManager) (guiButton : GUIMouseButton) (next : GUIManager)
    (calls : List GUICall) (h : releaseMouse env m guiButton = Except.ok (next, calls))
    (hinv : m.slotsSatisfy P) :
    next.slotsSatisfy P ∧ next.mWidgets = m.mWidgets := by
  unfold releaseMouse at h
  simp only at h
  split at h
  · exact absurd h (by simp)
  · split at h
    · split at h
      · exact absurd h (by simp)
      · simp only [Except.ok.injEq, Prod.mk.injEq] at h
        rw [← h.1]
        exact ⟨⟨hinv.1, hnone, hinv.2.2⟩, rfl⟩
    · simp only [Except.ok.injEq, Prod.mk.injEq] at h
      rw [← h.1]
      exact ⟨hinv, rfl⟩

theorem onButtonDown_slots (P : Option Nat → Option Nat → Prop) (hnone : P none none)
    (env : GUIEnv) (m : GUIManager) (event : ButtonEvent) (next : GUIManager)
    (calls : List GUICall) (h : onButtonDown env m event = Except.ok (next, calls))
    (hinv : m.slotsSatisfy P) :
    next.slotsSatisfy P ∧ next.mWidgets = m.mWidgets := by
  unfold onButtonDown at h
  by_cases hused : event.used = true
  · simp only [hused, if_true, Except.ok.injEq, Prod.mk.injEq] at h
    rw [← h.1]
    exact ⟨hinv, rfl⟩
  · simp only [hused, Bool.false_eq_true, if_false] at h
    cases hk : (if event.isKeyboard = true then
        routeKey env m (GUIKeyEventData.KeyDown event.buttonCode) else Except.ok []) with
    | error e =>
      rw [hk] at h
      exact absurd h (by simp)
    | ok keyCalls =>
      rw [hk] at h
      simp only at h
      by_cases hmouse : event.isMouse = true
      · simp only [hmouse, if_true] at h
        cases hb : buttonToMouseButton event.buttonCode with
        | error e =>
          rw [hb] at h
          exact absurd h (by simp)
        | ok guiButton =>
          rw [hb] at h
          simp only at h
          cases hp : acceptMouseDown env (clearStuckActive m guiButton) guiButton with
          | error e =>
            rw [hp] at h
            exact absurd h (by simp)
          | ok r =>
            obtain ⟨pressed, mouseCalls⟩ := r
            rw [hp] at h
            simp only [Except.ok.injEq, Prod.mk.injEq] at h
            rw [← h.1]
            have h1 := clearStuckActive_slots P hnone m guiButton hinv
            have h2 := acceptMouseDown_slots P env _ guiButton pressed mouseCalls hp h1.1
            have h3 := transferFocus_slots P env pressed h2.1
            exact ⟨h3.1, by rw [h3.2, h2.2, h1.2]⟩
      · simp only [hmouse, Bool.false_eq_true, if_false, Except.ok.injEq, Prod.mk.injEq] at h
        rw [← h.1]
        exact ⟨hinv, rfl⟩

theorem onButtonUp_slots (P : Option Nat → Option Nat → Prop) (hnone : P none none)
    (env : GUIEnv) (m : GUIManager) (event : ButtonEvent) (next : GUIManager)
    (calls : List GUICall) (h : onButtonUp env m event = Except.ok (next, calls))
    (hinv : m.slotsSatisfy P) :
    next.slotsSatisfy P ∧ next.mWidgets = m.mWidgets := by
  unfold onButtonUp at h
  by_cases hused : event.used = true
  · simp only [hused, if_true, Except.ok.injEq, Prod.mk.injEq] at h
    rw [← h.1]
    exact ⟨hinv, rfl⟩
  · simp only [hused, Bool.false_eq_true, if_false] at h
    cases hk : (if event.isKeyboard = true then
        routeKey env m (GUIKeyEventData.KeyUp event.buttonCode) else Except.ok []) with
    | error e =>
      rw [hk] at h
      exact absurd h (by simp)
    | ok keyCalls =>
      rw [hk] at h
      simp only at h
      by_cases hmouse : event.isMouse = true
      · simp only [hmouse, if_true] at h
        cases hb : buttonToMouseButton event.buttonCode with
        | error e =>
          rw [hb] at h
          exact absurd h (by simp)
        | ok guiButton =>
          rw [hb] at h
          simp only at h
          cases hp : releaseMouse env m guiButton with
          | error e =>
            rw [hp] at h
            exact absurd h (by simp)
          | ok r =>
            obtain ⟨released, mouseCalls⟩ := r
            rw [hp] at h
            simp only [Except.ok.injEq, Prod.mk.injEq] at h
            rw [← h.1]
            exact releaseMouse_slots P hnone env m guiButton released mouseCalls hp hinv
      · simp only [hmouse, Bool.false_eq_true, if_false, Except.ok.injEq, Prod.mk.injEq] at h
        rw [← h.1]
        exact ⟨hinv, rfl⟩

theorem onMouseMoved_slots (P : Option Nat → Option Nat → Prop) (env : GUIEnv)
    (m : GUIManager) (event : MouseEvent) (next : GUIManager) (calls : List GUICall)
    (h : onMouseMoved env m event = Except.ok (next, calls)) (hinv : m.slotsSatisfy P)
    (htop : P (findTopMost env m.mWidgets event.screenPos).topMostElement
      (findTopMost env m.mWidgets event.screenPos).widgetInFocus) :
    next.slotsSatisfy P ∧ next.mWidgets = m.mWidgets := by
  unfold onMouseMoved at h
  split_ifs at h with hused
  · simp only [Except.ok.injEq, Prod.mk.injEq] at h
    rw [← h.1]
    exact ⟨hinv, rfl⟩
  · simp only at h
    split at h
    · exact absurd h (by simp)
    · split at h
      · exact absurd h (by simp)
      · simp only [Except.ok.injEq, Prod.mk.injEq] at h
        rw [← h.1]
        exact ⟨⟨htop, hinv.2.1, hinv.2.2⟩, rfl⟩

theorem onTextInput_state (env : GUIEnv) (m : GUIManager) (event : TextInputEvent)
    (next : GUIManager) (calls : List GUICall)
    (h : onTextInput env m event = Except.ok (next, calls)) : next = m := by
  unfold onTextInput at h
  split at h
  · simp only [Except.ok.injEq, Prod.mk.injEq] at h
    exact h.1.symm
  · split_ifs at h
    · simp only [Except.ok.injEq, Prod.mk.injEq] at h
      exact h.1.symm
    · split at h
      · exact absurd h (by simp)
      · simp only [Except.ok.injEq, Prod.mk.injEq] at h
        exact h.1.symm

/-! ## Reachable states -/

theorem unregisterWidget_slots (env : GUIEnv) (m : GUIManager) (widget : Nat) :
    (unregisterWidget env m widget).mWidgets = m.mWidgets.erase widget ∧
    ((unregisterWidget env m widget).mMouseOverElement,
        (unregisterWidget env m widget).mMouseOverWidget) =
      (if m.mMouseOverWidget = some widget then (none, none)
        else (m.mMouseOverElement, m.mMouseOverWidget)) ∧
    ((unregisterWidget env m widget).mActiveElement,
        (unregisterWidget env m widget).mActiveWidget) =
      (if m.mActiveWidget = some widget then (none, none)
        else (m.mActiveElement, m.mActiveWidget)) ∧
    ((unregisterWidget env m widget).mKeyboardFocusElement,
        (unregisterWidget env m widget).mKeyboardFocusWidget) =
      (if m.mKeyboardFocusWidget = some widget then (none, none)
        else (m.mKeyboardFocusElement, m.mKeyboardFocusWidget)) := by
  rcases m with ⟨ws, cache, sep, oe, ow, ae, aw, ab, fe, fw, lp⟩
  unfold unregisterWidget
  simp only
  by_cases h1 : ow = some widget <;> by_cases h2 : aw = some widget <;>
    by_cases h3 : fw = some widget <;>
    split_ifs <;> simp [clearWidgetSlots, h1, h2, h3]

theorem elementRemoved_slots (m : GUIManager) (widget element : Nat) :
    (onGUIElementRemovedFromWidget m widget element).mWidgets = m.mWidgets ∧
    ((onGUIElementRemovedFromWidget m widget element).mMouseOverElement,
        (onGUIElementRemovedFromWidget m widget element).mMouseOverWidget) =
      (if m.mMouseOverElement = some element then (none, none)
        else (m.mMouseOverElement, m.mMouseOverWidget)) ∧
    ((onGUIElementRemovedFromWidget m widget element).mActiveElement,
        (onGUIElementRemovedFromWidget m widget element).mActiveWidget) =
      (if m.mActiveElement = some element then (none, none)
        else (m.mActiveElement, m.mActiveWidget)) ∧
    ((onGUIElementRemovedFromWidget m widget element).mKeyboardFocusElement,
        (onGUIElementRemovedFromWidget m widget element).mKeyboardFocusWidget) =
      (if m.mKeyboardFocusElement = some element then (none, none)
        else (m.mKeyboardFocusElement, m.mKeyboardFocusWidget)) := by
  rcases m with ⟨ws, cache, sep, oe, ow, ae, aw, ab, fe, fw, lp⟩
  by_cases h1 : oe = some element <;> by_cases h2 : ae = some element <;>
    by_cases h3 : fe = some element <;>
    simp [onGUIElementRemovedFromWidget, h1, h2, h3]

/-- A slot that is cleared or kept satisfies `Q` when `Q` holds for the null slot and, for a
kept slot, follows from `P`. -/
theorem slot_of_cleared_or_kept (P Q : Option Nat → Option Nat → Prop) (hnone : Q none none)
    (element widget element2 widget2 : Option Nat) (c : Prop) [Decidable c]
    (h : (element2, widget2) = if c then (none, none) else (element, widget))
    (hP : P element widget) (hkeep : ¬ c → P element widget → Q element widget) :
    Q element2 widget2 := by
  split_ifs at h with hc
  · simp only [Prod.mk.injEq] at h
    rw [h.1, h.2]
    exact hnone
  · simp only [Prod.mk.injEq] at h
    rw [h.1, h.2]
    exact hkeep hc hP

theorem slotValid_none (mWidgets : List Nat) : slotValid mWidgets none none := by
  simp [slotValid]

theorem slotOwned_none (env : GUIEnv) (mWidgets : List Nat) :
    slotOwned env mWidgets none none := by
  simp [slotOwned]

theorem findTopMost_slotValid (env : GUIEnv) (mWidgets : List Nat) (pos : Int2) :
    slotValid mWidgets (findTopMost env mWidgets pos).topMostElement
      (findTopMost env mWidgets pos).widgetInFocus :=
  ⟨fun w hw => findTopMost_widget_mem env mWidgets pos w hw,
    findTopMost_widget_ne_none env mWidgets pos⟩

theorem findTopMost_slotOwned (env : GUIEnv) (mWidgets : List Nat) (pos : Int2) :
    slotOwned env mWidgets (findTopMost env mWidgets pos).topMostElement
      (findTopMost env mWidgets pos).widgetInFocus :=
  fun t ht => findTopMost_element_widget env mWidgets pos t ht

/-- In every reachable state each slot has a widget that is null or registered, and a widget
that is not null when its element is not. -/
theorem reachable_slots_valid (m : GUIManager) (h : Reachable m) :
    m.slotsSatisfy (slotValid m.mWidgets) := by
  induction h with
  | initial => exact ⟨slotValid_none _, slotValid_none _, slotValid_none _⟩
  | register env m widget _ ih =>
    have hmono : ∀ e w, slotValid m.mWidgets e w →
        slotValid (m.mWidgets ++ [widget]) e w := by
      intro e w hv
      exact ⟨fun x hx => List.mem_append_left _ (hv.1 x hx), hv.2⟩
    exact ⟨hmono _ _ ih.1, hmono _ _ ih.2.1, hmono _ _ ih.2.2⟩
  | unregister env m widget _ ih =>
    obtain ⟨hw, h1, h2, h3⟩ := unregisterWidget_slots env m widget
    have hkeep : ∀ e w, ¬ w = some widget → slotValid m.mWidgets e w →
        slotValid (m.mWidgets.erase widget) e w := by
      intro e w hne hv
      refine ⟨fun x hx => ?_, hv.2⟩
      have hxw : x ≠ widget := by
        intro hxw
        rw [hx, hxw] at hne
        exact hne rfl
      exact (List.mem_erase_of_ne hxw).mpr (hv.1 x hx)
    unfold GUIManager.slotsSatisfy
    rw [hw]
    exact ⟨slot_of_cleared_or_kept _ _ (slotValid_none _) _ _ _ _ _ h1 ih.1 (hkeep _ _),
      slot_of_cleared_or_kept _ _ (slotValid_none _) _ _ _ _ _ h2 ih.2.1 (hkeep _ _),
      slot_of_cleared_or_kept _ _ (slotValid_none _) _ _ _ _ _ h3 ih.2.2 (hkeep _ _)⟩
  | buttonDown env m event next calls _ heq ih =>
    have := onButtonDown_slots _ (slotValid_none m.mWidgets) env m event next calls heq ih
    rw [this.2]
    exact this.1
  | buttonUp env m event next calls _ heq ih =>
    have := onButtonUp_slots _ (slotValid_none m.mWidgets) env m event next calls heq ih
    rw [this.2]
    exact this.1
  | mouseMoved env m event next calls _ heq ih =>
    have := onMouseMoved_slots _ env m event next calls heq ih
      (findTopMost_slotValid env m.mWidgets event.screenPos)
    rw [this.2]
    exact this.1
  | textInput env m event next calls _ heq ih =>
    rw [onTextInput_state env m event next calls heq]
    exact ih
  | elementRemoved m widget element _ ih =>
    obtain ⟨hw, h1, h2, h3⟩ := elementRemoved_slots m widget element
    unfold GUIManager.slotsSatisfy
    rw [hw]
    exact ⟨slot_of_cleared_or_kept _ _ (slotValid_none _) _ _ _ _ _ h1 ih.1 (fun _ h => h),
      slot_of_cleared_or_kept _ _ (slotValid_none _) _ _ _ _ _ h2 ih.2.1 (fun _ h => h),
      slot_of_cleared_or_kept _ _ (slotValid_none _) _ _ _ _ _ h3 ih.2.2 (fun _ h => h)⟩

/-- C12: in a reachable state with no widget registered, an unconsumed `PointerMove` makes no
call and leaves the manager, with its hover, active and focus slots and the last cursor
position, as it is. -/
theorem pointerMove_without_widgets (env : GUIEnv) (m : GUIManager) (event : MouseEvent)
    (hreach : Reachable m) (hnone : m.mWidgets = []) (hunused : event.used = false) :
    onMouseMoved env m event = Except.ok (m, []) := by
  obtain ⟨h1, h2, h3⟩ := reachable_slots_valid m hreach
  rcases m with ⟨ws, cache, sep, oe, ow, ae, aw, ab, fe, fw, lp⟩
  simp only at hnone
  subst hnone
  simp only [slotValid] at h1 h2 h3
  have how : ow = none := by
    cases ow with
    | none => rfl
    | some w => exact absurd (h1.1 w rfl) (by simp)
  have hoe : oe = none := by
    by_contra hne
    exact h1.2 hne how
  have haw : aw = none := by
    cases aw with
    | none => rfl
    | some w => exact absurd (h2.1 w rfl) (by simp)
  have hae : ae = none := by
    by_contra hne
    exact h2.2 hne haw
  subst how hoe haw hae
  simp [onMouseMoved, hunused, findTopMost, hoverCalls, moveCalls]

/-- C12 (witness): the statement at the manager left by registering and unregistering
widget 1. -/
theorem pointerMove_without_widgets_witness :
    onMouseMoved hoverEnv (unregisterWidget hoverEnv (registerWidget hoverEnv
        GUIManager.initial 1) 1) ⟨⟨5, 5⟩, 0, false⟩ =
      Except.ok (unregisterWidget hoverEnv (registerWidget hoverEnv GUIManager.initial 1) 1,
        []) :=
  pointerMove_without_widgets hoverEnv _ ⟨⟨5, 5⟩, 0, false⟩
    (Reachable.unregister hoverEnv _ 1 (Reachable.register hoverEnv _ 1 Reachable.initial))
    (by decide) rfl

/-! ## Slot elements and their widgets -/

/-- In every reachable pair of a scene and a manager state, the element of each slot is an
element of the widget of the slot, and this widget is registered. -/
theorem sceneReachable_slots_owned (env : GUIEnv) (m : GUIManager) (h : SceneReachable env m) :
    m.slotsSatisfy (slotOwned env m.mWidgets) := by
  induction h with
  | initial env => exact ⟨slotOwned_none _ _, slotOwned_none _ _, slotOwned_none _ _⟩
  | sceneChanged env next m _ hkept ih =>
    have hmono : ∀ e w, slotOwned env m.mWidgets e w → slotOwned next m.mWidgets e w := by
      intro e w ho x hx
      obtain ⟨w2, hw2, hw, hmem⟩ := ho x hx
      exact ⟨w2, hw2, hw, hkept w2 hw2 x hmem⟩
    exact ⟨hmono _ _ ih.1, hmono _ _ ih.2.1, hmono _ _ ih.2.2⟩
  | elementRemoved env next m widget element _ hkept ih =>
    obtain ⟨hw, h1, h2, h3⟩ := elementRemoved_slots m widget element
    have hkeep : ∀ e w, ¬ e = some element → slotOwned env m.mWidgets e w →
        slotOwned next m.mWidgets e w := by
      intro e w hne ho x hx
      obtain ⟨w2, hw2, hw, hmem⟩ := ho x hx
      refine ⟨w2, hw2, hw, hkept w2 hw2 x hmem ?_⟩
      intro hxe
      rw [hx, hxe] at hne
      exact hne rfl
    unfold GUIManager.slotsSatisfy
    rw [hw]
    exact ⟨slot_of_cleared_or_kept _ _ (slotOwned_none _ _) _ _ _ _ _ h1 ih.1 (hkeep _ _),
      slot_of_cleared_or_kept _ _ (slotOwned_none _ _) _ _ _ _ _ h2 ih.2.1 (hkeep _ _),
      slot_of_cleared_or_kept _ _ (slotOwned_none _ _) _ _ _ _ _ h3 ih.2.2 (hkeep _ _)⟩
  | register env m widget _ ih =>
    have hmono : ∀ e w, slotOwned env m.mWidgets e w →
        slotOwned env (m.mWidgets ++ [widget]) e w := by
      intro e w ho x hx
      obtain ⟨w2, hw2, hw, hmem⟩ := ho x hx
      exact ⟨w2, List.mem_append_left _ hw2, hw, hmem⟩
    exact ⟨hmono _ _ ih.1, hmono _ _ ih.2.1, hmono _ _ ih.2.2⟩
  | unregister env m widget _ ih =>
    obtain ⟨hw, h1, h2, h3⟩ := unregisterWidget_slots env m widget
    have hkeep : ∀ e w, ¬ w = some widget → slotOwned env m.mWidgets e w →
        slotOwned env (m.mWidgets.erase widget) e w := by
      intro e w hne ho x hx
      obtain ⟨w2, hw2, hw, hmem⟩ := ho x hx
      refine ⟨w2, ?_, hw, hmem⟩
      have hxw : w2 ≠ widget := by
        intro hxw
        rw [hw, hxw] at hne
        exact hne rfl
      exact (List.mem_erase_of_ne hxw).mpr hw2
    unfold GUIManager.slotsSatisfy
    rw [hw]
    exact ⟨slot_of_cleared_or_kept _ _ (slotOwned_none _ _) _ _ _ _ _ h1 ih.1 (hkeep _ _),
      slot_of_cleared_or_kept _ _ (slotOwned_none _ _) _ _ _ _ _ h2 ih.2.1 (hkeep _ _),
      slot_of_cleared_or_kept _ _ (slotOwned_none _ _) _ _ _ _ _ h3 ih.2.2 (hkeep _ _)⟩
  | buttonDown env m event next calls _ heq ih =>
    have := onButtonDown_slots _ (slotOwned_none env m.mWidgets) env m event next calls heq ih
    rw [this.2]
    exact this.1
  | buttonUp env m event next calls _ heq ih =>
    have := onButtonUp_slots _ (slotOwned_none env m.mWidgets) env m event next calls heq ih
    rw [this.2]
    exact this.1
  | mouseMoved env m event next calls _ heq ih =>
    have := onMouseMoved_slots _ env m event next calls heq ih
      (findTopMost_slotOwned env m.mWidgets event.screenPos)
    rw [this.2]
    exact this.1
  | textInput env m event next calls _ heq ih =>
    rw [onTextInput_state env m event next calls heq]
    exact ih

/-- C19: in every reachable pair of a scene and a manager state, a focused element that is not
null is one of the elements of the widget recorded as its focus owner, and the same holds for
the hovered element and its widget and for the active element and its widget. -/
theorem slot_element_in_slot_widget (env : GUIEnv) (m : GUIManager)
    (hreach : SceneReachable env m) :
    (∀ e, m.mKeyboardFocusElement = some e →
      ∃ w, m.mKeyboardFocusWidget = some w ∧ e ∈ env.getElements w) ∧
    (∀ e, m.mMouseOverElement = some e →
      ∃ w, m.mMouseOverWidget = some w ∧ e ∈ env.getElements w) ∧
    (∀ e, m.mActiveElement = some e →
      ∃ w, m.mActiveWidget = some w ∧ e ∈ env.getElements w) := by
  obtain ⟨h1, h2, h3⟩ := sceneReachable_slots_owned env m hreach
  refine ⟨fun e he => ?_, fun e he => ?_, fun e he => ?_⟩
  · obtain ⟨w, _, hw, hmem⟩ := h3 e he
    exact ⟨w, hw, hmem⟩
  · obtain ⟨w, _, hw, hmem⟩ := h1 e he
    exact ⟨w, hw, hmem⟩
  · obtain ⟨w, _, hw, hmem⟩ := h2 e he
    exact ⟨w, hw, hmem⟩

/-! ## The render cache as a map -/

theorem findRenderData_setRenderData (cache : List (Nat × GUIRenderData)) (t : Nat)
    (rd : GUIRenderData) (t2 : Nat) :
    findRenderData (setRenderData cache t rd) t2 =
      if t2 = t then some rd else findRenderData cache t2 := by
  induction cache with
  | nil =>
    by_cases h : t2 = t
    · simp [setRenderData, findRenderData, h]
    · have : ¬ t = t2 := fun h2 => h h2.symm
      simp [setRenderData, findRenderData, h, this]
  | cons entry rest ih =>
    unfold setRenderData
    by_cases he : entry.1 = t
    · simp only [he, if_true, findRenderData]
      by_cases h : t2 = t
      · simp [h]
      · have : ¬ t = t2 := fun h2 => h h2.symm
        simp [h, this]
    · simp only [he, if_false, findRenderData]
      by_cases h2 : entry.1 = t2
      · have : ¬ t2 = t := by rw [← h2]; exact he
        simp [h2, this]
      · simp only [h2, if_false]
        exact ih

theorem findRenderData_eraseRenderData (cache : List (Nat × GUIRenderData)) (t t2 : Nat) :
    findRenderData (eraseRenderData cache t) t2 =
      if t2 = t then none else findRenderData cache t2 := by
  induction cache with
  | nil => simp [eraseRenderData, findRenderData]
  | cons entry rest ih =>
    unfold eraseRenderData at ih ⊢
    by_cases he : entry.1 = t
    · simp only [List.filter_cons, he, ne_eq, not_true_eq_false, decide_False,
        Bool.false_eq_true, if_false, findRenderData]
      rw [ih]
      by_cases h : t2 = t
      · simp [h]
      · have : ¬ t = t2 := fun h2 => h h2.symm
        simp [h, this]
    · simp only [List.filter_cons, he, ne_eq, not_false_eq_true, decide_True, if_true,
        findRenderData]
      by_cases h2 : entry.1 = t2
      · have : ¬ t2 = t := by rw [← h2]; exact he
        simp [h2, this]
      · simp only [h2, if_false]
        exact ih

theorem findRenderData_eq_none_iff (cache : List (Nat × GUIRenderData)) (t : Nat) :
    findRenderData cache t = none ↔ t ∉ cache.map Prod.fst := by
  induction cache with
  | nil => simp [findRenderData]
  | cons entry rest ih =>
    unfold findRenderData
    by_cases he : entry.1 = t
    · simp [he]
    · have : ¬ t = entry.1 := fun h => he h.symm
      simp only [he, if_false, ih, List.map_cons, List.mem_cons, not_or, this,
        not_false_eq_true, true_and]

theorem keys_setRenderData (cache : List (Nat × GUIRenderData)) (t : Nat)
    (rd : GUIRenderData) :
    (setRenderData cache t rd).map Prod.fst =
      if t ∈ cache.map Prod.fst then cache.map Prod.fst else cache.map Prod.fst ++ [t] := by
  induction cache with
  | nil => simp [setRenderData]
  | cons entry rest ih =>
    unfold setRenderData
    by_cases he : entry.1 = t
    · simp [he]
    · have : ¬ t = entry.1 := fun h => he h.symm
      simp only [he, if_false, List.map_cons, ih, List.mem_cons, this, false_or]
      split_ifs <;> simp

theorem keys_nodup_setRenderData (cache : List (Nat × GUIRenderData)) (t : Nat)
    (rd : GUIRenderData) (h : (cache.map Prod.fst).Nodup) :
    ((setRenderData cache t rd).map Prod.fst).Nodup := by
  rw [keys_setRenderData]
  split_ifs with hmem
  · exact h
  · rw [List.nodup_append]
    refine ⟨h, by simp, ?_⟩
    intro a ha hb
    simp only [List.mem_singleton] at hb
    subst hb
    exact hmem ha

theorem keys_nodup_eraseRenderData (cache : List (Nat × GUIRenderData)) (t : Nat)
    (h : (cache.map Prod.fst).Nodup) : ((eraseRenderData cache t).map Prod.fst).Nodup :=
  h.sublist (List.Sublist.map _ (List.filter_sublist _))

theorem findRenderData_of_mem (cache : List (Nat × GUIRenderData))
    (h : (cache.map Prod.fst).Nodup) (t : Nat) (rd : GUIRenderData) (hmem : (t, rd) ∈ cache) :
    findRenderData cache t = some rd := by
  induction cache with
  | nil => simp at hmem
  | cons entry rest ih =>
    simp only [List.map_cons, List.nodup_cons] at h
    unfold findRenderData
    rcases List.mem_cons.mp hmem with heq | hrest
    · rw [← heq]
      simp
    · have hne : entry.1 ≠ t := by
        intro he
        apply h.1
        rw [he]
        exact List.mem_map_of_mem Prod.fst hrest
      simp only [hne, if_false]
      exact ih h.2 hrest

theorem mem_of_findRenderData (cache : List (Nat × GUIRenderData)) (t : Nat)
    (rd : GUIRenderData) (h : findRenderData cache t = some rd) : (t, rd) ∈ cache := by
  induction cache with
  | nil => simp [findRenderData] at h
  | cons entry rest ih =>
    unfold findRenderData at h
    split_ifs at h with he
    · simp only [Option.some.injEq] at h
      rw [← he, ← h]
      exact List.mem_cons_self _ _
    · exact List.mem_cons_of_mem _ (ih h)

theorem filter_erase_of_pos (p : Nat → Bool) (w : Nat) (hp : p w = true) :
    ∀ ws : List Nat, (ws.erase w).filter p = (ws.filter p).erase w
  | [] => rfl
  | x :: ws => by
    by_cases hx : x = w
    · subst hx
      simp [hp]
    · have hbeq : ¬ (x == w) = true := by simpa using hx
      rw [List.erase_cons_tail hbeq]
      by_cases hpx : p x = true
      · simp only [List.filter_cons, hpx, if_true]
        rw [List.erase_cons_tail hbeq, filter_erase_of_pos p w hp ws]
      · simp only [List.filter_cons, hpx, Bool.false_eq_true, if_false]
        exact filter_erase_of_pos p w hp ws

theorem filter_erase_of_neg (p : Nat → Bool) (w : Nat) (hp : p w = false) :
    ∀ ws : List Nat, (ws.erase w).filter p = ws.filter p
  | [] => rfl
  | x :: ws => by
    by_cases hx : x = w
    · subst hx
      simp [hp]
    · have hbeq : ¬ (x == w) = true := by simpa using hx
      rw [List.erase_cons_tail hbeq]
      simp only [List.filter_cons]
      rw [filter_erase_of_neg p w hp ws]

/-! ## The render cache under registration -/

theorem clearWidgetSlots_cache (m : GUIManager) (widget : Nat) :
    (clearWidgetSlots m widget).mCachedGUIData = m.mCachedGUIData ∧
      (clearWidgetSlots m widget).mWidgets = m.mWidgets := by
  unfold clearWidgetSlots
  simp only
  split_ifs <;> exact ⟨rfl, rfl⟩

theorem unregisterWidget_cache (env : GUIEnv) (m : GUIManager) (widget : Nat) :
    (unregisterWidget env m widget).mWidgets = m.mWidgets.erase widget ∧
    (unregisterWidget env m widget).mCachedGUIData =
      if (((findRenderData m.mCachedGUIData (env.getTarget widget)).getD
          GUIRenderData.created).widgets.erase widget).length = 0 then
        eraseRenderData m.mCachedGUIData (env.getTarget widget)
      else
        setRenderData m.mCachedGUIData (env.getTarget widget)
          { (findRenderData m.mCachedGUIData (env.getTarget widget)).getD
              GUIRenderData.created with
            widgets := ((findRenderData m.mCachedGUIData (env.getTarget widget)).getD
              GUIRenderData.created).widgets.erase widget
            isDirty := true } := by
  unfold unregisterWidget
  simp only
  split_ifs
  · exact ⟨(clearWidgetSlots_cache _ widget).2, rfl⟩
  · exact ⟨(clearWidgetSlots_cache _ widget).2, rfl⟩

/-- The invariant of the render cache under registration and unregistration: the keys of the
map are distinct, and the entry of a render target holds the registered widgets of the target,
in their order, and exists only if there is one. -/
theorem registerWidget_cache_invariant (env : GUIEnv) (m : GUIManager) (widget : Nat)
    (hkeys : (m.mCachedGUIData.map Prod.fst).Nodup)
    (hinv : ∀ t, (findRenderData m.mCachedGUIData t).map GUIRenderData.widgets =
      if m.mWidgets.filter (fun w => decide (env.getTarget w = t)) = [] then none
      else some (m.mWidgets.filter fun w => decide (env.getTarget w = t))) :
    ((registerWidget env m widget).mCachedGUIData.map Prod.fst).Nodup ∧
      ∀ t, (findRenderData (registerWidget env m widget).mCachedGUIData t).map
          GUIRenderData.widgets =
        if (registerWidget env m widget).mWidgets.filter
            (fun w => decide (env.getTarget w = t)) = [] then none
        else some ((registerWidget env m widget).mWidgets.filter
          fun w => decide (env.getTarget w = t)) := by
  refine ⟨keys_nodup_setRenderData _ _ _ hkeys, ?_⟩
  intro t
  simp only [registerWidget, findRenderData_setRenderData, List.filter_append]
  by_cases ht : t = env.getTarget widget
  · subst ht
    have h := hinv (env.getTarget widget)
    simp only [if_true, Option.map_some', List.filter_cons, decide_True, List.filter_nil]
    cases hfind : findRenderData m.mCachedGUIData (env.getTarget widget) with
    | none =>
      rw [hfind] at h
      simp only [Option.map_none'] at h
      split_ifs at h with hempty
      simp [hempty, GUIRenderData.created]
    | some rd =>
      rw [hfind] at h
      simp only [Option.map_some'] at h
      split_ifs at h with hempty
      simp only [Option.some.injEq] at h
      simp [h]
  · have hne : ¬ env.getTarget widget = t := fun h => ht h.symm
    simp only [ht, if_false, List.filter_cons, hne, decide_False, Bool.false_eq_true,
      List.filter_nil, List.append_nil]
    exact hinv t

theorem unregisterWidget_cache_invariant (env : GUIEnv) (m : GUIManager) (widget : Nat)
    (hkeys : (m.mCachedGUIData.map Prod.fst).Nodup)
    (hinv : ∀ t, (findRenderData m.mCachedGUIData t).map GUIRenderData.widgets =
      if m.mWidgets.filter (fun w => decide (env.getTarget w = t)) = [] then none
      else some (m.mWidgets.filter fun w => decide (env.getTarget w = t))) :
    ((unregisterWidget env m widget).mCachedGUIData.map Prod.fst).Nodup ∧
      ∀ t, (findRenderData (unregisterWidget env m widget).mCachedGUIData t).map
          GUIRenderData.widgets =
        if (unregisterWidget env m widget).mWidgets.filter
            (fun w => decide (env.getTarget w = t)) = [] then none
        else some ((unregisterWidget env m widget).mWidgets.filter
          fun w => decide (env.getTarget w = t)) := by
  obtain ⟨hw, hc⟩ := unregisterWidget_cache env m widget
  have hold : ((findRenderData m.mCachedGUIData (env.getTarget widget)).getD
      GUIRenderData.created).widgets =
      m.mWidgets.filter fun w => decide (env.getTarget w = env.getTarget widget) := by
    have h := hinv (env.getTarget widget)
    cases hfind : findRenderData m.mCachedGUIData (env.getTarget widget) with
    | none =>
      rw [hfind] at h
      simp only [Option.map_none'] at h
      split_ifs at h with hempty
      simp [hempty, GUIRenderData.created]
    | some rd =>
      rw [hfind] at h
      simp only [Option.map_some'] at h
      split_ifs at h with hempty
      simp only [Option.some.injEq] at h
      simp [h]
  have hnew : (m.mWidgets.erase widget).filter
      (fun w => decide (env.getTarget w = env.getTarget widget)) =
      ((findRenderData m.mCachedGUIData (env.getTarget widget)).getD
        GUIRenderData.created).widgets.erase widget := by
    rw [hold, filter_erase_of_pos _ widget (by simp)]
  rw [hw, hc]
  constructor
  · split_ifs
    · exact keys_nodup_eraseRenderData _ _ hkeys
    · exact keys_nodup_setRenderData _ _ _ hkeys
  · intro t
    by_cases ht : t = env.getTarget widget
    · subst ht
      rw [hnew]
      split_ifs with hlen hempty hempty
      · simp [findRenderData_eraseRenderData]
      · exact absurd (List.eq_nil_of_length_eq_zero hlen) hempty
      · rw [hempty] at hlen
        exact absurd rfl hlen
      · simp [findRenderData_setRenderData]
    · have hfilter : (m.mWidgets.erase widget).filter (fun w => decide (env.getTarget w = t)) =
          m.mWidgets.filter fun w => decide (env.getTarget w = t) := by
        apply filter_erase_of_neg
        simpa using fun h => ht h.symm
      rw [hfilter, ← hinv t]
      split_ifs
      · simp [findRenderData_eraseRenderData, ht]
      · simp [findRenderData_setRenderData, ht]

theorem applyWidgetCalls_snoc (env : GUIEnv) (calls : List WidgetCall) (call : WidgetCall) :
    applyWidgetCalls env (calls ++ [call]) =
      match call with
      | WidgetCall.register widget => registerWidget env (applyWidgetCalls env calls) widget
      | WidgetCall.unregister widget =>
        unregisterWidget env (applyWidgetCalls env calls) widget := by
  cases call <;> simp [applyWidgetCalls, List.foldl_append]

theorem applyWidgetCalls_cache_invariant (env : GUIEnv) (calls : List WidgetCall) :
    ((applyWidgetCalls env calls).mCachedGUIData.map Prod.fst).Nodup ∧
      ∀ t, (findRenderData (applyWidgetCalls env calls).mCachedGUIData t).map
          GUIRenderData.widgets =
        if (applyWidgetCalls env calls).mWidgets.filter
            (fun w => decide (env.getTarget w = t)) = [] then none
        else some ((applyWidgetCalls env calls).mWidgets.filter
          fun w => decide (env.getTarget w = t)) := by
  induction calls using List.reverseRecOn with
  | nil => simp [applyWidgetCalls, GUIManager.initial, findRenderData]
  | append_singleton calls call ih =>
    rw [applyWidgetCalls_snoc]
    cases call with
    | register widget => exact registerWidget_cache_invariant env _ widget ih.1 ih.2
    | unregister widget => exact unregisterWidget_cache_invariant env _ widget ih.1 ih.2

/-! ## The life of a render cache entry -/

theorem registeredWidgets_snoc (calls : List WidgetCall) (call : WidgetCall) :
    registeredWidgets (calls ++ [call]) =
      match call with
      | WidgetCall.register widget => registeredWidgets calls ++ [widget]
      | WidgetCall.unregister widget => (registeredWidgets calls).erase widget := by
  cases call <;> simp [registeredWidgets, List.foldl_append]

/-- The registered widgets the manager holds after a sequence of calls are the widgets the
calls leave registered. -/
theorem applyWidgetCalls_mWidgets (env : GUIEnv) (calls : List WidgetCall) :
    (applyWidgetCalls env calls).mWidgets = registeredWidgets calls := by
  induction calls using List.reverseRecOn with
  | nil => rfl
  | append_singleton calls call ih =>
    rw [applyWidgetCalls_snoc, registeredWidgets_snoc]
    cases call with
    | register widget =>
      simp only [registerWidget]
      rw [ih]
    | unregister widget =>
      simp only
      rw [(unregisterWidget_cache env _ widget).1, ih]

/-- The entry of the target of a widget after `registerWidget`, in any state. -/
theorem registerWidget_entry (env : GUIEnv) (m : GUIManager) (widget : Nat) :
    findRenderData (registerWidget env m widget).mCachedGUIData (env.getTarget widget) =
      some
        { (findRenderData m.mCachedGUIData (env.getTarget widget)).getD
            GUIRenderData.created with
          widgets := ((findRenderData m.mCachedGUIData (env.getTarget widget)).getD
            GUIRenderData.created).widgets ++ [widget]
          isDirty := true } := by
  simp only [registerWidget, findRenderData_setRenderData, if_true]

/-- The entry of the target of a widget after `unregisterWidget`, in any state: none, or one
with the dirty flag set. -/
theorem unregisterWidget_entry (env : GUIEnv) (m : GUIManager) (widget : Nat)
    (rd : GUIRenderData)
    (h : findRenderData (unregisterWidget env m widget).mCachedGUIData (env.getTarget widget) =
      some rd) : rd.isDirty = true := by
  rw [(unregisterWidget_cache env m widget).2] at h
  split_ifs at h with hlen
  · simp [findRenderData_eraseRenderData] at h
  · simp only [findRenderData_setRenderData, if_true, Option.some.injEq] at h
    rw [← h]

/-- C20: after any sequence of registerWidget and unregisterWidget calls the manager holds the
widgets the calls leave registered, told from the calls alone; the render cache has at most one
entry per render target, it has an entry for target t exactly when one of these widgets has
target t, and the widget list of that entry is the list of these widgets of target t, in
registration order. In any state, with any dirty flags, registerWidget leaves an entry with the
dirty flag set for the target of the widget, and the entry unregisterWidget leaves for the
target of the widget, if any, has the dirty flag set. -/
theorem render_cache_lifecycle (env : GUIEnv) (calls : List WidgetCall) (t : Nat) :
    (applyWidgetCalls env calls).mWidgets = registeredWidgets calls ∧
    ((applyWidgetCalls env calls).mCachedGUIData.map Prod.fst).Nodup ∧
    ((∃ rd, (t, rd) ∈ (applyWidgetCalls env calls).mCachedGUIData) ↔
      ∃ w ∈ registeredWidgets calls, env.getTarget w = t) ∧
    (∀ rd, (t, rd) ∈ (applyWidgetCalls env calls).mCachedGUIData →
      rd.widgets = (registeredWidgets calls).filter fun w => decide (env.getTarget w = t)) ∧
    (∀ (m : GUIManager) (widget : Nat), ∃ rd,
      findRenderData (registerWidget env m widget).mCachedGUIData (env.getTarget widget) =
        some rd ∧ rd.isDirty = true) ∧
    (∀ (m : GUIManager) (widget : Nat) (rd : GUIRenderData),
      findRenderData (unregisterWidget env m widget).mCachedGUIData (env.getTarget widget) =
        some rd → rd.isDirty = true) ∧
    (∀ widget, ∃ rd,
      (env.getTarget widget, rd) ∈
        (registerWidget env (applyWidgetCalls env calls) widget).mCachedGUIData) ∧
    (∀ widget rd,
      (env.getTarget widget, rd) ∈
        (registerWidget env (applyWidgetCalls env calls) widget).mCachedGUIData →
      rd.isDirty = true) ∧
    (∀ widget rd,
      (env.getTarget widget, rd) ∈
        (unregisterWidget env (applyWidgetCalls env calls) widget).mCachedGUIData →
      rd.isDirty = true) := by
  obtain ⟨hkeys, hinv⟩ := applyWidgetCalls_cache_invariant env calls
  have hreg := applyWidgetCalls_mWidgets env calls
  rw [hreg] at hinv
  have hfind : ∀ rd, (t, rd) ∈ (applyWidgetCalls env calls).mCachedGUIData →
      (registeredWidgets calls).filter (fun w => decide (env.getTarget w = t)) ≠ [] ∧
      rd.widgets = (registeredWidgets calls).filter
        fun w => decide (env.getTarget w = t) := by
    intro rd hmem
    have h := hinv t
    rw [findRenderData_of_mem _ hkeys t rd hmem] at h
    simp only [Option.map_some'] at h
    split_ifs at h with hempty
    simp only [Option.some.injEq] at h
    exact ⟨hempty, h⟩
  refine ⟨hreg, hkeys, ⟨?_, ?_⟩, fun rd hmem => (hfind rd hmem).2, ?_, ?_, ?_, ?_, ?_⟩
  · rintro ⟨rd, hmem⟩
    obtain ⟨w, hw⟩ := List.exists_mem_of_ne_nil _ (hfind rd hmem).1
    rw [List.mem_filter] at hw
    exact ⟨w, hw.1, by simpa using hw.2⟩
  · rintro ⟨w, hw, ht⟩
    have hne : (registeredWidgets calls).filter
        (fun w => decide (env.getTarget w = t)) ≠ [] := by
      intro hnil
      have : w ∈ (registeredWidgets calls).filter
          (fun w => decide (env.getTarget w = t)) := by
        rw [List.mem_filter]
        exact ⟨hw, by simpa using ht⟩
      rw [hnil] at this
      simp at this
    have h := hinv t
    rw [if_neg hne] at h
    cases hf : findRenderData (applyWidgetCalls env calls).mCachedGUIData t with
    | none =>
      rw [hf] at h
      simp at h
    | some rd => exact ⟨rd, mem_of_findRenderData _ t rd hf⟩
  · intro m widget
    exact ⟨_, registerWidget_entry env m widget, rfl⟩
  · intro m widget rd h
    exact unregisterWidget_entry env m widget rd h
  · intro widget
    exact ⟨_, mem_of_findRenderData _ _ _ (registerWidget_entry env _ widget)⟩
  · intro widget rd hmem
    have hk := keys_nodup_setRenderData (applyWidgetCalls env calls).mCachedGUIData
      (env.getTarget widget)
      { (findRenderData (applyWidgetCalls env calls).mCachedGUIData
            (env.getTarget widget)).getD GUIRenderData.created with
        widgets := ((findRenderData (applyWidgetCalls env calls).mCachedGUIData
            (env.getTarget widget)).getD GUIRenderData.created).widgets ++ [widget]
        isDirty := true } hkeys
    have h := findRenderData_of_mem _ hk _ rd hmem
    simp only [findRenderData_setRenderData, if_true, Option.some.injEq] at h
    rw [← h]
  · intro widget rd hmem
    obtain ⟨-, hc⟩ := unregisterWidget_cache env (applyWidgetCalls env calls) widget
    have hk : ((unregisterWidget env (applyWidgetCalls env calls) widget).mCachedGUIData.map
        Prod.fst).Nodup := by
      rw [hc]
      split_ifs
      · exact keys_nodup_eraseRenderData _ _ hkeys
      · exact keys_nodup_setRenderData _ _ _ hkeys
    exact unregisterWidget_entry env _ widget rd (findRenderData_of_mem _ hk _ rd hmem)

/-- C20 (witness): registering and unregistering widget 1 leaves no entry for its target 1;
registering widget 2 at a manager whose entry for target 1 has a cleared dirty flag sets the
flag, and so does unregistering widget 1 from an entry of widgets 1 and 2 with a cleared
flag. -/
theorem render_cache_lifecycle_witness :
    (¬ ∃ rd, (1, rd) ∈ (applyWidgetCalls sampleEnv
        [WidgetCall.register 1, WidgetCall.unregister 1]).mCachedGUIData) ∧
    (∃ rd,
      findRenderData (registerWidget sampleEnv
          { oneWidgetManager with mCachedGUIData := [(1, ⟨[1], false, [], [], []⟩)] }
          2).mCachedGUIData 1 = some rd ∧ rd.isDirty = true) ∧
    (findRenderData (unregisterWidget sampleEnv
        { twoWidgetManager with mCachedGUIData := [(1, ⟨[1, 2], false, [], [], []⟩)] }
        1).mCachedGUIData 1 = some ⟨[2], true, [], [], []⟩) :=
  ⟨fun h => by
      obtain ⟨w, hw, -⟩ := (render_cache_lifecycle sampleEnv
        [WidgetCall.register 1, WidgetCall.unregister 1] 1).2.2.1.mp h
      exact absurd hw (List.not_mem_nil w),
    (render_cache_lifecycle sampleEnv [] 1).2.2.2.2.1
      { oneWidgetManager with mCachedGUIData := [(1, ⟨[1], false, [], [], []⟩)] } 2,
    rfl⟩

/-! ## Sample traces -/

theorem registerWidget_initial_hoverEnv :
    registerWidget hoverEnv GUIManager.initial 1 = oneWidgetManager := rfl

theorem onMouseMoved_oneWidgetManager :
    onMouseMoved hoverEnv oneWidgetManager ⟨⟨5, 5⟩, 0, false⟩ =
      Except.ok (hoveringManager,
        [GUICall.mouseEvent 1 2 (mkMouseEvent hoverEnv
            (GUIMouseEventData.MouseOver (some 2) ⟨5, 5⟩)),
          GUICall.mouseEvent 1 2 (mkMouseEvent hoverEnv
            (GUIMouseEventData.MouseMove (some 2) ⟨5, 5⟩))]) := rfl

theorem onButtonDown_hoveringManager :
    ∃ calls, onButtonDown hoverEnv hoveringManager ⟨ButtonCode.mouseLeft, false⟩ =
      Except.ok (draggingManager, calls) := ⟨_, rfl⟩

theorem reachable_hoveringManager : Reachable hoveringManager :=
  Reachable.mouseMoved hoverEnv oneWidgetManager ⟨⟨5, 5⟩, 0, false⟩ hoveringManager _
    (Reachable.register hoverEnv GUIManager.initial 1 Reachable.initial)
    onMouseMoved_oneWidgetManager

theorem reachable_draggingManager : Reachable draggingManager := by
  obtain ⟨calls, h⟩ := onButtonDown_hoveringManager
  exact Reachable.buttonDown hoverEnv hoveringManager ⟨ButtonCode.mouseLeft, false⟩
    draggingManager calls reachable_hoveringManager h

theorem sceneReachable_hoveringManager : SceneReachable hoverEnv hoveringManager :=
  SceneReachable.mouseMoved hoverEnv oneWidgetManager ⟨⟨5, 5⟩, 0, false⟩ hoveringManager _
    (SceneReachable.register hoverEnv GUIManager.initial 1 (SceneReachable.initial hoverEnv))
    onMouseMoved_oneWidgetManager

/-! ## Instances of the router claims -/

/-- C13 (witness): the statement for a consumed left-button event and a consumed move to
(5, 5) at the manager hovering element 2 of widget 1. -/
theorem consumed_event_ignored_witness :
    onButtonDown hoverEnv hoveringManager ⟨ButtonCode.mouseLeft, true⟩ =
        Except.ok (hoveringManager, []) ∧
      onButtonUp hoverEnv hoveringManager ⟨ButtonCode.mouseLeft, true⟩ =
        Except.ok (hoveringManager, []) ∧
      onMouseMoved hoverEnv hoveringManager ⟨⟨7, 7⟩, 0, true⟩ =
        Except.ok (hoveringManager, []) :=
  consumed_event_ignored hoverEnv hoveringManager ⟨ButtonCode.mouseLeft, true⟩
    ⟨⟨7, 7⟩, 0, true⟩ rfl rfl

/-- C14 (failing input): with element 2 of widget 1 focused and no control or alt key down,
`onTextInput` for a text-input event that is already consumed still sends the text-input key
event to element 2 through widget 1, where the consumed mouse move and button events at the
same manager make no call. -/
theorem onTextInput_consumed_event_delivered :
    ctrlDown hoverEnv = false ∧ altDown hoverEnv = false ∧
      onTextInput hoverEnv focusedManager ⟨65, true⟩ =
        Except.ok (focusedManager,
          [GUICall.keyEvent 1 2 (mkKeyEvent hoverEnv (GUIKeyEventData.TextInput 65))]) ∧
      onMouseMoved hoverEnv focusedManager ⟨⟨5, 5⟩, 0, true⟩ =
        Except.ok (focusedManager, []) ∧
      onButtonDown hoverEnv focusedManager ⟨ButtonCode.mouseLeft, true⟩ =
        Except.ok (focusedManager, []) :=
  ⟨rfl, rfl, rfl, rfl, rfl⟩

/-- C15 (witness): the statement at the manager with element 2 of widget 1 active for the left
button and element 1 hovered. -/
theorem buttonUp_away_from_active_witness :
    onButtonUp hoverEnv { draggingManager with mMouseOverElement := some 1 }
        ⟨GUIMouseButton.Left.toButtonCode, false⟩ =
      Except.ok
        ({ draggingManager with
            mMouseOverElement := some 1
            mActiveElement := none
            mActiveWidget := none
            mActiveMouseButton := GUIMouseButton.Left },
          [GUICall.mouseEvent 1 2 (mkMouseEvent hoverEnv
            (GUIMouseEventData.MouseDragEnd (some 1)
              (getWidgetRelativePos hoverEnv 1 hoverEnv.getMousePosition)))]) ∧
      ∀ other : GUIMouseButton, other ≠ GUIMouseButton.Left →
        onButtonUp hoverEnv { draggingManager with mMouseOverElement := some 1 }
          ⟨other.toButtonCode, false⟩ =
        Except.ok ({ draggingManager with mMouseOverElement := some 1 }, []) :=
  buttonUp_away_from_active hoverEnv { draggingManager with mMouseOverElement := some 1 } 2 1
    rfl rfl (by decide)

/-- C16 (counterexample): the manager in which element 2 of widget 1 is hovered and active, with
the pointer last seen at (5, 5), is reachable, and an unconsumed pointer move to (5, 5) handled
in it makes no call at all, so no `MouseDrag` reaches the active element. -/
theorem onMouseMoved_no_drag_when_still :
    Reachable draggingManager ∧ draggingManager.mActiveElement = some 2 ∧
      onMouseMoved hoverEnv draggingManager ⟨⟨5, 5⟩, 0, false⟩ =
        Except.ok (draggingManager, []) :=
  ⟨reachable_draggingManager, rfl, rfl⟩

/-- C16 (amended, witness): the statement for a move to (6, 5) while element 2 of widget 1 is
active and the pointer was last seen at (5, 5). -/
theorem onMouseMoved_drag_when_moved_witness :
    ∃ next calls, onMouseMoved hoverEnv draggingManager ⟨⟨6, 5⟩, 0, false⟩ =
        Except.ok (next, calls) ∧
      calls.filter GUICall.isMouseDrag =
        [GUICall.mouseEvent 1 2 (mkMouseEvent hoverEnv (GUIMouseEventData.MouseDrag
          (some 2) ⟨6, 5⟩ ⟨1, 0⟩))] :=
  onMouseMoved_drag_when_moved hoverEnv draggingManager ⟨⟨6, 5⟩, 0, false⟩ 2 1 rfl rfl rfl
    (by decide)

/-- C17 (witness): for the move to (5, 5) at the manager with widget 1 registered and nothing
hovered, the calls start with the `MouseOver` to element 2 and the hover slot holds element 2
afterwards. -/
theorem onMouseMoved_hover_transition_witness :
    ∃ next moves,
      onMouseMoved hoverEnv oneWidgetManager ⟨⟨5, 5⟩, 0, false⟩ =
        Except.ok (next,
          GUICall.mouseEvent 1 2 (mkMouseEvent hoverEnv
            (GUIMouseEventData.MouseOver (some 2) ⟨5, 5⟩)) :: moves) ∧
      next.mMouseOverElement = some 2 ∧ next.mMouseOverWidget = some 1 ∧
      ∀ c ∈ moves, c.isMouseOut = false ∧ c.isMouseOver = false := by
  obtain ⟨next, out, over, moves, hcalls, helement, hwidget, hmoves, hout, -, -, hover⟩ :=
    onMouseMoved_hover_transition hoverEnv oneWidgetManager ⟨⟨5, 5⟩, 0, false⟩ rfl
      (by decide) (by decide)
  have h1 : out = [] := hout rfl
  have h2 := hover 2 1 rfl rfl
  rw [h1, h2] at hcalls
  exact ⟨next, moves, hcalls, helement, hwidget, hmoves⟩

/-- C18 (witness): the statement at the manager with element 2 of widget 1 focused, no
control or alt key down. -/
theorem onTextInput_delivery_witness :
    onTextInput hoverEnv focusedManager ⟨65, false⟩ =
      Except.ok (focusedManager,
        [GUICall.keyEvent 1 2 (mkKeyEvent hoverEnv (GUIKeyEventData.TextInput 65))]) :=
  onTextInput_delivery hoverEnv focusedManager ⟨65, false⟩ (by decide)

/-- C19 (witness): the statement at the manager reached by registering widget 1 and moving
the pointer to (5, 5), where element 2 of widget 1 is hovered. -/
theorem slot_element_in_slot_widget_witness :
    SceneReachable hoverEnv hoveringManager ∧
      ∃ w, hoveringManager.mMouseOverWidget = some w ∧ 2 ∈ hoverEnv.getElements w :=
  ⟨sceneReachable_hoveringManager,
    (slot_element_in_slot_widget hoverEnv hoveringManager
      sceneReachable_hoveringManager).2.1 2 rfl⟩

/-! ## Pointer button down -/

/-- An unconsumed pointer `ButtonDown` for a GUI mouse button: the stuck-button reset, the
mouse-down part and the focus part, in this order. -/
theorem onButtonDown_pointer (env : GUIEnv) (m : GUIManager) (b : GUIMouseButton)
    (pressed : GUIManager) (mouseCalls : List GUICall)
    (hpress : acceptMouseDown env (clearStuckActive m b) b = Except.ok (pressed, mouseCalls)) :
    onButtonDown env m ⟨b.toButtonCode, false⟩ =
      Except.ok ((transferFocus env pressed).1, mouseCalls ++ (transferFocus env pressed).2) := by
  simp [onButtonDown, isKeyboard_toButtonCode, isMouse_toButtonCode,
    buttonToMouseButton_toButtonCode, hpress]

/-- The mouse-down part succeeds when a hovered element has its widget, and leaves the hover
and focus slots as they are. -/
theorem acceptMouseDown_ok (env : GUIEnv) (m : GUIManager) (b : GUIMouseButton)
    (hover : m.mMouseOverElement ≠ none → m.mMouseOverWidget ≠ none) :
    ∃ pressed mouseCalls, acceptMouseDown env m b = Except.ok (pressed, mouseCalls) ∧
      pressed.mMouseOverElement = m.mMouseOverElement ∧
      pressed.mMouseOverWidget = m.mMouseOverWidget ∧
      pressed.mKeyboardFocusElement = m.mKeyboardFocusElement ∧
      pressed.mKeyboardFocusWidget = m.mKeyboardFocusWidget ∧
      mouseCalls.filter GUICall.isSetFocus = [] := by
  rcases m with ⟨ws, cache, sep, oe, ow, ae, aw, ab, fe, fw, lp⟩
  simp only at hover
  cases ae with
  | some a =>
    exact ⟨⟨ws, cache, sep, oe, ow, some a, aw, ab, fe, fw, lp⟩, [],
      by simp [acceptMouseDown], rfl, rfl, rfl, rfl, rfl⟩
  | none =>
    cases oe with
    | none =>
      exact ⟨⟨ws, cache, sep, none, ow, none, aw, ab, fe, fw, lp⟩, [],
        by simp [acceptMouseDown], rfl, rfl, rfl, rfl, rfl⟩
    | some o =>
      cases ow with
      | none => simp at hover
      | some w =>
        exact ⟨⟨ws, cache, sep, some o, some w, some o, some w, b, fe, fw, lp⟩,
          [GUICall.mouseEvent w o (mkMouseEvent env (GUIMouseEventData.MouseDown (some o)
              (getWidgetRelativePos env w env.getMousePosition) b)),
            GUICall.mouseEvent w o (mkMouseEvent env (GUIMouseEventData.MouseDragStart (some o)
              (getWidgetRelativePos env w env.getMousePosition)))],
          by simp [acceptMouseDown, deref], rfl, rfl, rfl, rfl, rfl⟩

theorem clearStuckActive_frame (m : GUIManager) (b : GUIMouseButton) :
    (clearStuckActive m b).mMouseOverElement = m.mMouseOverElement ∧
      (clearStuckActive m b).mMouseOverWidget = m.mMouseOverWidget ∧
      (clearStuckActive m b).mKeyboardFocusElement = m.mKeyboardFocusElement ∧
      (clearStuckActive m b).mKeyboardFocusWidget = m.mKeyboardFocusWidget := by
  unfold clearStuckActive
  split_ifs <;> exact ⟨rfl, rfl, rfl, rfl⟩

/-- The focus part of `onButtonDown`, by cases on the hovered element. -/
theorem transferFocus_spec (env : GUIEnv) (m : GUIManager) :
    (∀ H, m.mMouseOverElement = some H → env.acceptsKeyboardFocus H = true →
      (transferFocus env m).1.mKeyboardFocusElement = some H ∧
      (transferFocus env m).1.mKeyboardFocusWidget = m.mMouseOverWidget ∧
      (transferFocus env m).2 =
        ((m.mKeyboardFocusElement.toList.filter fun F => decide (F ≠ H)).map
          fun F => GUICall.setFocus F false) ++ [GUICall.setFocus H true]) ∧
    ((m.mMouseOverElement = none ∨
        ∃ H, m.mMouseOverElement = some H ∧ env.acceptsKeyboardFocus H = false) →
      transferFocus env m = (m, [])) := by
  rcases m with ⟨ws, cache, sep, oe, ow, ae, aw, ab, fe, fw, lp⟩
  constructor
  · intro H hH hacc
    simp only at hH
    subst hH
    cases fe with
    | none => simp [transferFocus, hacc]
    | some F =>
      by_cases hne : H = F
      · subst hne
        simp [transferFocus, hacc]
      · have hne2 : ¬ F = H := fun h => hne h.symm
        simp [transferFocus, hacc, hne, hne2]
  · rintro (h | ⟨H, hH, hacc⟩)
    · simp only at h
      subst h
      rfl
    · simp only at hH
      subst hH
      simp [transferFocus, hacc]

/-- C21: `buttonToMouseButton` maps the left, middle and right mouse button codes to `Left`,
`Middle` and `Right`, and fails with the invalid-parameters error for every other code; an
unconsumed `ButtonDown` or `ButtonUp` of the mouse with such a code fails with this error. -/
theorem buttonToMouseButton_other_code_fails (code : ButtonCode)
    (hother : code ≠ ButtonCode.mouseLeft ∧ code ≠ ButtonCode.mouseMiddle ∧
      code ≠ ButtonCode.mouseRight) :
    buttonToMouseButton ButtonCode.mouseLeft = Except.ok GUIMouseButton.Left ∧
    buttonToMouseButton ButtonCode.mouseMiddle = Except.ok GUIMouseButton.Middle ∧
    buttonToMouseButton ButtonCode.mouseRight = Except.ok GUIMouseButton.Right ∧
    buttonToMouseButton code = Except.error GUIError.invalidParameters ∧
    ∀ (env : GUIEnv) (m : GUIManager), ButtonEvent.isMouse ⟨code, false⟩ = true →
      onButtonDown env m ⟨code, false⟩ = Except.error GUIError.invalidParameters ∧
      onButtonUp env m ⟨code, false⟩ = Except.error GUIError.invalidParameters := by
  obtain ⟨h1, h2, h3⟩ := hother
  have hfail : buttonToMouseButton code = Except.error GUIError.invalidParameters := by
    simp [buttonToMouseButton, h1, h2, h3]
  refine ⟨rfl, rfl, rfl, hfail, ?_⟩
  intro env m hmouse
  have hkey : ButtonEvent.isKeyboard ⟨code, false⟩ = false := by
    cases code <;> simp_all [ButtonEvent.isMouse, ButtonEvent.isKeyboard]
  constructor
  · simp [onButtonDown, hkey, hmouse, hfail]
  · simp [onButtonUp, hkey, hmouse, hfail]

/-- C21 (witness): the statement for the fourth mouse button at the manager with element 2 of
widget 1 hovered and active. -/
theorem buttonToMouseButton_other_code_fails_witness :
    onButtonDown hoverEnv draggingManager ⟨ButtonCode.mouseOther 3, false⟩ =
        Except.error GUIError.invalidParameters ∧
      onButtonUp hoverEnv draggingManager ⟨ButtonCode.mouseOther 3, false⟩ =
        Except.error GUIError.invalidParameters :=
  (buttonToMouseButton_other_code_fails (ButtonCode.mouseOther 3)
    (by decide)).2.2.2.2 hoverEnv draggingManager rfl

/-- C23: with an element active for button `b`, an unconsumed pointer `ButtonDown(b)` succeeds
and leaves the hovered element active: with nothing hovered no mouse event is delivered, the
active widget is null and the active button `Left`; with `H` of widget `W` hovered the mouse
events delivered are `MouseDown` and `DragStart` to `H` through `W`, in this order, the active
widget is `W` and the active button `b`. An unconsumed pointer `ButtonDown` of another button
succeeds, delivers no mouse event and leaves the active element, widget and button as they
are. -/
theorem buttonDown_stuck_button (env : GUIEnv) (m : GUIManager) (A : Nat)
    (hactive : m.mActiveElement = some A)
    (hover : m.mMouseOverElement ≠ none → m.mMouseOverWidget ≠ none) :
    (∃ next calls,
      onButtonDown env m ⟨m.mActiveMouseButton.toButtonCode, false⟩ =
        Except.ok (next, calls) ∧
      next.mActiveElement = m.mMouseOverElement ∧
      (m.mMouseOverElement = none →
        calls.filter GUICall.isMouseEvent = [] ∧ next.mActiveWidget = none ∧
          next.mActiveMouseButton = GUIMouseButton.Left) ∧
      (∀ H W, m.mMouseOverElement = some H → m.mMouseOverWidget = some W →
        calls.filter GUICall.isMouseEvent =
          [GUICall.mouseEvent W H (mkMouseEvent env (GUIMouseEventData.MouseDown (some H)
              (getWidgetRelativePos env W env.getMousePosition) m.mActiveMouseButton)),
            GUICall.mouseEvent W H (mkMouseEvent env (GUIMouseEventData.MouseDragStart (some H)
              (getWidgetRelativePos env W env.getMousePosition)))] ∧
          next.mActiveWidget = some W ∧
          next.mActiveMouseButton = m.mActiveMouseButton)) ∧
    ∀ other : GUIMouseButton, other ≠ m.mActiveMouseButton →
      ∃ next calls,
        onButtonDown env m ⟨other.toButtonCode, false⟩ = Except.ok (next, calls) ∧
        calls.filter GUICall.isMouseEvent = [] ∧
        next.mActiveElement = m.mActiveElement ∧ next.mActiveWidget = m.mActiveWidget ∧
        next.mActiveMouseButton = m.mActiveMouseButton := by
  rcases m with ⟨ws, cache, sep, oe, ow, ae, aw, ab, fe, fw, lp⟩
  simp only at hactive hover
  subst hactive
  constructor
  · cases oe with
    | none =>
      have hpress : acceptMouseDown env
          (clearStuckActive ⟨ws, cache, sep, none, ow, some A, aw, ab, fe, fw, lp⟩ ab) ab =
          Except.ok (⟨ws, cache, sep, none, ow, none, none, GUIMouseButton.Left, fe, fw, lp⟩,
            []) := by
        simp [clearStuckActive, acceptMouseDown]
      obtain ⟨focusE, focusW, hstate⟩ := transferFocus_state env
        ⟨ws, cache, sep, none, ow, none, none, GUIMouseButton.Left, fe, fw, lp⟩
      refine ⟨_, _, onButtonDown_pointer env _ ab _ _ hpress, ?_, ?_, ?_⟩
      · rw [hstate]
      · intro _
        refine ⟨?_, ?_, ?_⟩
        · simp [filter_isMouseEvent_transferFocus]
        · rw [hstate]
        · rw [hstate]
      · intro H W hH
        simp at hH
    | some H =>
      cases ow with
      | none => simp at hover
      | some W =>
        have hpress : acceptMouseDown env
            (clearStuckActive ⟨ws, cache, sep, some H, some W, some A, aw, ab, fe, fw, lp⟩ ab)
            ab =
            Except.ok (⟨ws, cache, sep, some H, some W, some H, some W, ab, fe, fw, lp⟩,
              [GUICall.mouseEvent W H (mkMouseEvent env (GUIMouseEventData.MouseDown (some H)
                  (getWidgetRelativePos env W env.getMousePosition) ab)),
                GUICall.mouseEvent W H (mkMouseEvent env (GUIMouseEventData.MouseDragStart
                  (some H) (getWidgetRelativePos env W env.getMousePosition)))]) := by
          simp [clearStuckActive, acceptMouseDown, deref]
        obtain ⟨focusE, focusW, hstate⟩ := transferFocus_state env
          ⟨ws, cache, sep, some H, some W, some H, some W, ab, fe, fw, lp⟩
        refine ⟨_, _, onButtonDown_pointer env _ ab _ _ hpress, ?_, ?_, ?_⟩
        · rw [hstate]
        · intro hnone
          simp at hnone
        · intro H2 W2 hH hW
          simp only [Option.some.injEq] at hH hW
          subst hH hW
          refine ⟨?_, ?_, ?_⟩
          · simp [List.filter_append, filter_isMouseEvent_transferFocus, GUICall.isMouseEvent]
          · rw [hstate]
          · rw [hstate]
  · intro other hother
    have hne : ¬ ab = other := fun h => hother h.symm
    have hpress : acceptMouseDown env
        (clearStuckActive ⟨ws, cache, sep, oe, ow, some A, aw, ab, fe, fw, lp⟩ other) other =
        Except.ok (⟨ws, cache, sep, oe, ow, some A, aw, ab, fe, fw, lp⟩, []) := by
      simp [clearStuckActive, acceptMouseDown, hne]
    obtain ⟨focusE, focusW, hstate⟩ := transferFocus_state env
      ⟨ws, cache, sep, oe, ow, some A, aw, ab, fe, fw, lp⟩
    refine ⟨_, _, onButtonDown_pointer env _ other _ _ hpress, ?_, ?_, ?_, ?_⟩
    · simp [filter_isMouseEvent_transferFocus]
    · rw [hstate]
    · rw [hstate]
    · rw [hstate]

/-- C23 (witness): the statement at the manager with element 2 of widget 1 hovered and
active for the left button. -/
theorem buttonDown_stuck_button_witness :
    ∃ next calls,
      onButtonDown hoverEnv draggingManager ⟨ButtonCode.mouseLeft, false⟩ =
        Except.ok (next, calls) ∧
      next.mActiveElement = some 2 ∧
      calls.filter GUICall.isMouseEvent =
        [GUICall.mouseEvent 1 2 (mkMouseEvent hoverEnv (GUIMouseEventData.MouseDown (some 2)
            (getWidgetRelativePos hoverEnv 1 hoverEnv.getMousePosition) GUIMouseButton.Left)),
          GUICall.mouseEvent 1 2 (mkMouseEvent hoverEnv (GUIMouseEventData.MouseDragStart
            (some 2) (getWidgetRelativePos hoverEnv 1 hoverEnv.getMousePosition)))] := by
  obtain ⟨next, calls, hcalls, helement, -, hhover⟩ :=
    (buttonDown_stuck_button hoverEnv draggingManager 2 rfl (by decide)).1
  exact ⟨next, calls, hcalls, helement, (hhover 2 1 rfl rfl).1⟩

/-- C24: an unconsumed pointer `ButtonDown` succeeds. If an element `H` is hovered and accepts
the keyboard focus, the focus slot holds `H` and the hover widget afterwards, and the
`_setFocus` calls made are `_setFocus(false)` on the element focused before, when there is one
and it is not `H`, followed by `_setFocus(true)` on `H`. If nothing is hovered or the hovered
element does not accept the keyboard focus, the focus slot is as it was and no `_setFocus` call
is made. -/
theorem buttonDown_focus_transfer (env : GUIEnv) (m : GUIManager) (b : GUIMouseButton)
    (hover : m.mMouseOverElement ≠ none → m.mMouseOverWidget ≠ none) :
    ∃ next calls,
      onButtonDown env m ⟨b.toButtonCode, false⟩ = Except.ok (next, calls) ∧
      (∀ H, m.mMouseOverElement = some H → env.acceptsKeyboardFocus H = true →
        next.mKeyboardFocusElement = some H ∧
        next.mKeyboardFocusWidget = m.mMouseOverWidget ∧
        calls.filter GUICall.isSetFocus =
          ((m.mKeyboardFocusElement.toList.filter fun F => decide (F ≠ H)).map
            fun F => GUICall.setFocus F false) ++ [GUICall.setFocus H true]) ∧
      ((m.mMouseOverElement = none ∨
          ∃ H, m.mMouseOverElement = some H ∧ env.acceptsKeyboardFocus H = false) →
        next.mKeyboardFocusElement = m.mKeyboardFocusElement ∧
        next.mKeyboardFocusWidget = m.mKeyboardFocusWidget ∧
        calls.filter GUICall.isSetFocus = []) := by
  obtain ⟨c1, c2, c3, c4⟩ := clearStuckActive_frame m b
  obtain ⟨pressed, mouseCalls, hpress, p1, p2, p3, p4, p5⟩ :=
    acceptMouseDown_ok env (clearStuckActive m b) b (by rw [c1, c2]; exact hover)
  obtain ⟨hyes, hno⟩ := transferFocus_spec env pressed
  rw [c1] at p1
  rw [c2] at p2
  rw [c3] at p3
  rw [c4] at p4
  refine ⟨_, _, onButtonDown_pointer env m b pressed mouseCalls hpress, ?_, ?_⟩
  · intro H hH hacc
    obtain ⟨h1, h2, h3⟩ := hyes H (p1.trans hH) hacc
    refine ⟨h1, h2.trans p2, ?_⟩
    rw [List.filter_append, p5, h3, p3]
    simp [List.filter_append, List.filter_map, GUICall.isSetFocus, Function.comp_def]
  · intro hcase
    have hcase2 : pressed.mMouseOverElement = none ∨
        ∃ H, pressed.mMouseOverElement = some H ∧ env.acceptsKeyboardFocus H = false := by
      rw [p1]
      exact hcase
    rw [hno hcase2]
    exact ⟨p3, p4, by simp [p5]⟩

/-- C24 (witness): the statement for the left button at the manager with element 2 of widget 1
hovered and element 1 focused, every element accepting the keyboard focus. -/
theorem buttonDown_focus_transfer_witness :
    ∃ next calls,
      onButtonDown focusEnv { hoveringManager with
          mKeyboardFocusElement := some 1, mKeyboardFocusWidget := some 1 }
        ⟨ButtonCode.mouseLeft, false⟩ = Except.ok (next, calls) ∧
      next.mKeyboardFocusElement = some 2 ∧ next.mKeyboardFocusWidget = some 1 ∧
      calls.filter GUICall.isSetFocus =
        [GUICall.setFocus 1 false, GUICall.setFocus 2 true] := by
  obtain ⟨next, calls, hcalls, hyes, -⟩ :=
    buttonDown_focus_transfer focusEnv { hoveringManager with
      mKeyboardFocusElement := some 1, mKeyboardFocusWidget := some 1 }
      GUIMouseButton.Left (by decide)
  obtain ⟨h1, h2, h3⟩ := hyes 2 rfl rfl
  exact ⟨next, calls, hcalls, h1, h2, h3⟩

/-! ## Null widgets -/

theorem routeKey_ok (env : GUIEnv) (m : GUIManager) (data : GUIKeyEventData)
    (hfocus : m.mKeyboardFocusElement ≠ none → m.mKeyboardFocusWidget ≠ none) :
    ∃ calls, routeKey env m data = Except.ok calls := by
  rcases m with ⟨ws, cache, sep, oe, ow, ae, aw, ab, fe, fw, lp⟩
  simp only at hfocus
  cases fe with
  | none => exact ⟨[], by simp [routeKey]⟩
  | some f =>
    cases fw with
    | none => simp at hfocus
    | some w => exact ⟨[GUICall.keyEvent w f (mkKeyEvent env data)], by simp [routeKey, deref]⟩

theorem buttonToMouseButton_error (code : ButtonCode) (e : GUIError)
    (h : buttonToMouseButton code = Except.error e) : e = GUIError.invalidParameters := by
  unfold buttonToMouseButton at h
  split_ifs at h
  simp only [Except.error.injEq] at h
  exact h.symm

theorem releaseMouse_ok (env : GUIEnv) (m : GUIManager) (b : GUIMouseButton)
    (hover : m.mMouseOverElement ≠ none → m.mMouseOverWidget ≠ none)
    (hactive : m.mActiveElement ≠ none → m.mActiveWidget ≠ none) :
    ∃ released calls, releaseMouse env m b = Except.ok (released, calls) := by
  have h : ∀ e, releaseMouse env m b ≠ Except.error e := by
    intro e
    rcases m with ⟨ws, cache, sep, oe, ow, ae, aw, ab, fe, fw, lp⟩
    simp only at hover hactive
    by_cases hb : ab = b
    · cases ae with
      | none => cases oe <;> simp [releaseMouse, hb]
      | some a =>
        cases aw with
        | none => simp at hactive
        | some w =>
          cases oe with
          | none => simp [releaseMouse, hb, deref]
          | some o =>
            cases ow with
            | none => simp at hover
            | some ow2 =>
              by_cases hao : a = o <;> simp [releaseMouse, hb, deref, hao]
    · cases oe <;> cases ae <;> simp [releaseMouse, hb]
  cases hr : releaseMouse env m b with
  | error e => exact absurd hr (h e)
  | ok r => exact ⟨r.1, r.2, rfl⟩

/-- With a widget in every slot that holds an element, `onButtonDown` fails only with the
invalid-parameters error of `buttonToMouseButton`. -/
theorem onButtonDown_error (env : GUIEnv) (m : GUIManager) (event : ButtonEvent)
    (hover : m.mMouseOverElement ≠ none → m.mMouseOverWidget ≠ none)
    (hfocus : m.mKeyboardFocusElement ≠ none → m.mKeyboardFocusWidget ≠ none)
    (e : GUIError) (h : onButtonDown env m event = Except.error e) :
    e = GUIError.invalidParameters := by
  unfold onButtonDown at h
  by_cases hused : event.used = true
  · simp [hused] at h
  · obtain ⟨keyCalls, hkey⟩ := routeKey_ok env m (GUIKeyEventData.KeyDown event.buttonCode) hfocus
    have hk : (if event.isKeyboard = true then
        routeKey env m (GUIKeyEventData.KeyDown event.buttonCode) else Except.ok []) =
        Except.ok (if event.isKeyboard = true then keyCalls else []) := by
      split_ifs
      · exact hkey
      · rfl
    rw [if_neg hused, hk] at h
    simp only at h
    by_cases hmouse : event.isMouse = true
    · rw [if_pos hmouse] at h
      cases hb : buttonToMouseButton event.buttonCode with
      | error e2 =>
        rw [hb] at h
        simp only [Except.error.injEq] at h
        rw [← h]
        exact buttonToMouseButton_error _ _ hb
      | ok b =>
        rw [hb] at h
        obtain ⟨c1, c2, -, -⟩ := clearStuckActive_frame m b
        obtain ⟨pressed, mouseCalls, hpress, -⟩ :=
          acceptMouseDown_ok env (clearStuckActive m b) b (by rw [c1, c2]; exact hover)
        simp only [hpress] at h
        simp at h
    · rw [if_neg hmouse] at h
      simp at h

/-- With a widget in every slot that holds an element, `onButtonUp` fails only with the
invalid-parameters error of `buttonToMouseButton`. -/
theorem onButtonUp_error (env : GUIEnv) (m : GUIManager) (event : ButtonEvent)
    (hover : m.mMouseOverElement ≠ none → m.mMouseOverWidget ≠ none)
    (hactive : m.mActiveElement ≠ none → m.mActiveWidget ≠ none)
    (hfocus : m.mKeyboardFocusElement ≠ none → m.mKeyboardFocusWidget ≠ none)
    (e : GUIError) (h : onButtonUp env m event = Except.error e) :
    e = GUIError.invalidParameters := by
  unfold onButtonUp at h
  by_cases hused : event.used = true
  · simp [hused] at h
  · obtain ⟨keyCalls, hkey⟩ := routeKey_ok env m (GUIKeyEventData.KeyUp event.buttonCode) hfocus
    have hk : (if event.isKeyboard = true then
        routeKey env m (GUIKeyEventData.KeyUp event.buttonCode) else Except.ok []) =
        Except.ok (if event.isKeyboard = true then keyCalls else []) := by
      split_ifs
      · exact hkey
      · rfl
    rw [if_neg hused, hk] at h
    simp only at h
    by_cases hmouse : event.isMouse = true
    · rw [if_pos hmouse] at h
      cases hb : buttonToMouseButton event.buttonCode with
      | error e2 =>
        rw [hb] at h
        simp only [Except.error.injEq] at h
        rw [← h]
        exact buttonToMouseButton_error _ _ hb
      | ok b =>
        rw [hb] at h
        obtain ⟨released, calls, hrel⟩ := releaseMouse_ok env m b hover hactive
        simp only [hrel] at h
        simp at h
    · rw [if_neg hmouse] at h
      simp at h

theorem onMouseMoved_ok (env : GUIEnv) (m : GUIManager) (event : MouseEvent)
    (hover : m.mMouseOverElement ≠ none → m.mMouseOverWidget ≠ none)
    (hactive : m.mActiveElement ≠ none → m.mActiveWidget ≠ none) :
    ∃ next calls, onMouseMoved env m event = Except.ok (next, calls) := by
  by_cases hused : event.used = true
  · exact ⟨m, [], by simp [onMouseMoved, hused]⟩
  · have htop := findTopMost_widget_ne_none env m.mWidgets event.screenPos
    obtain ⟨out, over, h1, -⟩ :=
      hoverCalls_spec env m event (findTopMost env m.mWidgets event.screenPos) hover htop
    obtain ⟨lastPos, moves, h2, -⟩ :=
      moveCalls_ok env m event (findTopMost env m.mWidgets event.screenPos) hactive htop
    exact ⟨_, _, onMouseMoved_eq env m event (by simpa using hused) _ _ _ h1 h2⟩

theorem onTextInput_ok (env : GUIEnv) (m : GUIManager) (event : TextInputEvent)
    (hfocus : m.mKeyboardFocusElement ≠ none → m.mKeyboardFocusWidget ≠ none) :
    ∃ calls, onTextInput env m event = Except.ok (m, calls) := by
  rcases m with ⟨ws, cache, sep, oe, ow, ae, aw, ab, fe, fw, lp⟩
  simp only at hfocus
  cases fe with
  | none => exact ⟨[], by simp [onTextInput]⟩
  | some f =>
    cases fw with
    | none => simp at hfocus
    | some w =>
      by_cases hmod : (ctrlDown env || altDown env) = true
      · exact ⟨[], by simp only [onTextInput, hmod, if_true]⟩
      · exact ⟨_, by simp only [onTextInput, hmod, deref]; rfl⟩

/-- C28: in every reachable state each of the hover, active and focus slots has a widget that
is not null when its element is not null, and no handler makes a call through a null widget
there: `onMouseMoved` and `onTextInput` succeed, and `onButtonDown` and `onButtonUp` fail only
with the invalid-parameters error of `buttonToMouseButton`. -/
theorem reachable_slot_widget_not_null (m : GUIManager) (hreach : Reachable m) :
    (m.mMouseOverElement ≠ none → m.mMouseOverWidget ≠ none) ∧
    (m.mActiveElement ≠ none → m.mActiveWidget ≠ none) ∧
    (m.mKeyboardFocusElement ≠ none → m.mKeyboardFocusWidget ≠ none) ∧
    ∀ env : GUIEnv,
      (∀ event, onButtonDown env m event ≠ Except.error GUIError.nullPointer) ∧
      (∀ event, onButtonUp env m event ≠ Except.error GUIError.nullPointer) ∧
      (∀ event, ∃ next calls, onMouseMoved env m event = Except.ok (next, calls)) ∧
      (∀ event, ∃ next calls, onTextInput env m event = Except.ok (next, calls)) := by
  obtain ⟨h1, h2, h3⟩ := reachable_slots_valid m hreach
  refine ⟨h1.2, h2.2, h3.2, fun env => ⟨?_, ?_, ?_, ?_⟩⟩
  · intro event h
    exact absurd (onButtonDown_error env m event h1.2 h3.2 _ h) (by decide)
  · intro event h
    exact absurd (onButtonUp_error env m event h1.2 h2.2 h3.2 _ h) (by decide)
  · intro event
    exact onMouseMoved_ok env m event h1.2 h2.2
  · intro event
    obtain ⟨calls, h⟩ := onTextInput_ok env m event h3.2
    exact ⟨m, calls, h⟩

/-- C28 (witness): the statement at the manager with element 2 of widget 1 hovered and active,
for a left button release. -/
theorem reachable_slot_widget_not_null_witness :
    Reachable draggingManager ∧ draggingManager.mActiveWidget ≠ none ∧
      onButtonUp hoverEnv draggingManager ⟨ButtonCode.mouseLeft, false⟩ ≠
        Except.error GUIError.nullPointer :=
  ⟨reachable_draggingManager,
    (reachable_slot_widget_not_null draggingManager reachable_draggingManager).2.1
      (by decide),
    ((reachable_slot_widget_not_null draggingManager reachable_draggingManager).2.2.2
      hoverEnv).2.1 ⟨ButtonCode.mouseLeft, false⟩⟩

/-! ## The local position of the topmost element -/

theorem reachable_twoWidgetManager : Reachable twoWidgetManager :=
  Reachable.register twoWidgetEnv _ 2 (Reachable.register twoWidgetEnv _ 1 Reachable.initial)

/-- C22 (failing input): widgets 1 and 2 of the focused window both contain the pointer at
(5, 5), and element 1 of widget 1 is the topmost element there. The position local to
widget 1 is (5, 5), but the `MouseOver` and `MouseMove` events delivered to element 1 through
widget 1 carry (-95, 5), the position local to widget 2, which was scanned after widget 1 and
has no element; this position is also recorded as the last cursor position. -/
theorem onMouseMoved_local_position_of_other_widget :
    Reachable twoWidgetManager ∧
    twoWidgetEnv.getElements 1 = [1] ∧ twoWidgetEnv.getElements 2 = [] ∧
    twoWidgetEnv.worldToLocal 1
      (twoWidgetEnv.screenToWindowPos (twoWidgetEnv.getOwnerWindow 1) ⟨5, 5⟩) = ⟨5, 5⟩ ∧
    twoWidgetEnv.worldToLocal 2
      (twoWidgetEnv.screenToWindowPos (twoWidgetEnv.getOwnerWindow 2) ⟨5, 5⟩) = ⟨-95, 5⟩ ∧
    onMouseMoved twoWidgetEnv twoWidgetManager ⟨⟨5, 5⟩, 0, false⟩ =
      Except.ok
        ({ twoWidgetManager with
            mMouseOverElement := some 1
            mMouseOverWidget := some 1
            mLastCursorLocalPos := ⟨-95, 5⟩ },
          [GUICall.mouseEvent 1 1 (mkMouseEvent twoWidgetEnv
              (GUIMouseEventData.MouseOver (some 1) ⟨-95, 5⟩)),
            GUICall.mouseEvent 1 1 (mkMouseEvent twoWidgetEnv
              (GUIMouseEventData.MouseMove (some 1) ⟨-95, 5⟩))]) :=
  ⟨reachable_twoWidgetManager, rfl, rfl, rfl, rfl, rfl⟩

/-! ## Groups and widgets -/

/-- What the acceptance of a group says about the parent widgets, with meshes separated by
widget: the first element of the group has the parent widget of the element. -/
theorem groupAccepts_widget (env : GUIEnv) (mg : MaterialGroups) (elem : GUIGroupElement)
    (g0 : GUIMaterialGroup) (hacc : groupAccepts env true mg elem g0 = true)
    (first : GUIGroupElement) (rest : List GUIGroupElement)
    (hfirst : g0.elements = first :: rest) :
    env.getParentWidget first.element = env.getParentWidget elem.element := by
  unfold groupAccepts at hacc
  by_cases hskip : skippedForWidget env true elem g0 = true
  · simp [hskip] at hacc
  · simpa [skippedForWidget, hfirst] using hskip

/-- With meshes separated by widget, every element of a group has the parent widget of the
first element of the group. -/
theorem group_member_widget (env : GUIEnv) (xs : List GUIGroupElement) :
    ∀ g ∈ groupList (groupElements env true xs), ∀ first rest, g.elements = first :: rest →
      ∀ p ∈ g.elements, env.getParentWidget p.element = env.getParentWidget first.element := by
  induction xs using List.reverseRecOn with
  | nil =>
    intro g hg
    simp [groupElements, groupList] at hg
  | append_singleton pre elem ih =>
    intro g1 hg1 first rest hfirst p hp
    rw [groupElements_snoc] at hg1
    rcases addElement_group_origin env true _ elem g1 hg1 with h | h | ⟨g0, hg0, hmerge, hacc, _⟩
    · exact ih g1 h first rest hfirst p hp
    · subst h
      simp only [newGroup, List.cons.injEq] at hfirst
      simp only [newGroup, List.mem_singleton] at hp
      rw [hp, hfirst.1]
    · obtain ⟨first0, rest0, hfirst0, _⟩ := group_first_depth env true pre g0 hg0
      subst hmerge
      simp only [mergeInto, hfirst0, List.cons_append, List.cons.injEq] at hfirst
      simp only [mergeInto, List.mem_append, List.mem_singleton] at hp
      rw [← hfirst.1]
      rcases hp with hp | hp
      · exact ih g0 hg0 first0 rest0 hfirst0 p hp
      · rw [hp]
        exact (groupAccepts_widget env _ elem g0 hacc first0 rest0 hfirst0).symm

theorem widgetOfGroup_of_mem (env : GUIEnv) (xs : List GUIGroupElement) :
    ∀ g ∈ groupList (groupElements env true xs), ∀ p ∈ g.elements,
      widgetOfGroup env g = some (env.getParentWidget p.element) := by
  intro g hg p hp
  obtain ⟨first, rest, hfirst, _⟩ := group_first_depth env true xs g hg
  rw [group_member_widget env xs g hg first rest hfirst p hp]
  simp [widgetOfGroup, hfirst]

theorem foldl_writeGroup_widgetsPerMesh (env : GUIEnv) :
    ∀ (l : List (Nat × GroupPtr)) (acc : GUIRenderData × List FillCall),
      (l.foldl (writeGroup env true) acc).1.cachedWidgetsPerMesh =
        l.foldl (fun ws ig => ws.set ig.1 (widgetOfGroup env ig.2.group))
          acc.1.cachedWidgetsPerMesh
  | [], acc => rfl
  | x :: l, acc => by
    rw [List.foldl_cons, List.foldl_cons, foldl_writeGroup_widgetsPerMesh env l]
    rfl

/-- With meshes separated by widget, the widgets cached by a rebuild are the widgets of the
sorted groups, in order. -/
theorem rebuildRenderData_cachedWidgetsPerMesh (env : GUIEnv) (renderData : GUIRenderData) :
    (rebuildRenderData env true renderData).1.cachedWidgetsPerMesh =
      (sortedGroups env true renderData.widgets).map fun p => widgetOfGroup env p.group := by
  unfold rebuildRenderData
  simp only
  rw [foldl_writeGroup_widgetsPerMesh]
  have h := foldl_set_enumFrom (fun p : GroupPtr => widgetOfGroup env p.group)
    (sortedGroups env true renderData.widgets) []
    (resize renderData.cachedWidgetsPerMesh (sortedGroups env true renderData.widgets).length
      none)
    (length_resize _ _ _)
  simpa [List.enum] using h

/-- C25: with meshes separated by widget, all elements of a group of a rebuild have one parent
widget, the widgets cached per mesh are the widgets of the groups of the batch sequence, in
order, and the widget cached for a batch is the parent widget of every element of the batch. -/
theorem updateMeshes_group_single_widget (env : GUIEnv) (renderData : GUIRenderData) :
    (∀ g ∈ groupList (buildGroups env true renderData.widgets), ∀ p ∈ g.elements,
        ∀ q ∈ g.elements, env.getParentWidget p.element = env.getParentWidget q.element) ∧
      (rebuildRenderData env true renderData).1.cachedWidgetsPerMesh =
        (sortedGroups env true renderData.widgets).map
          (fun batch => widgetOfGroup env batch.group) ∧
      (∀ (i : Nat) (batch : GroupPtr),
        (sortedGroups env true renderData.widgets)[i]? = some batch →
        ∀ p ∈ batch.group.elements,
          (rebuildRenderData env true renderData).1.cachedWidgetsPerMesh[i]? =
            some (some (env.getParentWidget p.element))) := by
  refine ⟨?_, rebuildRenderData_cachedWidgetsPerMesh env renderData, ?_⟩
  · intro g hg p hp q hq
    obtain ⟨first, rest, hfirst, _⟩ := group_first_depth env true _ g hg
    rw [group_member_widget env _ g hg first rest hfirst p hp,
      group_member_widget env _ g hg first rest hfirst q hq]
  · intro i batch hbatch p hp
    rw [rebuildRenderData_cachedWidgetsPerMesh, List.getElem?_map, hbatch]
    simp only [Option.map_some']
    rw [widgetOfGroup_of_mem env _ batch.group
      (group_of_mem_sortedGroups env true _ batch (List.mem_iff_getElem?.mpr ⟨i, hbatch⟩)) p hp]

/-- C25 (witness): the statement at the scene of two adjacent depths, whose one batch holds
elements 2 and 1 of widget 1. -/
theorem updateMeshes_group_single_widget_witness :
    (rebuildRenderData adjacentEnv true ⟨[1], true, [], [], []⟩).1.cachedWidgetsPerMesh[0]? =
      some (some (adjacentEnv.getParentWidget 2)) :=
  (updateMeshes_group_single_widget adjacentEnv ⟨[1], true, [], [], []⟩).2.2 0
    ⟨56, ⟨7, 2, 3, ⟨0, 0, 30, 10⟩, [⟨2, 0⟩, ⟨1, 0⟩]⟩⟩ (by decide) ⟨2, 0⟩ (by decide)

/-! ## The lengths of the cached vectors -/

theorem foldl_writeGroup_meshes_length (env : GUIEnv) (sep : Bool) :
    ∀ (rest : List GroupPtr) (k : Nat) (acc : GUIRenderData × List FillCall),
      k ≤ acc.1.cachedMeshes.length →
      ((rest.enumFrom k).foldl (writeGroup env sep) acc).1.cachedMeshes.length =
        max acc.1.cachedMeshes.length (k + rest.length)
  | [], k, acc, h => by simp [h]
  | p :: rest, k, acc, h => by
    rw [List.enumFrom_cons, List.foldl_cons]
    have hlen : (writeGroup env sep acc (k, p)).1.cachedMeshes.length =
        if k ≥ acc.1.cachedMeshes.length then acc.1.cachedMeshes.length + 1
        else acc.1.cachedMeshes.length := by
      unfold writeGroup
      simp only [List.length_set]
      split_ifs <;> simp
    rw [foldl_writeGroup_meshes_length env sep rest (k + 1) _ (by rw [hlen]; split_ifs <;> omega),
      hlen]
    simp only [List.length_cons]
    split_ifs <;> omega

/-- The number of meshes cached by a rebuild is the number of sorted groups. -/
theorem rebuildRenderData_cachedMeshes_length (env : GUIEnv) (sep : Bool)
    (renderData : GUIRenderData) :
    (rebuildRenderData env sep renderData).1.cachedMeshes.length =
      (sortedGroups env sep renderData.widgets).length := by
  unfold rebuildRenderData
  simp only [List.enum]
  rw [foldl_writeGroup_meshes_length env sep _ 0 _ (Nat.zero_le _)]
  simp only
  split_ifs with h
  · rw [length_resize]
    omega
  · omega

theorem renderMeshes_ok (renderData : GUIRenderData) :
    ∀ (meshes : List MeshData) (meshIdx : Nat),
      (∀ i, meshIdx ≤ i → i < meshIdx + meshes.length →
        ∃ material widget, renderData.cachedMaterials[i]? = some material ∧
          renderData.cachedWidgetsPerMesh[i]? = some (some widget)) →
      ∃ calls, renderMeshes renderData meshIdx meshes = Except.ok calls ∧
        calls.length = meshes.length
  | [], meshIdx, _ => ⟨[], rfl, rfl⟩
  | mesh :: rest, meshIdx, h => by
    obtain ⟨material, widget, h1, h2⟩ := h meshIdx (Nat.le_refl _) (by simp)
    obtain ⟨calls, hcalls, hlen⟩ := renderMeshes_ok renderData rest (meshIdx + 1)
      (fun i hi1 hi2 => h i (by omega) (by simp only [List.length_cons]; omega))
    refine ⟨⟨mesh, material, widget⟩ :: calls, ?_, by simp [hlen]⟩
    simp [renderMeshes, h1, h2, hcalls]

theorem sortedGroups_of_no_elements (env : GUIEnv) (sep : Bool) (widgets : List Nat)
    (h : insertedElements env widgets = []) : sortedGroups env sep widgets = [] := by
  simp [sortedGroups, buildGroups, allElements, h, setInsertAll, groupElements, insertedGroups]

/-- C26: after a rebuild, whatever was cached before, the cached meshes and the cached
materials are as many as the groups of the batch sequence, which are none when no fragment of
an enabled element is inserted; with meshes separated by widget the cached widgets are as many
too, and `render` for a manager that holds the rebuilt entry for a target finds a material and
a widget that is not null for every mesh and makes one `renderMesh` call for each group. -/
theorem rebuild_cached_vectors_match (env : GUIEnv) (sep : Bool) (renderData : GUIRenderData) :
    (rebuildRenderData env sep renderData).1.cachedMeshes.length =
      (sortedGroups env sep renderData.widgets).length ∧
    (rebuildRenderData env sep renderData).1.cachedMaterials.length =
      (sortedGroups env sep renderData.widgets).length ∧
    (rebuildRenderData env true renderData).1.cachedWidgetsPerMesh.length =
      (sortedGroups env true renderData.widgets).length ∧
    (insertedElements env renderData.widgets = [] →
      (sortedGroups env sep renderData.widgets).length = 0) ∧
    ∀ (m : GUIManager) (target : Nat), m.mSeparateMeshesByWidget = true →
      findRenderData m.mCachedGUIData target =
        some (rebuildRenderData env true renderData).1 →
      ∃ calls, render m target = Except.ok calls ∧
        calls.length = (sortedGroups env true renderData.widgets).length := by
  refine ⟨rebuildRenderData_cachedMeshes_length env sep renderData, ?_, ?_, ?_, ?_⟩
  · rw [rebuildRenderData_cachedMaterials, List.length_map]
  · rw [rebuildRenderData_cachedWidgetsPerMesh, List.length_map]
  · intro h
    rw [sortedGroups_of_no_elements env sep _ h]
    rfl
  · intro m target hsep hfind
    have hlen := rebuildRenderData_cachedMeshes_length env true renderData
    obtain ⟨calls, hcalls, hcount⟩ := renderMeshes_ok (rebuildRenderData env true renderData).1
      (rebuildRenderData env true renderData).1.cachedMeshes 0 (by
        intro i _ hi
        rw [Nat.zero_add, hlen] at hi
        obtain ⟨first, rest, hfirst, _⟩ := group_first_depth env true _ _
          (group_of_mem_sortedGroups env true renderData.widgets _
            (List.getElem_mem hi))
        refine ⟨some ((sortedGroups env true renderData.widgets)[i]).group.material,
          env.getParentWidget first.element, ?_, ?_⟩
        · rw [rebuildRenderData_cachedMaterials, List.getElem?_map,
            List.getElem?_eq_getElem hi]
          rfl
        · rw [rebuildRenderData_cachedWidgetsPerMesh, List.getElem?_map,
            List.getElem?_eq_getElem hi]
          simp [widgetOfGroup, hfirst])
    refine ⟨calls, ?_, by rw [hcount, hlen]⟩
    simp [render, hfind, hsep, hcalls]

/-- C26 (witness): the statement for a rebuild at the scene of two adjacent depths of an entry
that had three meshes, no material and five widgets cached: the rebuild leaves one of each and
`render` makes one call. -/
theorem rebuild_cached_vectors_match_witness :
    ∃ calls,
      render { oneWidgetManager with
          mCachedGUIData := [(1, (rebuildRenderData adjacentEnv true
            ⟨[1], false, [⟨0, 0, []⟩, ⟨0, 0, []⟩, ⟨0, 0, []⟩], [],
              [none, none, none, none, none]⟩).1)] } 1 =
        Except.ok calls ∧
      calls.length = (sortedGroups adjacentEnv true [1]).length :=
  (rebuild_cached_vectors_match adjacentEnv true
    ⟨[1], false, [⟨0, 0, []⟩, ⟨0, 0, []⟩, ⟨0, 0, []⟩], [], [none, none, none, none, none]⟩).2.2.2.2
    _ 1 rfl (by simp [findRenderData])

/-! ## Group depths of overlapping fragments -/

/-- The elements of a group are listed in the order they were processed. -/
theorem group_elements_sublist (env : GUIEnv) (sep : Bool) (xs : List GUIGroupElement) :
    ∀ g ∈ groupList (groupElements env sep xs), g.elements.Sublist xs := by
  induction xs using List.reverseRecOn with
  | nil =>
    intro g hg
    simp [groupElements, groupList] at hg
  | append_singleton pre elem ih =>
    intro g1 hg1
    rw [groupElements_snoc] at hg1
    rcases addElement_group_origin env sep _ elem g1 hg1 with h | h | ⟨g0, hg0, hmerge, _, _⟩
    · exact (ih g1 h).trans (List.sublist_append_left _ _)
    · subst h
      exact List.sublist_append_right _ _
    · subst hmerge
      exact List.Sublist.append (ih g0 hg0) (List.Sublist.refl _)

/-- C27: when `encapsulate` keeps the overlaps of the rectangles it joins, for fragments `f`
and `g` of a rebuild with `depth f > depth g ≥ 1` and the bounds of `f` overlapping the bounds
of `g`, the group of `g` is not farther than the group of `f`; and every group of the rebuild
has the depth of its first element, holds no element farther than that, and lists its elements
in non-increasing order of depth. -/
theorem updateMeshes_overlap_group_depth_order (env : GUIEnv) (sep : Bool)
    (widgets : List Nat)
    (hkeep : ∀ r s t, env.overlaps r t = true → env.overlaps (env.encapsulate r s) t = true)
    (hadd : ∀ r s t, env.overlaps s t = true → env.overlaps (env.encapsulate r s) t = true)
    (groupF groupG : GUIMaterialGroup)
    (hgroupF : groupF ∈ groupList (buildGroups env sep widgets))
    (hgroupG : groupG ∈ groupList (buildGroups env sep widgets))
    (f g : GUIGroupElement) (hf : f ∈ groupF.elements) (hg : g ∈ groupG.elements)
    (hdepth : 1 ≤ env.depthOf g) (hfar : env.depthOf g < env.depthOf f)
    (hoverlap : env.overlaps (env.tfrmedBounds f.element) (env.tfrmedBounds g.element) = true) :
    groupG.depth ≤ groupF.depth ∧
      ∀ group ∈ groupList (buildGroups env sep widgets),
        (∃ first rest, group.elements = first :: rest ∧ env.depthOf first = group.depth) ∧
        (∀ p ∈ group.elements, env.depthOf p ≤ group.depth) ∧
        group.elements.Pairwise fun a b => env.depthOf b ≤ env.depthOf a := by
  have hsorted := allElements_depth_sorted env widgets
  constructor
  · by_contra hlt
    have hF := group_member_depth env sep _ hsorted groupF hgroupF f hf
    have hno := groups_no_intervening env sep hkeep hadd _ hsorted groupG hgroupG groupF
      hgroupF g hg f hf hdepth hfar (by omega) (by omega)
    rw [hoverlap] at hno
    exact absurd hno (by decide)
  · intro group hgroup
    exact ⟨group_first_depth env sep _ group hgroup,
      group_member_depth env sep _ hsorted group hgroup,
      hsorted.sublist (group_elements_sublist env sep _ group hgroup)⟩

/-- C27 (witness): the statement at the scene of three elements, for element 1 (depth 6) and
element 2 (depth 4), which overlap and lie in the groups of depth 6 and of depth 4. -/
theorem updateMeshes_overlap_group_depth_order_witness :
    (4 : Nat) ≤ 6 ∧
      ∀ group ∈ groupList (buildGroups interveningEnv true [1]),
        (∃ first rest, group.elements = first :: rest ∧
          interveningEnv.depthOf first = group.depth) ∧
        (∀ p ∈ group.elements, interveningEnv.depthOf p ≤ group.depth) ∧
        group.elements.Pairwise fun a b => interveningEnv.depthOf b ≤ interveningEnv.depthOf a :=
  updateMeshes_overlap_group_depth_order interveningEnv true [1]
    (fun r s t h => Rect.overlaps_encapsulate_left r s t h)
    (fun r s t h => Rect.overlaps_encapsulate_right r s t h)
    ⟨1, 2, 6, ⟨0, 0, 110, 10⟩, [⟨1, 0⟩, ⟨3, 0⟩]⟩ ⟨2, 1, 4, ⟨5, 0, 10, 10⟩, [⟨2, 0⟩]⟩
    (by decide) (by decide) ⟨1, 0⟩ ⟨2, 0⟩ (by decide) (by decide) (by decide) (by decide)
    (by decide)

end BansheeEngine
